import Mathlib

/-!
# ImLottie frame pipeline

A shallow embedding of the frame pipeline of `src/imlottie.h`:
the animation instance `LottieAnim` (load, render, grabCurrentFrame), the
worker `LottieRenderThread` (command queue, ready-frame queue,
resolveCommand) and the front end `LottieAnimationRenderer` (match, discard).

Conventions.
* `uint32_t` and `uint16_t` values are natural numbers; every operation that
  can wrap is written with an explicit `% U32` or `% U16`.
* `std::queue` is a list whose head is `front()`; `push` appends at the end.
* `std::unordered_map` is an association list with pairwise distinct keys;
  the list order stands for the (unspecified) iteration order.
* Operations whose C++ behaviour is undefined (division or remainder by zero,
  the conversion of a `float` outside the range of `int`) return `none`.
* Functions that are only declared in the header (`imlottie::animationLoad`,
  `ImHashStr`, ...) are fields of the environment `Env`.

The second part embeds pieces of `src/imlottie_impl.h`: the matrix `VMatrix`
(type cache, mutators, `map`, `inverted`, `operator*`), the composition data
`LOTCompositionData`, the path helpers `VDasher` and `VPathMesure`, the
copy-on-write handle `vcow_ptr`, the run list `VRle`, the rectangle `VRect`,
the approximate length `VLine::length`, the trim segment of `LOTTrimData`,
the animated properties `LOTAnimInfo` and `LOTAnimatable`, and the change
detection of the path items (`LOTPathDataItem::hasChanged` and the tests of
`LOTRectItem`, `LOTEllipseItem`, `LOTShapeItem` and `LOTPolystarItem`).

* `float` and `double` values are rational numbers with exact arithmetic; the
  tolerances of `vIsZero` and `vCompare` are kept.
* A handle of `vcow_ptr` is an address into an explicit store of payloads.
* Member functions whose bodies are not in the sources are parameters, or,
  where a property is about them, are modelled from the specification and
  marked so.
* A recursion of the code that need not end takes a bound on its depth and
  returns an `Outcome`, which tells a result from an undefined operation and
  from a run that is not finished within the bound.
-/

namespace ImLottie

/-! ## Machine integers -/

/-- Number of values of a `uint32_t`. -/
def U32 : Nat := 4294967296

/-- Number of values of a `uint16_t`. -/
def U16 : Nat := 65536

/-- Subtraction of two `uint32_t` values: `a - b` wraps modulo `2^32`. -/
def sub32 (a b : Nat) : Nat := (a % U32 + U32 - b % U32) % U32

/-- Conversion of an `int` to `uint32_t`. -/
def toU32 (i : Int) : Nat := (i % 4294967296).toNat

/-- The constant `constexpr ImGuiID BAD_PICTUREID = ImGuiID(-1);` -/
def BAD_PICTUREID : Nat := 4294967295

/-! ## Frames -/

/-- Contents of a pixel buffer (`std::vector<uint8_t>`). The rasteriser
`imlottie::animationRenderSync` is an external collaborator: a buffer it has
filled is represented by the arguments of the call that filled it (frame
index, canvas width and height); `empty` is the default-constructed vector. -/
inductive PixelData where
  | empty : PixelData
  | rendered (nextFrameIndex : Nat) (width height : Int) : PixelData
  deriving DecidableEq, Repr

/-- The `struct NextFrame`: a prerendered frame in system memory. `size` holds the
two integers whose `float` casts make the `ImVec2`. -/
structure NextFrame where
  data : PixelData := PixelData.empty
  size : Int × Int := (0, 0)
  deriving DecidableEq, Repr

/-- The `struct ReadyFrame`: a frame ready to be moved to the texture. -/
structure ReadyFrame where
  pid : Nat := BAD_PICTUREID
  data : PixelData := PixelData.empty
  size : Int × Int := (0, 0)
  deriving DecidableEq, Repr

/-! ## External collaborators -/

/-- What the pipeline reads from a loaded `imlottie::Animation`: the results
of `animationTotalFrame(anim)` and of `animationDuration(anim)` (a `double`,
the length of the animation in seconds). Both functions are only declared in
the header. -/
structure Animation where
  totalFrame : Nat
  duration : ℚ
  deriving DecidableEq, Repr

/-- The conversion `int(x)` of a `float` (a rational number here): the
fractional part is dropped. `none` is undefined behaviour: the truncated value
is outside the range of `int`. -/
def intOfFloat (x : ℚ) : Option Int :=
  let t : Int := if 0 ≤ x then Int.floor x else Int.ceil x
  if -2147483648 ≤ t ∧ t ≤ 2147483647 then some t else none

/-- The functions the header only declares. `ImHashStr data seed` is the
ImGui string hash (a 32-bit value), `animationLoad path` is
`imlottie::animationLoad` (`none` for the null `shared_ptr`), and
`floatToInt i` is the round trip `(int)(float)i` of an `int` through a
`float`. -/
structure Env where
  ImHashStr : String → Nat → Nat
  animationLoad : String → Option Animation
  floatToInt : Int → Int

/-! ## LottieAnim -/

/-- The anonymous struct `LottieAnim::canvas`. -/
structure Canvas where
  width : Int := 32
  height : Int := 32
  deriving DecidableEq, Repr

/-- The anonymous struct `LottieAnim::timeline` (two `uint32_t`). -/
structure Timeline where
  duration_ms : Nat := 0
  last_ms : Nat := 0
  deriving DecidableEq, Repr

/-- The anonymous struct `LottieAnim::frame` (two `uint16_t`). -/
structure FrameCounter where
  current : Nat := 0
  total : Nat := 0
  deriving DecidableEq, Repr

/-- The `struct LottieAnim` (the GPU texture members are left out). -/
structure LottieAnim where
  pid : Nat := BAD_PICTUREID
  canvas : Canvas := {}
  timeline : Timeline := {}
  frame : FrameCounter := {}
  loop : Bool := false
  play : Bool := false
  renderonce : Bool := false
  maxPrerenderedFrames : Int := 2
  lottiePath : String := ""
  anim : Option Animation := none
  prerenderedFrames : List NextFrame := []
  currentFrame : ReadyFrame := {}
  deriving DecidableEq, Repr

namespace LottieAnim

/-- The constant `static constexpr int DEFAULT_SIZE = 32;` -/
def DEFAULT_SIZE : Int := 32

/-- The constant `static constexpr int DEFAULT_PRERENDERED_FRAMES = 2;` with the source
comment "how many prerendered frames saved in array". -/
def DEFAULT_PRERENDERED_FRAMES : Int := 2

/-- The function `LottieAnim::grabCurrentFrame(ReadyFrame &f)`: returns the flag, the new
value of `f` and the new instance (`std::swap(f, currentFrame)`). -/
def grabCurrentFrame (a : LottieAnim) (f : ReadyFrame) : Bool × ReadyFrame × LottieAnim :=
  if a.currentFrame.pid = BAD_PICTUREID then (false, f, a)
  else (true, a.currentFrame, { a with currentFrame := f })

/-- The text `snprintf` writes in `getPropsHash`: the format
`lottie:%s|canvasHeight:%d|canvasWidth:%d|loop:%d|rate:%d` applied to
`(lottie, canvasWidth, canvasHeight, loop, rate)`, cut to the 510 characters
that fit the size argument 511. -/
def propsText (lottie : String) (canvasWidth canvasHeight : Int) (loop : Bool) (rate : Int) : String :=
  String.mk (List.take 510
    ("lottie:" ++ lottie ++ "|canvasHeight:" ++ toString canvasWidth
      ++ "|canvasWidth:" ++ toString canvasHeight
      ++ "|loop:" ++ (if loop then "1" else "0")
      ++ "|rate:" ++ toString rate).data)

/-- The function `LottieAnim::getPropsHash`: `ImHashStr(hash, 0, 0xc001f00d)`. -/
def getPropsHash (E : Env) (lottie : String) (canvasWidth canvasHeight : Int) (loop : Bool)
    (rate : Int) : Nat :=
  E.ImHashStr (propsText lottie canvasWidth canvasHeight loop rate) 0xc001f00d

/-- The function `LottieAnim::load`. The argument `path` is a `const char *`: `none` is the
null pointer. Returns the flag and the instance as the call leaves it. The
result `none` is undefined behaviour: the division
`(float)animationDuration(anim) / frame.total` by `frame.total = 0` (the
statement is executed for every `rate`), or the conversion
`int(customRate > 0 ? 1000 / customRate : oneFrameMs * 1000)` of a `float`
outside the range of `int`. -/
def load (E : Env) (a : LottieAnim) (path : Option String) (w h : Int) ( _loop _play : Bool)
    ( _prerenderedFrames rate : Int) ( _pid : Nat) : Option (Bool × LottieAnim) :=
  match path with
  | none => some (false, a)
  | some p =>
    if p = "" then some (false, a)
    else
      let a1 : LottieAnim :=
        { a with
          canvas := { width := max w DEFAULT_SIZE, height := max h DEFAULT_SIZE }
          loop := _loop
          play := _play
          pid := _pid
          maxPrerenderedFrames := max _prerenderedFrames DEFAULT_PRERENDERED_FRAMES
          lottiePath := p
          anim := E.animationLoad p }
      match E.animationLoad p with
      | some an =>
        let total : Nat := an.totalFrame % U16
        if total = 0 then none
        else
          let oneFrameMs : ℚ := an.duration / (total : ℚ)
          (intOfFloat (if rate > 0 then ((1000 / rate : Int) : ℚ) else oneFrameMs * 1000)).map
            (fun d => (true, { a1 with
              frame := { a1.frame with total := total }
              timeline := { a1.timeline with duration_ms := toU32 d } }))
      | none => some (false, a1)

/-- The first half of `LottieAnim::render` (the body of `if (frameDiff != 0)`):
move the oldest prerendered frame to `currentFrame`, switch to the next frame
index and advance the timeline. `none` is the remainder by `frame.total = 0`. -/
def advance (a : LottieAnim) (frameDiff : Nat) : Option LottieAnim :=
  let a1 : LottieAnim :=
    match a.prerenderedFrames with
    | [] => a
    | nextFrame :: rest =>
      { a with
        prerenderedFrames := rest
        currentFrame := { pid := a.pid, data := nextFrame.data, size := nextFrame.size } }
  let cur := (a1.frame.current + 1) % U16
  let last := (a1.timeline.last_ms + frameDiff * a1.timeline.duration_ms) % U32
  if a1.loop then
    if a1.frame.total = 0 then none
    else some { a1 with
      frame := { a1.frame with current := cur % a1.frame.total }
      timeline := { a1.timeline with last_ms := last } }
  else some { a1 with
    frame := { a1.frame with current := cur }
    timeline := { a1.timeline with last_ms := last } }

/-- The second half of `LottieAnim::render`: prerender at most one more frame.
`none` is the remainder by `frame.total = 0`. -/
def prerender (a : LottieAnim) : Option (Bool × LottieAnim) :=
  if (a.prerenderedFrames.length : Int) ≤ max a.maxPrerenderedFrames DEFAULT_PRERENDERED_FRAMES then
    let sum := (a.frame.current + a.prerenderedFrames.length % U16) % U16
    if a.loop ∧ a.frame.total = 0 then none
    else
      let nextFrameIndex := if a.loop then sum % a.frame.total else sum
      if nextFrameIndex < a.frame.total then
        some (true, { a with
          prerenderedFrames := a.prerenderedFrames ++
            [{ data := PixelData.rendered nextFrameIndex a.canvas.width a.canvas.height,
               size := (a.canvas.width, a.canvas.height) }] })
      else some (false, a)
  else some (false, a)

/-- The function `LottieAnim::render(uint32_t curTime)`. `none` is undefined behaviour: the
division by `timeline.duration_ms = 0` or the remainder by `frame.total = 0`. -/
def render (a : LottieAnim) (curTime : Nat) : Option (Bool × LottieAnim) :=
  if a.pid = BAD_PICTUREID ∨ ¬(a.play = true ∨ a.renderonce = true) then some (false, a)
  else
    let a1 : LottieAnim := { a with renderonce := false }
    if a1.loop = false ∧ a1.frame.current > a1.frame.total then some (false, a1)
    else if a1.timeline.duration_ms = 0 then none
    else
      let frameDiff := sub32 curTime a1.timeline.last_ms / a1.timeline.duration_ms
      if frameDiff ≠ 0 then (a1.advance frameDiff).bind prerender
      else a1.prerender

end LottieAnim

/-! ## std::unordered_map as an association list -/

/-- The call `m.find(k)`: the value stored under key `k`, `none` for `end()`. -/
def mapFind {β : Type} (m : List (Nat × β)) (k : Nat) : Option β :=
  (m.find? (fun e => decide (e.1 = k))).map Prod.snd

/-- The call `m.insert({k, v})`: no effect when the key is already present. -/
def mapInsert {β : Type} (m : List (Nat × β)) (k : Nat) (v : β) : List (Nat × β) :=
  if (mapFind m k).isSome then m else m ++ [(k, v)]

/-- The call `m.erase(it)` for the iterator `it` of the first element that satisfies `p`
(no effect when there is none). -/
def eraseFirst {β : Type} (p : Nat × β → Bool) (m : List (Nat × β)) : List (Nat × β) :=
  m.eraseP p

/-- The assignment `it->second = f(it->second)` for the iterator `it` of the
first element that satisfies `p` (no effect when there is none). -/
def modifyFirst {β : Type} (p : Nat × β → Bool) (f : β → β) : List (Nat × β) → List (Nat × β)
  | [] => []
  | e :: m => if p e then (e.1, f e.2) :: m else e :: modifyFirst p f m

/-- The keys of a map are pairwise distinct. -/
def KeysDistinct {β : Type} (m : List (Nat × β)) : Prop :=
  (m.map Prod.fst).Nodup

/-! ## Commands -/

/-- The `struct LottieRenderCommand`. The field `type` is the value of the
enumeration, which as an integer can also lie outside the six enumerators.
Fields a constructor site leaves uninitialised take the defaults below. -/
structure LottieRenderCommand where
  type : Nat := 0
  path : String := ""
  w : Int := 0
  h : Int := 0
  loop : Int := 0
  rate : Int := 0
  pid : Nat := 0
  play : Bool := false
  render : Bool := false
  deriving DecidableEq, Repr

namespace LottieRenderCommand

/-- The `enum Type { UNKNOWN = 0, ADD_CONFIG, DISCARD_PID, SETUP_PID, SETUP_PLAY, SETUP_RENDER }`. -/
def UNKNOWN : Nat := 0

/-- Enumerator `ADD_CONFIG`. -/
def ADD_CONFIG : Nat := 1

/-- Enumerator `DISCARD_PID`. -/
def DISCARD_PID : Nat := 2

/-- Enumerator `SETUP_PID`. -/
def SETUP_PID : Nat := 3

/-- Enumerator `SETUP_PLAY`. -/
def SETUP_PLAY : Nat := 4

/-- Enumerator `SETUP_RENDER`. -/
def SETUP_RENDER : Nat := 5

end LottieRenderCommand

/-- The call `std::string::c_str()` read as a C string: the characters before the first
NUL. -/
def c_str (s : String) : String :=
  String.mk (s.data.takeWhile (fun c => decide (c ≠ Char.ofNat 0)))

/-! ## LottieRenderThread -/

/-- The `struct LottieRenderThread`: the instance map, the command queue and the
ready-frame queue (the thread handle, the mutexes, the termination flag and
the `float` clock are left out). -/
structure LottieRenderThread where
  animations : List (Nat × LottieAnim) := []
  commands : List LottieRenderCommand := []
  readyFrames : List ReadyFrame := []
  deriving DecidableEq, Repr

namespace LottieRenderThread

/-- The function `popCommand(LottieRenderCommand &command)`: the flag, the new value of
`command` and the new worker. -/
def popCommand (t : LottieRenderThread) (command : LottieRenderCommand) :
    Bool × LottieRenderCommand × LottieRenderThread :=
  match t.commands with
  | [] => (false, command, t)
  | c :: rest => (true, c, { t with commands := rest })

/-- The function `addCommand(const LottieRenderCommand &command)`. -/
def addCommand (t : LottieRenderThread) (command : LottieRenderCommand) : LottieRenderThread :=
  if t.commands.length > 100 then t
  else { t with commands := t.commands ++ [command] }

/-- The function `getCommandNum()`. -/
def getCommandNum (t : LottieRenderThread) : Nat := t.commands.length

/-- The function `pushReadyFrame(ReadyFrame &frame, size_t maxAnimSize)`: the new worker and
the new value of `frame` (the default frame it was swapped with). -/
def pushReadyFrame (t : LottieRenderThread) (frame : ReadyFrame) (maxAnimSize : Nat) :
    LottieRenderThread × ReadyFrame :=
  let q := if t.readyFrames.length > maxAnimSize then t.readyFrames.tail else t.readyFrames
  ({ t with readyFrames := q ++ [frame] }, {})

/-- The function `popReadyFrame(ReadyFrame &frame)`: the flag, the new value of `frame` and
the new worker. -/
def popReadyFrame (t : LottieRenderThread) (frame : ReadyFrame) :
    Bool × ReadyFrame × LottieRenderThread :=
  match t.readyFrames with
  | [] => (false, frame, t)
  | f :: rest => (true, f, { t with readyFrames := rest })

/-- The function `resolveCommand(const LottieRenderCommand &cmd)`. `none` when the call of
`load` in the `ADD_CONFIG` case is undefined. -/
def resolveCommand (E : Env) (t : LottieRenderThread) (cmd : LottieRenderCommand) :
    Option LottieRenderThread :=
  if cmd.type = LottieRenderCommand.ADD_CONFIG then
    (LottieAnim.load E {} (some (c_str cmd.path)) cmd.w cmd.h (decide (cmd.loop ≠ 0)) true 2
      cmd.rate cmd.pid).map
      (fun r => if r.1 then { t with animations := mapInsert t.animations cmd.pid r.2 } else t)
  else if cmd.type = LottieRenderCommand.DISCARD_PID then
    some { t with animations := eraseFirst (fun e => decide (e.1 = cmd.pid)) t.animations }
  else if cmd.type = LottieRenderCommand.SETUP_PID then
    let propsHash := LottieAnim.getPropsHash E (c_str cmd.path) cmd.w cmd.h (decide (cmd.loop ≠ 0))
      cmd.rate
    some { t with animations :=
        (modifyFirst (fun e => decide (e.1 = propsHash)) (fun a => { a with pid := cmd.pid })
          t.animations) }
  else if cmd.type = LottieRenderCommand.SETUP_PLAY then
    some { t with animations :=
        (modifyFirst (fun e => decide (e.2.pid = cmd.pid)) (fun a => { a with play := cmd.play })
          t.animations) }
  else if cmd.type = LottieRenderCommand.SETUP_RENDER then
    some { t with animations :=
        (modifyFirst (fun e => decide (e.2.pid = cmd.pid))
          (fun a => { a with renderonce := cmd.render }) t.animations) }
  else some t

/-- The `for` loop of `LottieRenderThread::execute` over the instances still
to visit (`todo`, in iteration order): each one is rendered at `curtime`, and a
ready frame is grabbed into a fresh `ReadyFrame` and pushed with the bound
`maxAnimSize`. `done` collects the instances already visited. `none` when a
`render` call is undefined. -/
def executeLoop (curtime maxAnimSize : Nat) :
    List (Nat × LottieAnim) → List (Nat × LottieAnim) → LottieRenderThread →
      Option LottieRenderThread
  | [], done, t => some { t with animations := done }
  | (key, a) :: todo, done, t =>
    match a.render curtime with
    | none => none
    | some r =>
      let g := r.2.grabCurrentFrame {}
      let t1 := if g.1 then (t.pushReadyFrame g.2.1 maxAnimSize).1 else t
      executeLoop curtime maxAnimSize todo (done ++ [(key, g.2.2)]) t1

/-- One pass through the body of the `while` loop of
`LottieRenderThread::execute` (the termination flag is not set and the sleeps
are left out): resolve at most one command, then tick every instance with
`maxAnimSize = animations.size() * 2`. The argument `curtime` is the value of
`(uint32_t)curtime`, the `float` clock the consumer thread writes. `none` when
`resolveCommand` or a `render` call is undefined. -/
def executeStep (E : Env) (t : LottieRenderThread) (curtime : Nat) : Option LottieRenderThread :=
  let p := t.popCommand {}
  (if p.1 then resolveCommand E p.2.2 p.2.1 else some p.2.2).bind (fun t1 =>
    if t1.animations.isEmpty then some t1
    else executeLoop curtime (t1.animations.length * 2) t1.animations [] t1)

end LottieRenderThread

/-! ## LottieAnimationRenderer -/

/-- The `struct LottieAnimDesc`; `srv` is the texture handle (`none` for
`nullptr`), `size` the two integers whose `float` casts make the `ImVec2`. -/
structure LottieAnimDesc where
  size : Int × Int := (0, 0)
  srv : Option Nat := none
  pid : Nat := BAD_PICTUREID
  deriving DecidableEq, Repr

/-- The `struct LottieAnimationRenderer`: the worker and the registry of requested
animations. -/
structure LottieAnimationRenderer where
  renderThread : LottieRenderThread := {}
  animationsPresent : List (Nat × LottieAnimDesc) := []
  deriving DecidableEq, Repr

namespace LottieAnimationRenderer

/-- The function `LottieAnimationRenderer::match(const char *path, int w, int h, bool loop, int rate)`
(`match` is a keyword of Lean): the returned id and the new renderer.
`return false` is the id `0`. -/
def match_ (E : Env) (r : LottieAnimationRenderer) (path : Option String) (w h : Int)
    (loop : Bool) (rate : Int) : Nat × LottieAnimationRenderer :=
  match path with
  | none => (0, r)
  | some p =>
    if p = "" then (0, r)
    else
      let propsHash := LottieAnim.getPropsHash E p w h loop rate
      match mapFind r.animationsPresent propsHash with
      | none =>
        let prefferedSize : Int × Int := (max w LottieAnim.DEFAULT_SIZE, max h LottieAnim.DEFAULT_SIZE)
        let animDesc : LottieAnimDesc := { pid := propsHash, size := prefferedSize }
        let command : LottieRenderCommand :=
          { type := LottieRenderCommand.ADD_CONFIG
            path := p
            w := E.floatToInt prefferedSize.1
            h := E.floatToInt prefferedSize.2
            loop := if loop then 1 else 0
            rate := rate
            pid := propsHash }
        (propsHash,
          { r with
            animationsPresent := mapInsert r.animationsPresent propsHash animDesc
            renderThread := r.renderThread.addCommand command })
      | some _ => (propsHash, r)

/-- The function `LottieAnimationRenderer::render(ImGuiID pid)`: the returned
flag and the new renderer. -/
def render (r : LottieAnimationRenderer) (pid : Nat) : Bool × LottieAnimationRenderer :=
  let command : LottieRenderCommand :=
    { type := LottieRenderCommand.SETUP_RENDER, pid := pid, render := true }
  (true, { r with renderThread := r.renderThread.addCommand command })

/-- The function `LottieAnimationRenderer::play(ImGuiID pid, bool play)`. -/
def play (r : LottieAnimationRenderer) (pid : Nat) ( play : Bool) : LottieAnimationRenderer :=
  let command : LottieRenderCommand :=
    { type := LottieRenderCommand.SETUP_PLAY, pid := pid, play := play }
  { r with renderThread := r.renderThread.addCommand command }

/-- The function `LottieAnimationRenderer::discard(ImGuiID pid)`. -/
def discard (r : LottieAnimationRenderer) (pid : Nat) : LottieAnimationRenderer :=
  let command : LottieRenderCommand := { type := LottieRenderCommand.DISCARD_PID, pid := pid }
  { r with
    renderThread := r.renderThread.addCommand command
    animationsPresent := eraseFirst (fun e => decide (e.2.pid = pid)) r.animationsPresent }

end LottieAnimationRenderer

/-! ## Call sequences and sample data -/

/-- One call on the ready-frame queue: `pushReadyFrame(frame, maxAnimSize)` or
`popReadyFrame(frame)`. -/
inductive ReadyOp where
  | push (frame : ReadyFrame) : ReadyOp
  | pop : ReadyOp
  deriving DecidableEq, Repr

/-- The worker after a sequence of calls on the ready-frame queue, all pushes
made with the same bound `maxAnimSize`. -/
def runReadyOps (maxAnimSize : Nat) : LottieRenderThread → List ReadyOp → LottieRenderThread
  | t, [] => t
  | t, ReadyOp.push f :: ops => runReadyOps maxAnimSize (t.pushReadyFrame f maxAnimSize).1 ops
  | t, ReadyOp.pop :: ops => runReadyOps maxAnimSize (t.popReadyFrame {}).2.2 ops

/-- The instance after a sequence of `render` calls at the given times; `none`
when one of the calls is undefined. -/
def renders (a : LottieAnim) : List Nat → Option LottieAnim
  | [] => some a
  | curTime :: rest => (a.render curTime).bind (fun r => renders r.2 rest)

/-- The worker after resolving a sequence of commands in order; `none` when
one of the calls is undefined. -/
def resolveCommands (E : Env) (t : LottieRenderThread) :
    List LottieRenderCommand → Option LottieRenderThread
  | [] => some t
  | cmd :: rest =>
    (LottieRenderThread.resolveCommand E t cmd).bind (fun t1 => resolveCommands E t1 rest)

/-- A ready frame of a 32 x 32 canvas, used in the examples. -/
def sampleReadyFrame (pid index : Nat) : ReadyFrame :=
  { pid := pid, data := PixelData.rendered index 32 32, size := (32, 32) }

/-- A stand-in for the external collaborators, used in the examples: a hash
that depends on the text and the seed, a loader that knows every file but
`missing.json` (ten frames in one second, so 100 ms each) and an exact `float`
round trip. -/
def sampleEnv : Env :=
  { ImHashStr := fun s seed => (s.length + seed) % U32
    animationLoad := fun p =>
      if p = "missing.json" then none else some { totalFrame := 10, duration := 1 }
    floatToInt := fun i => i }

/-- The instance that `load sampleEnv {} "a.json" 64 64 loop true 2 rate 7`
leaves when the frame duration it computes is `duration_ms` (lemma
`sampleLoaded_spec`): ten frames, playing, output id 7. -/
def sampleLoaded ( loop : Bool) (duration_ms : Nat) : LottieAnim :=
  { pid := 7
    canvas := { width := 64, height := 64 }
    timeline := { duration_ms := duration_ms, last_ms := 0 }
    frame := { current := 0, total := 10 }
    loop := loop
    play := true
    maxPrerenderedFrames := 2
    lottiePath := "a.json"
    anim := some { totalFrame := 10, duration := 1 } }

/-- The instance of the pipeline scenario: freshly loaded (lemma
`scenarioAnim_loaded`), not looping, ten frames of 100 ms,
`maxPrerenderedFrames = 2`, playing, output id 7. -/
def scenarioAnim : LottieAnim := sampleLoaded false 100

/-- The instance fields `render` never writes. -/
def SameConfig (a a' : LottieAnim) : Prop :=
  a'.pid = a.pid ∧ a'.canvas = a.canvas ∧ a'.loop = a.loop ∧ a'.play = a.play
    ∧ a'.maxPrerenderedFrames = a.maxPrerenderedFrames ∧ a'.frame.total = a.frame.total
    ∧ a'.timeline.duration_ms = a.timeline.duration_ms

/-- The `ADD_CONFIG` command that `match` issues for a request. -/
def addConfigCommand (E : Env) (path : String) (w h : Int) (loop : Bool) (rate : Int) :
    LottieRenderCommand :=
  { type := LottieRenderCommand.ADD_CONFIG
    path := path
    w := E.floatToInt (max w LottieAnim.DEFAULT_SIZE)
    h := E.floatToInt (max h LottieAnim.DEFAULT_SIZE)
    loop := if loop then 1 else 0
    rate := rate
    pid := LottieAnim.getPropsHash E path w h loop rate }

/-- A renderer whose command queue holds 101 entries: `bb.json` was requested
once (`ADD_CONFIG`) and its widget drawn in 100 frames (one `SETUP_RENDER`
each, as `LottieAnimation` does), while the worker resolved none of them. -/
def busyRenderer : LottieAnimationRenderer :=
  Nat.iterate
    (fun r => (LottieAnimationRenderer.render r
      (LottieAnim.getPropsHash sampleEnv "bb.json" 48 48 true 0)).2)
    100
    (LottieAnimationRenderer.match_ sampleEnv {} (some "bb.json") 48 48 true 0).2

/-- A non-looping instance with a single frame of 100 ms, playing. -/
def oneFrameAnim : LottieAnim :=
  { pid := 7, play := true, frame := { current := 0, total := 1 },
    timeline := { duration_ms := 100, last_ms := 0 } }

/-- A worker that holds the instance of `a.json` (64 x 64, looping, native
rate), registered under its fingerprint by an `ADD_CONFIG` command (lemma
`sampleWorker_resolved`). -/
def sampleWorker : LottieRenderThread :=
  { animations :=
      [(LottieAnim.getPropsHash sampleEnv "a.json" 64 64 true 0,
        { sampleLoaded true 100 with pid := LottieAnim.getPropsHash sampleEnv "a.json" 64 64 true 0 })] }

/-- The command sequence of the retargeting scenario: register `a.json` under
its fingerprint, retarget its output id to 42 with `SETUP_PID`, then discard
id 42. -/
def retargetThenDiscard : List LottieRenderCommand :=
  [addConfigCommand sampleEnv "a.json" 64 64 true 0,
   { type := LottieRenderCommand.SETUP_PID, path := "a.json", w := 64, h := 64, loop := 1,
     rate := 0, pid := 42 },
   { type := LottieRenderCommand.DISCARD_PID, pid := 42 }]

/-- The worker after passes of the `execute` loop at the given clock values. -/
def executeSteps (E : Env) (t : LottieRenderThread) : List Nat → Option LottieRenderThread
  | [] => some t
  | curtime :: rest =>
    (LottieRenderThread.executeStep E t curtime).bind (fun t1 => executeSteps E t1 rest)

/-- A worker whose command queue holds the `ADD_CONFIG` commands of three
different animations (non-looping, native rate). -/
def threeRequests : LottieRenderThread :=
  { commands :=
      [addConfigCommand sampleEnv "a.json" 64 64 false 0,
       addConfigCommand sampleEnv "bb.json" 64 64 false 0,
       addConfigCommand sampleEnv "ccc.json" 64 64 false 0] }

/-! ## Geometry: tolerances, points and the matrix (src/imlottie_impl.h)

A `float` is modelled as a rational number and every arithmetic operation as
exact (no rounding, no overflow, no infinities): the model is the code over
exact arithmetic. -/

/-- The constant `EPSILON_FLOAT = 0.000001f`, taken as exactly `10^-6`. -/
def EPSILON_FLOAT : ℚ := 1 / 1000000

/-- The function `vCompare(float p1, float p2)`: `abs(p1 - p2) < EPSILON_FLOAT`. -/
def vCompare (p1 p2 : ℚ) : Bool := decide (|p1 - p2| < EPSILON_FLOAT)

/-- The function `vIsZero(float f)`: `abs(f) <= EPSILON_FLOAT`. -/
def vIsZero (f : ℚ) : Bool := decide (|f| ≤ EPSILON_FLOAT)

/-- The class `VPointF`. -/
structure VPointF where
  mx : ℚ := 0
  my : ℚ := 0
  deriving DecidableEq, Repr

/-- The `enum class MatrixType : unsigned char` of `VMatrix`. -/
inductive MatrixType where
  | None : MatrixType
  | Translate : MatrixType
  | Scale : MatrixType
  | Rotate : MatrixType
  | Shear : MatrixType
  | Project : MatrixType
  deriving DecidableEq, Repr

namespace MatrixType

/-- The value of an enumerator (`None = 0x00`, `Translate = 0x01`,
`Scale = 0x02`, `Rotate = 0x04`, `Shear = 0x08`, `Project = 0x10`); the
comparisons `<` and `vMax` of the source compare these values. -/
def val : MatrixType → Nat
  | None => 0
  | Translate => 1
  | Scale => 2
  | Rotate => 4
  | Shear => 8
  | Project => 16

/-- The template `vMax(a, b)`: `(a < b) ? b : a`. -/
def vMax (a b : MatrixType) : MatrixType := if a.val < b.val then b else a

/-- The classes of the specification, in which Rotate and Shear are one class:
None < Translate < Scale < Rotate-or-Shear < Project. -/
def rank : MatrixType → Nat
  | None => 0
  | Translate => 1
  | Scale => 2
  | Rotate => 3
  | Shear => 3
  | Project => 4

end MatrixType

/-- The `enum class Axis` of `VMatrix`. -/
inductive Axis where
  | X : Axis
  | Y : Axis
  | Z : Axis
  deriving DecidableEq, Repr

/-- The results of `std::sin(deg2rad * a)` and `std::cos(deg2rad * a)` for an
angle `a` in degrees; the library functions are outside the model. -/
structure Trig where
  sinDeg : ℚ → ℚ
  cosDeg : ℚ → ℚ

/-- The constant `inv_dist_to_plane = 1. / 1024.`. -/
def inv_dist_to_plane : ℚ := 1 / 1024

/-- The class `VMatrix`: nine coefficients and the cached classification
(`mType`, `dirty`, both `mutable`). -/
structure VMatrix where
  m11 : ℚ := 1
  m12 : ℚ := 0
  m13 : ℚ := 0
  m21 : ℚ := 0
  m22 : ℚ := 1
  m23 : ℚ := 0
  mtx : ℚ := 0
  mty : ℚ := 0
  m33 : ℚ := 1
  mType : MatrixType := MatrixType.None
  dirty : MatrixType := MatrixType.None
  deriving DecidableEq, Repr

namespace VMatrix

/-- The `case MatrixType::Translate` of the switch in `type()` and what it
falls through to. -/
def fromTranslate (m : VMatrix) : MatrixType :=
  if (!vIsZero m.mtx || !vIsZero m.mty) = true then MatrixType.Translate else MatrixType.None

/-- The `case MatrixType::Scale` of the switch in `type()` and what it falls
through to. -/
def fromScale (m : VMatrix) : MatrixType :=
  if (!vIsZero (m.m11 - 1) || !vIsZero (m.m22 - 1)) = true then MatrixType.Scale
  else fromTranslate m

/-- The `case MatrixType::Shear`, `case MatrixType::Rotate` of the switch in
`type()` and what it falls through to. -/
def fromRotate (m : VMatrix) : MatrixType :=
  if (!vIsZero m.m12 || !vIsZero m.m21) = true then
    (if vIsZero (m.m11 * m.m12 + m.m21 * m.m22) = true then MatrixType.Rotate
     else MatrixType.Shear)
  else fromScale m

/-- The `case MatrixType::Project` of the switch in `type()` and what it falls
through to. -/
def fromProject (m : VMatrix) : MatrixType :=
  if (!vIsZero m.m13 || !vIsZero m.m23 || !vIsZero (m.m33 - 1)) = true then MatrixType.Project
  else fromRotate m

/-- The `switch (dirty)` of `type()`: the classification recomputed from the
coefficients, starting at the level `dirty`. -/
def classify (dirty : MatrixType) (m : VMatrix) : MatrixType :=
  match dirty with
  | MatrixType.Project => fromProject m
  | MatrixType.Shear => fromRotate m
  | MatrixType.Rotate => fromRotate m
  | MatrixType.Scale => fromScale m
  | MatrixType.Translate => fromTranslate m
  | MatrixType.None => MatrixType.None

/-- The function `VMatrix::type()`: the returned classification. -/
def type (m : VMatrix) : MatrixType :=
  if m.dirty = MatrixType.None ∨ m.dirty.val < m.mType.val then m.mType
  else classify m.dirty m

/-- The matrix as a call of `type()` leaves it (the call writes the `mutable`
members `mType` and `dirty`). -/
def typed (m : VMatrix) : VMatrix :=
  if m.dirty = MatrixType.None ∨ m.dirty.val < m.mType.val then m
  else { m with mType := classify m.dirty m, dirty := MatrixType.None }

/-- The statement `if (dirty < level) dirty = level;` that ends the mutators. -/
def bump (level : MatrixType) (m : VMatrix) : VMatrix :=
  if m.dirty.val < level.val then { m with dirty := level } else m

/-- The function `VMatrix::determinant()`. -/
def determinant (m : VMatrix) : ℚ :=
  m.m11 * (m.m33 * m.m22 - m.mty * m.m23) - m.m21 * (m.m33 * m.m12 - m.mty * m.m13)
    + m.mtx * (m.m23 * m.m12 - m.m22 * m.m13)

/-- The function `VMatrix::translate(float dx, float dy)`. -/
def translate (m : VMatrix) (dx dy : ℚ) : VMatrix :=
  if dx = 0 ∧ dy = 0 then m
  else
    let t := m.typed
    bump MatrixType.Translate
      (match m.type with
       | MatrixType.None => { t with mtx := dx, mty := dy }
       | MatrixType.Translate => { t with mtx := t.mtx + dx, mty := t.mty + dy }
       | MatrixType.Scale => { t with mtx := t.mtx + dx * t.m11, mty := t.mty + dy * t.m22 }
       | MatrixType.Project =>
         { t with
           m33 := t.m33 + (dx * t.m13 + dy * t.m23)
           mtx := t.mtx + (dx * t.m11 + dy * t.m21)
           mty := t.mty + (dy * t.m22 + dx * t.m12) }
       | MatrixType.Shear =>
         { t with
           mtx := t.mtx + (dx * t.m11 + dy * t.m21)
           mty := t.mty + (dy * t.m22 + dx * t.m12) }
       | MatrixType.Rotate =>
         { t with
           mtx := t.mtx + (dx * t.m11 + dy * t.m21)
           mty := t.mty + (dy * t.m22 + dx * t.m12) })

/-- The function `VMatrix::scale(float sx, float sy)`. -/
def scale (m : VMatrix) (sx sy : ℚ) : VMatrix :=
  if sx = 1 ∧ sy = 1 then m
  else
    let t := m.typed
    bump MatrixType.Scale
      (match m.type with
       | MatrixType.None => { t with m11 := sx, m22 := sy }
       | MatrixType.Translate => { t with m11 := sx, m22 := sy }
       | MatrixType.Project =>
         { t with
           m13 := t.m13 * sx
           m23 := t.m23 * sy
           m12 := t.m12 * sx
           m21 := t.m21 * sy
           m11 := t.m11 * sx
           m22 := t.m22 * sy }
       | MatrixType.Rotate =>
         { t with m12 := t.m12 * sx, m21 := t.m21 * sy, m11 := t.m11 * sx, m22 := t.m22 * sy }
       | MatrixType.Shear =>
         { t with m12 := t.m12 * sx, m21 := t.m21 * sy, m11 := t.m11 * sx, m22 := t.m22 * sy }
       | MatrixType.Scale => { t with m11 := t.m11 * sx, m22 := t.m22 * sy })

/-- The function `VMatrix::map(const VPointF &p)`. In the projective case the
division `1.0f / (m13 * fx + m23 * fy + m33)` is the division of the
rationals. -/
def map (m : VMatrix) (p : VPointF) : VPointF :=
  let fx := p.mx
  let fy := p.my
  match m.type with
  | MatrixType.None => { mx := fx, my := fy }
  | MatrixType.Translate => { mx := fx + m.mtx, my := fy + m.mty }
  | MatrixType.Scale => { mx := m.m11 * fx + m.mtx, my := m.m22 * fy + m.mty }
  | MatrixType.Rotate =>
    { mx := m.m11 * fx + m.m21 * fy + m.mtx, my := m.m12 * fx + m.m22 * fy + m.mty }
  | MatrixType.Shear =>
    { mx := m.m11 * fx + m.m21 * fy + m.mtx, my := m.m12 * fx + m.m22 * fy + m.mty }
  | MatrixType.Project =>
    let w := 1 / (m.m13 * fx + m.m23 * fy + m.m33)
    { mx := (m.m11 * fx + m.m21 * fy + m.mtx) * w, my := (m.m12 * fx + m.m22 * fy + m.mty) * w }

/-- The function `VMatrix::operator*=(float num)`. -/
def mulScalar (m : VMatrix) (num : ℚ) : VMatrix :=
  if num = 1 then m
  else
    bump MatrixType.Scale
      { m with
        m11 := m.m11 * num
        m12 := m.m12 * num
        m13 := m.m13 * num
        m21 := m.m21 * num
        m22 := m.m22 * num
        m23 := m.m23 * num
        mtx := m.mtx * num
        mty := m.mty * num
        m33 := m.m33 * num }

/-- The function `VMatrix::operator/=(float div)`. -/
def divScalar (m : VMatrix) (div : ℚ) : VMatrix :=
  if div = 0 then m else mulScalar m (1 / div)

/-- The function `VMatrix::adjoint()`. -/
def adjoint (m : VMatrix) : VMatrix :=
  { m11 := m.m22 * m.m33 - m.m23 * m.mty
    m12 := m.m13 * m.mty - m.m12 * m.m33
    m13 := m.m12 * m.m23 - m.m13 * m.m22
    m21 := m.m23 * m.mtx - m.m21 * m.m33
    m22 := m.m11 * m.m33 - m.m13 * m.mtx
    m23 := m.m13 * m.m21 - m.m11 * m.m23
    mtx := m.m21 * m.mty - m.m22 * m.mtx
    mty := m.m12 * m.mtx - m.m11 * m.mty
    m33 := m.m11 * m.m22 - m.m12 * m.m21
    mType := MatrixType.None
    dirty := MatrixType.Project }

/-- The coefficients of `operator*` and `operator*=` for the joint type `ty`,
written into `t` (a fresh matrix for `operator*`, the left operand for
`operator*=`); `a` is the left and `m` the right operand. -/
def product (ty : MatrixType) (t a m : VMatrix) : VMatrix :=
  match ty with
  | MatrixType.None => t
  | MatrixType.Translate => { t with mtx := a.mtx + m.mtx, mty := a.mty + m.mty }
  | MatrixType.Scale =>
    { t with
      m11 := a.m11 * m.m11
      m22 := a.m22 * m.m22
      mtx := a.mtx * m.m11 + m.mtx
      mty := a.mty * m.m22 + m.mty }
  | MatrixType.Rotate =>
    { t with
      m11 := a.m11 * m.m11 + a.m12 * m.m21
      m12 := a.m11 * m.m12 + a.m12 * m.m22
      m21 := a.m21 * m.m11 + a.m22 * m.m21
      m22 := a.m21 * m.m12 + a.m22 * m.m22
      mtx := a.mtx * m.m11 + a.mty * m.m21 + m.mtx
      mty := a.mtx * m.m12 + a.mty * m.m22 + m.mty }
  | MatrixType.Shear =>
    { t with
      m11 := a.m11 * m.m11 + a.m12 * m.m21
      m12 := a.m11 * m.m12 + a.m12 * m.m22
      m21 := a.m21 * m.m11 + a.m22 * m.m21
      m22 := a.m21 * m.m12 + a.m22 * m.m22
      mtx := a.mtx * m.m11 + a.mty * m.m21 + m.mtx
      mty := a.mtx * m.m12 + a.mty * m.m22 + m.mty }
  | MatrixType.Project =>
    { t with
      m11 := a.m11 * m.m11 + a.m12 * m.m21 + a.m13 * m.mtx
      m12 := a.m11 * m.m12 + a.m12 * m.m22 + a.m13 * m.mty
      m13 := a.m11 * m.m13 + a.m12 * m.m23 + a.m13 * m.m33
      m21 := a.m21 * m.m11 + a.m22 * m.m21 + a.m23 * m.mtx
      m22 := a.m21 * m.m12 + a.m22 * m.m22 + a.m23 * m.mty
      m23 := a.m21 * m.m13 + a.m22 * m.m23 + a.m23 * m.m33
      mtx := a.mtx * m.m11 + a.mty * m.m21 + a.m33 * m.mtx
      mty := a.mtx * m.m12 + a.mty * m.m22 + a.m33 * m.mty
      m33 := a.mtx * m.m13 + a.mty * m.m23 + a.m33 * m.m33 }

/-- The function `VMatrix::operator*(const VMatrix &m)`: `a * m`. -/
def mul (a m : VMatrix) : VMatrix :=
  if m.type = MatrixType.None then a
  else if a.type = MatrixType.None then m.typed
  else
    let ty := MatrixType.vMax a.type m.type
    { product ty {} a m with dirty := ty, mType := ty }

/-- The function `VMatrix::rotate(float a, Axis axis)`. -/
def rotate (T : Trig) (m : VMatrix) (a : ℚ) (axis : Axis) : VMatrix :=
  if a = 0 then m
  else
    let sina : ℚ :=
      if a = 90 ∨ a = -270 then 1
      else if a = 270 ∨ a = -90 then -1
      else if a = 180 then 0
      else T.sinDeg a
    let cosa : ℚ :=
      if a = 90 ∨ a = -270 then 0
      else if a = 270 ∨ a = -90 then 0
      else if a = 180 then -1
      else T.cosDeg a
    match axis with
    | Axis.Z =>
      let t := m.typed
      bump MatrixType.Rotate
        (match m.type with
         | MatrixType.None => { t with m11 := cosa, m12 := sina, m21 := -sina, m22 := cosa }
         | MatrixType.Translate => { t with m11 := cosa, m12 := sina, m21 := -sina, m22 := cosa }
         | MatrixType.Scale =>
           { t with
             m11 := cosa * t.m11
             m12 := sina * t.m22
             m21 := -sina * t.m11
             m22 := cosa * t.m22 }
         | MatrixType.Project =>
           { t with
             m13 := cosa * t.m13 + sina * t.m23
             m23 := -sina * t.m13 + cosa * t.m23
             m11 := cosa * t.m11 + sina * t.m21
             m12 := cosa * t.m12 + sina * t.m22
             m21 := -sina * t.m11 + cosa * t.m21
             m22 := -sina * t.m12 + cosa * t.m22 }
         | MatrixType.Rotate =>
           { t with
             m11 := cosa * t.m11 + sina * t.m21
             m12 := cosa * t.m12 + sina * t.m22
             m21 := -sina * t.m11 + cosa * t.m21
             m22 := -sina * t.m12 + cosa * t.m22 }
         | MatrixType.Shear =>
           { t with
             m11 := cosa * t.m11 + sina * t.m21
             m12 := cosa * t.m12 + sina * t.m22
             m21 := -sina * t.m11 + cosa * t.m21
             m22 := -sina * t.m12 + cosa * t.m22 })
    | Axis.Y =>
      mul { m11 := cosa, m13 := -sina * inv_dist_to_plane, mType := MatrixType.Project } m
    | Axis.X =>
      mul { m22 := cosa, m23 := -sina * inv_dist_to_plane, mType := MatrixType.Project } m

/-- The function `VMatrix::inverted(bool *invertible)`: the returned matrix and
the flag written to `*invertible`. `none` marks a division by zero in
`1.0f / m11` or `1.0f / m22`. -/
def inverted (m : VMatrix) : Option (VMatrix × Bool) :=
  let t := m.typed
  match m.type with
  | MatrixType.None => some ({ mType := t.mType, dirty := t.dirty }, true)
  | MatrixType.Translate =>
    some ({ mtx := -m.mtx, mty := -m.mty, mType := t.mType, dirty := t.dirty }, true)
  | MatrixType.Scale =>
    if (!vIsZero m.m11 && !vIsZero m.m22) = true then
      if m.m11 = 0 ∨ m.m22 = 0 then none
      else
        some ({ m11 := 1 / m.m11, m22 := 1 / m.m22, mtx := -m.mtx * (1 / m.m11),
                mty := -m.mty * (1 / m.m22), mType := t.mType, dirty := t.dirty }, true)
    else some ({}, false)
  | _ =>
    if (!vIsZero m.determinant) = true then
      some ({ divScalar m.adjoint m.determinant with mType := t.mType, dirty := t.dirty }, true)
    else some ({}, false)

end VMatrix

namespace VMatrix

/-- The coefficients outside the set that the classification `t` uses have
exactly their identity values: what "exactly canonical for the type" means.
None uses no coefficient, Translate uses `mtx`, `mty`, Scale also `m11`,
`m22`, Rotate and Shear also `m12`, `m21`, Project all nine. -/
def CanonicalFor (t : MatrixType) (m : VMatrix) : Prop :=
  match t with
  | MatrixType.None =>
    m.m11 = 1 ∧ m.m12 = 0 ∧ m.m13 = 0 ∧ m.m21 = 0 ∧ m.m22 = 1 ∧ m.m23 = 0 ∧ m.mtx = 0
      ∧ m.mty = 0 ∧ m.m33 = 1
  | MatrixType.Translate =>
    m.m11 = 1 ∧ m.m12 = 0 ∧ m.m13 = 0 ∧ m.m21 = 0 ∧ m.m22 = 1 ∧ m.m23 = 0 ∧ m.m33 = 1
  | MatrixType.Scale => m.m12 = 0 ∧ m.m13 = 0 ∧ m.m21 = 0 ∧ m.m23 = 0 ∧ m.m33 = 1
  | MatrixType.Rotate => m.m13 = 0 ∧ m.m23 = 0 ∧ m.m33 = 1
  | MatrixType.Shear => m.m13 = 0 ∧ m.m23 = 0 ∧ m.m33 = 1
  | MatrixType.Project => True

/-- The matrix is exactly canonical for the type that `type()` returns. -/
def Canonical (m : VMatrix) : Prop := CanonicalFor m.type m

/-- The affine map with all six affine coefficients (the Rotate/Shear formula
of `map`). -/
def mapAffine (m : VMatrix) (p : VPointF) : VPointF :=
  { mx := m.m11 * p.mx + m.m21 * p.my + m.mtx, my := m.m12 * p.mx + m.m22 * p.my + m.mty }

/-- The two matrices have the same nine coefficients. -/
def SameCoeffs (a b : VMatrix) : Prop :=
  a.m11 = b.m11 ∧ a.m12 = b.m12 ∧ a.m13 = b.m13 ∧ a.m21 = b.m21 ∧ a.m22 = b.m22
    ∧ a.m23 = b.m23 ∧ a.mtx = b.mtx ∧ a.mty = b.mty ∧ a.m33 = b.m33

/-- The full 3 x 3 product of `a` and `b` (the Project formula of
`operator*`). -/
def fullProduct (a b : VMatrix) : VMatrix := product MatrixType.Project {} a b

end VMatrix

/-- A stand-in for the trigonometric library, used in the examples: the
rational point (3/5, 4/5) of the unit circle for every angle. -/
def sampleTrig : Trig := { sinDeg := fun _ => 4 / 5, cosDeg := fun _ => 3 / 5 }

/-- The translation by (1, 0), built from the identity by `translate`. -/
def shiftRight : VMatrix := ({} : VMatrix).translate 1 0

/-- The translation by (-1, 0), built from the identity by `translate`. -/
def shiftLeft : VMatrix := ({} : VMatrix).translate (-1) 0

/-- The scaling by (2, 2), built from the identity by `scale`. -/
def doubleSize : VMatrix := ({} : VMatrix).scale 2 2

/-- The rotation by 90 degrees about the Z axis, built from the identity by
`rotate`. -/
def quarterTurn : VMatrix := ({} : VMatrix).rotate sampleTrig 90 Axis.Z

namespace VMatrix

end VMatrix

/-- The data members of `LOTCompositionData` that the duration depends on:
`mStartFrame`, `mEndFrame` (`long`) and `mFrameRate` (`float`, a rational
here). -/
structure LOTCompositionData where
  mStartFrame : Int := 0
  mEndFrame : Int := 0
  mFrameRate : ℚ := 60

namespace LOTCompositionData

/-- The function `LOTCompositionData::totalFrame()`: the difference of the two
`long` members converted to `size_t` (64 bits). -/
def totalFrame (c : LOTCompositionData) : Nat :=
  ((c.mEndFrame - c.mStartFrame) % (2 ^ 64 : Int)).toNat

/-- The function `LOTCompositionData::frameDuration()`, a `long`; the model
has the exact integer. -/
def frameDuration (c : LOTCompositionData) : Int := c.mEndFrame - c.mStartFrame - 1

/-- The function `LOTCompositionData::frameRate()`. -/
def frameRate (c : LOTCompositionData) : ℚ := c.mFrameRate

/-- The function `LOTCompositionData::duration()`, in seconds:
`frameDuration() / frameRate()`. `none` marks the division by a frame rate of
zero, whose floating-point result is not a number of the model. -/
def duration (c : LOTCompositionData) : Option ℚ :=
  if c.frameRate = 0 then none else some ((c.frameDuration : ℚ) / c.frameRate)

end LOTCompositionData

/-- A composition of 60 frames (frames 0 to 60) at 30 frames per second. -/
def twoSecondComposition : LOTCompositionData :=
  { mStartFrame := 0, mEndFrame := 60, mFrameRate := 30 }

/-! ## Paths, dashing and trimming -/

namespace VPath

/-- The `enum class Element` of `VPath`. -/
inductive Element where
  | MoveTo : Element
  | LineTo : Element
  | CubicTo : Element
  | Close : Element
  deriving DecidableEq, Repr

end VPath

/-- The class `VPath`, as the value of its payload `VPathData`; the sharing of
payloads between handles is the subject of the `vcow_ptr` model. The default
value is the path that `VPath()` constructs. -/
structure VPath where
  m_points : List VPointF := []
  m_elements : List VPath.Element := []
  m_segments : Nat := 0
  mStartPoint : VPointF := {}
  mLength : ℚ := 0
  mLengthDirty : Bool := true
  mNewSegment : Bool := false
  deriving DecidableEq, Repr

namespace VPath

/-- The function `VPath::empty()`: `m_elements.empty()`. -/
def empty (p : VPath) : Bool := p.m_elements.isEmpty

end VPath

namespace VDasher

/-- The struct `VDasher::Dash`. -/
structure Dash where
  length : ℚ
  gap : ℚ
  deriving DecidableEq, Repr

/-- The view of a float array as an array of `Dash` (the `reinterpret_cast` of
the constructor): consecutive pairs. -/
def toDashes : List ℚ → List Dash
  | l :: g :: rest => { length := l, gap := g } :: toDashes rest
  | _ => []

end VDasher

/-- The data members of the class `VDasher` (without the pointer
`mResult`). -/
structure VDasher where
  mDashArray : List VDasher.Dash := []
  mArraySize : Nat := 0
  mCurPt : VPointF := {}
  mIndex : Nat := 0
  mCurrentLength : ℚ := 0
  mDashOffset : ℚ := 0
  mDiscard : Bool := false
  mStartNewSegment : Bool := true
  mNoLength : Bool := true
  mNoGap : Bool := true
  deriving DecidableEq, Repr

/-- The parts of the path code that are outside the model: `VPathData::length`
and `VPathData::reset`, whose bodies are not in the sources, and
`VDasher::dashHelper`, the dashing of a path that none of the early returns
of `dashed` handles, as a function of the dasher, the path and the result
path it appends to. -/
structure PathEnv where
  length : VPath → ℚ
  reset : VPath → VPath
  dashHelper : VDasher → VPath → VPath → VPath

namespace VDasher

/-- The constructor `VDasher(const float *dashArray, size_t size)`. -/
def new (dashArray : List ℚ) (size : Nat) : VDasher :=
  let dashes := toDashes dashArray
  let n := size / 2
  { mDashArray := dashes
    mArraySize := n
    mDashOffset := (if size % 2 = 1 then dashArray.getD (size - 1) 0 else 0)
    mIndex := 0
    mCurrentLength := 0
    mDiscard := false
    mNoLength := (dashes.take n).all (fun d => vCompare d.length 0)
    mNoGap := (dashes.take n).all (fun d => vCompare d.gap 0) }

/-- The function `VPath VDasher::dashed(const VPath &path)`: the returned
path. -/
def dashed (P : PathEnv) (d : VDasher) (path : VPath) : VPath :=
  if (d.mNoLength && d.mNoGap) = true then path
  else if (path.empty || d.mNoLength) = true then {}
  else if d.mNoGap = true then path
  else P.dashHelper d path {}

/-- The function `void VDasher::dashed(const VPath &path, VPath &result)`: the
value of `result` after the call. -/
def dashedInto (P : PathEnv) (d : VDasher) (path result : VPath) : VPath :=
  if (d.mNoLength && d.mNoGap) = true then P.reset result
  else if (path.empty || d.mNoLength) = true then P.reset result
  else if d.mNoGap = true then path
  else P.dashHelper d path (P.reset result)

end VDasher

/-- The constant `std::numeric_limits<float>::max()`. -/
def FLT_MAX : ℚ := 340282346638528859811704183484516925440

/-- The class `VPathMesure`. -/
structure VPathMesure where
  mStart : ℚ := 0
  mEnd : ℚ := 1
  mScratchObject : VPath := {}
  deriving DecidableEq, Repr

namespace VPathMesure

/-- The function `VPathMesure::trim(const VPath &path)`: the returned path and
the object after the call (the dashing writes `mScratchObject`). -/
def trim (P : PathEnv) (s : VPathMesure) (path : VPath) : VPath × VPathMesure :=
  if vCompare s.mStart s.mEnd = true then ({}, s)
  else if ((vCompare s.mStart 0 && vCompare s.mEnd 1)
      || (vCompare s.mStart 1 && vCompare s.mEnd 0)) = true then (path, s)
  else
    let length := P.length path
    if s.mStart < s.mEnd then
      let dasher := VDasher.new [0, length * s.mStart, (s.mEnd - s.mStart) * length, FLT_MAX] 4
      let r := dasher.dashedInto P path s.mScratchObject
      (r, { s with mScratchObject := r })
    else
      let dasher :=
        VDasher.new [length * s.mEnd, (s.mStart - s.mEnd) * length, (1 - s.mStart) * length,
          FLT_MAX] 4
      let r := dasher.dashedInto P path s.mScratchObject
      (r, { s with mScratchObject := r })

end VPathMesure

/-- A stand-in for the parts outside the model, used in the examples: every
path has length 10, `reset` gives the empty path and the dashing helper leaves
the result path as it is. -/
def samplePathEnv : PathEnv :=
  { length := fun _ => 10, reset := fun _ => {}, dashHelper := fun _ _ r => r }

/-- The path `moveTo(0, 0); lineTo(10, 0)`. -/
def linePath : VPath :=
  { m_points := [{ mx := 0, my := 0 }, { mx := 10, my := 0 }]
    m_elements := [VPath.Element.MoveTo, VPath.Element.LineTo]
    m_segments := 1
    mNewSegment := false }

/-! ## Copy-on-write handles -/

namespace vcow_ptr

/-- The address of a payload (`model *`): the function-local static
`default_s` of the default constructor, or a cell of the heap. -/
inductive Addr where
  | static : Addr
  | heap (i : Nat) : Addr
  deriving DecidableEq, Repr

/-- The struct `vcow_ptr::model`: the counter `mRef` (an exact natural number
in the model) and the value. -/
structure Model (T : Type) where
  mRef : Nat := 1
  mValue : T

/-- The memory that the handles of one payload type point into: the static
`default_s`, the heap cells (`none` is a cell that is not allocated or was
deleted) and the index of the next cell that `new` returns. -/
structure Store (T : Type) where
  default_s : Model T
  heap : Nat → Option (Model T)
  next : Nat

/-- The data member `mModel` of a handle; `none` is the null pointer. -/
abbrev Handle := Option Addr

/-- The payload at an address, `none` when there is none. -/
def modelAt {T : Type} (s : Store T) : Addr → Option (Model T)
  | Addr.static => some s.default_s
  | Addr.heap i => s.heap i

/-- The store with the payload at an address replaced. -/
def setModel {T : Type} (s : Store T) (a : Addr) (m : Model T) : Store T :=
  match a with
  | Addr.static => { s with default_s := m }
  | Addr.heap i => { s with heap := Function.update s.heap i (some m) }

/-- The default constructor `vcow_ptr()`: the handle points at the static
`default_s`, whose counter is incremented. -/
def defaultCtor {T : Type} (s : Store T) : Handle × Store T :=
  (some Addr.static, { s with default_s := { s.default_s with mRef := s.default_s.mRef + 1 } })

/-- The constructor `explicit vcow_ptr(Args&&... args)` with a value: a new
payload with the counter 1. -/
def valueCtor {T : Type} (s : Store T) (v : T) : Handle × Store T :=
  (some (Addr.heap s.next),
    { s with heap := Function.update s.heap s.next (some { mRef := 1, mValue := v })
             next := s.next + 1 })

/-- The copy constructor `vcow_ptr(const vcow_ptr &x)`; `none` marks a failed
`assert(mModel)` or a dangling pointer. -/
def copyCtor {T : Type} (s : Store T) (x : Handle) : Option (Handle × Store T) :=
  match x with
  | none => none
  | some a =>
    match modelAt s a with
    | none => none
    | some m => some (some a, setModel s a { m with mRef := m.mRef + 1 })

/-- The destructor: `if (mModel && (--mModel->mRef == 0)) delete mModel;`.
`none` marks a dangling pointer, the decrement of a counter that is zero and
the `delete` of the static payload. -/
def dtor {T : Type} (s : Store T) (h : Handle) : Option (Store T) :=
  match h with
  | none => some s
  | some a =>
    match modelAt s a with
    | none => none
    | some m =>
      if m.mRef = 0 then none
      else if m.mRef - 1 = 0 then
        (match a with
         | Addr.static => none
         | Addr.heap i => some { s with heap := Function.update s.heap i none })
      else some (setModel s a { m with mRef := m.mRef - 1 })

/-- The function `refCount()`. -/
def refCount {T : Type} (s : Store T) (h : Handle) : Option Nat :=
  match h with
  | none => none
  | some a => (modelAt s a).map (fun m => m.mRef)

/-- The function `unique()`: `mModel->mRef == 1`. -/
def unique {T : Type} (s : Store T) (h : Handle) : Option Bool :=
  (refCount s h).map (fun r => decide (r = 1))

/-- The function `read()`. -/
def read {T : Type} (s : Store T) (h : Handle) : Option T :=
  match h with
  | none => none
  | some a => (modelAt s a).map (fun m => m.mValue)

/-- The function `write()`: `if (!unique()) *this = vcow_ptr(read());`. The
assignment takes the new payload and its temporary releases the old one. The
result is the handle after the call, whose payload is the returned
reference, and the store. -/
def write {T : Type} (s : Store T) (h : Handle) : Option (Handle × Store T) :=
  match unique s h with
  | none => none
  | some true => some (h, s)
  | some false =>
    match read s h with
    | none => none
    | some v =>
      let r := valueCtor s v
      (dtor r.2 h).map (fun s2 => (r.1, s2))

/-- A mutator of the payload type called through `write()`, as in
`d.write().reset()`: the change `f` is applied to the returned reference. -/
def mutate {T : Type} (s : Store T) (h : Handle) (f : T → T) : Option (Handle × Store T) :=
  match write s h with
  | none => none
  | some (h2, s2) =>
    match h2 with
    | none => none
    | some a =>
      match modelAt s2 a with
      | none => none
      | some m => some (h2, setModel s2 a { m with mValue := f m.mValue })

/-- A program state: the store and the addresses held by the live handles
(one entry per handle). -/
structure World (T : Type) where
  store : Store T
  handles : List Addr

/-- The operations of a program on its handles: a default-constructed handle,
a handle constructed from a value, a copy of a live handle (named by the
address it holds), the destruction of a live handle, and a mutation through
`write()` on a live handle. -/
inductive Op (T : Type) where
  | construct : Op T
  | make (v : T) : Op T
  | copy (a : Addr) : Op T
  | destroy (a : Addr) : Op T
  | mutate (a : Addr) (f : T → T) : Op T

/-- The operation acts on a live handle of the state. -/
def Op.Live {T : Type} (w : World T) : Op T → Prop
  | Op.construct => True
  | Op.make _ => True
  | Op.copy a => a ∈ w.handles
  | Op.destroy a => a ∈ w.handles
  | Op.mutate a _ => a ∈ w.handles

namespace World

/-- The state before the first handle exists: `default_s` holds the
default-constructed value `d` with the counter 1. -/
def init {T : Type} (d : T) : World T :=
  { store := { default_s := { mRef := 1, mValue := d }, heap := fun _ => none, next := 0 }
    handles := [] }

/-- One operation of the program. -/
def step {T : Type} (w : World T) : Op T → Option (World T)
  | Op.construct =>
    some { store := (defaultCtor w.store).2, handles := Addr.static :: w.handles }
  | Op.make v =>
    some { store := (valueCtor w.store v).2, handles := Addr.heap w.store.next :: w.handles }
  | Op.copy a =>
    if a ∈ w.handles then
      (copyCtor w.store (some a)).map (fun r => { store := r.2, handles := a :: w.handles })
    else none
  | Op.destroy a =>
    if a ∈ w.handles then
      (dtor w.store (some a)).map (fun s => { store := s, handles := w.handles.erase a })
    else none
  | Op.mutate a f =>
    if a ∈ w.handles then
      match vcow_ptr.mutate w.store (some a) f with
      | some (some b, s) => some { store := s, handles := b :: w.handles.erase a }
      | _ => none
    else none

/-- A sequence of operations. -/
def run {T : Type} (w : World T) : List (Op T) → Option (World T)
  | [] => some w
  | op :: ops => (w.step op).bind (fun w2 => run w2 ops)

/-- The counters agree with the handles: the counter of `default_s` is the
number of handles at it plus one, a heap cell holds a payload exactly when a
handle points at it, and then its counter is the number of those handles; no
handle points at a cell that is not allocated yet. -/
def Counted {T : Type} (w : World T) : Prop :=
  w.store.default_s.mRef = w.handles.count Addr.static + 1
    ∧ (∀ i, (w.store.heap i).map (fun m => m.mRef)
        = if w.handles.count (Addr.heap i) = 0 then none
          else some (w.handles.count (Addr.heap i)))
    ∧ ∀ i, w.store.next ≤ i → w.handles.count (Addr.heap i) = 0

end World

end vcow_ptr

/-- Two handles that share one heap payload, the path
`moveTo(0, 0); lineTo(10, 0)`: a handle constructed from the value and a copy
of it. -/
def sharedWorld : vcow_ptr.World VPath :=
  { store :=
      { default_s := { mRef := 1, mValue := {} }
        heap := Function.update (fun _ => none) 0 (some { mRef := 2, mValue := linePath })
        next := 1 }
    handles := [vcow_ptr.Addr.heap 0, vcow_ptr.Addr.heap 0] }

/-- The program `VPath a; VPath b = a; a.reset();` with `reset` standing for
any mutator: two default-constructed handles that share the static payload,
and a mutation through the first. -/
def defaultSharedRun : Option (vcow_ptr.World VPath) :=
  (vcow_ptr.World.init ({} : VPath)).run
    [vcow_ptr.Op.construct, vcow_ptr.Op.copy vcow_ptr.Addr.static,
      vcow_ptr.Op.mutate vcow_ptr.Addr.static (fun _ => linePath)]

/-- The frame index that the `k`-th entry of the prerender queue stands for:
`frame.current + k`, reduced modulo `frame.total` when looping. -/
def expectedIndex (a : LottieAnim) (k : Nat) : Nat :=
  if a.loop = true then (a.frame.current + k) % a.frame.total else a.frame.current + k

/-- The prerender queue holds consecutive future frames: the `k`-th entry
(`k = 0` is the oldest) was rendered for the frame index `expectedIndex a k`
on the canvas of the instance, and that index is below `frame.total`. -/
def QueueConsecutive (a : LottieAnim) : Prop :=
  ∀ k f, a.prerenderedFrames.get? k = some f →
    f = { data := PixelData.rendered (expectedIndex a k) a.canvas.width a.canvas.height,
          size := (a.canvas.width, a.canvas.height) }
      ∧ expectedIndex a k < a.frame.total

/-- A looping instance of three frames with room for 70000 prerendered
frames: freshly loaded, playing, output id 7. -/
def deepQueueAnim : LottieAnim :=
  { pid := 7, play := true, loop := true, maxPrerenderedFrames := 70000,
    frame := { current := 0, total := 3 }, timeline := { duration_ms := 100, last_ms := 0 } }

/-- A freshly loaded looping instance (lemma `loopingAnim_loaded`): ten frames
of 100 ms, `maxPrerenderedFrames = 2`, playing, output id 7. -/
def loopingAnim : LottieAnim := sampleLoaded true 100

/-- The entry that `render` appends to the queue of `deepQueueAnim` for the
frame index `i`. -/
def deepQueueEntry (i : Nat) : NextFrame :=
  { data := PixelData.rendered i 32 32, size := (32, 32) }

/-- The instance `deepQueueAnim` with a queue of `n` entries, the `k`-th
rendered for the frame index `k % 3`. -/
def deepQueueAfter (n : Nat) : LottieAnim :=
  { deepQueueAnim with
    prerenderedFrames := (List.range n).map (fun k => deepQueueEntry (k % 3)) }

/-! ## Coverage run lists -/

/-- A pixel position `(y, x)`, ordered by `y` first and `x` second: the order
of the runs of a list. -/
abbrev Pixel := Lex (Int × Int)

namespace VRle

/-- The struct `VRle::Span`: `x`, `y` (`short`) and `len` (`ushort`). The
coverage byte is left out of the model: the laws of the run-list algebra are
stated on the span sets. -/
structure Span where
  x : Int := 0
  y : Int := 0
  len : Nat := 0
  deriving DecidableEq, Repr

/-- The pixels that a span covers, from left to right. -/
def Span.pixels (s : Span) : List Pixel :=
  (List.range s.len).map (fun (i : Nat) => toLex (s.y, s.x + (i : Int)))

/-- Modelled from the spec: the union sweep of two sorted pixel lists ("a
single left-to-right sweep merging both inputs' spans"), which keeps a pixel
of both lists once. -/
def sweepAdd : List Pixel → List Pixel → List Pixel
  | [], bs => bs
  | a :: as, [] => a :: as
  | a :: as, b :: bs =>
    if a < b then a :: sweepAdd as (b :: bs)
    else if b < a then b :: sweepAdd (a :: as) bs
    else a :: sweepAdd as bs
termination_by as bs => as.length + bs.length

/-- Modelled from the spec: the intersection sweep of two sorted pixel lists,
which keeps the pixels of both lists. -/
def sweepIntersect : List Pixel → List Pixel → List Pixel
  | [], _ => []
  | _ :: _, [] => []
  | a :: as, b :: bs =>
    if a < b then sweepIntersect as (b :: bs)
    else if b < a then sweepIntersect (a :: as) bs
    else a :: sweepIntersect as bs
termination_by as bs => as.length + bs.length

/-- Modelled from the spec: the subtraction sweep of two sorted pixel lists,
which keeps the pixels of the first list that are not in the second. -/
def sweepSubstract : List Pixel → List Pixel → List Pixel
  | [], _ => []
  | a :: as, [] => a :: as
  | a :: as, b :: bs =>
    if a < b then a :: sweepSubstract as (b :: bs)
    else if b < a then sweepSubstract (a :: as) bs
    else sweepSubstract as bs
termination_by as bs => as.length + bs.length

/-- Modelled from the spec: the runs of a pixel list. A pixel directly to the
left of the first run extends that run, any other pixel starts a run. -/
def encode : List Pixel → List Span
  | [] => []
  | p :: ps =>
    match encode ps with
    | [] => [{ x := (ofLex p).2, y := (ofLex p).1, len := 1 }]
    | s :: ss =>
      if s.y = (ofLex p).1 ∧ s.x = (ofLex p).2 + 1 then
        { x := (ofLex p).2, y := (ofLex p).1, len := s.len + 1 } :: ss
      else { x := (ofLex p).2, y := (ofLex p).1, len := 1 } :: s :: ss

end VRle

/-- The class `VRle`, as the value of the member `mSpans` of its payload. -/
structure VRle where
  mSpans : List VRle.Span := []
  deriving DecidableEq, Repr

namespace VRle

/-- The function `VRle::empty()`: `mSpans.empty()`. -/
def empty (r : VRle) : Bool := r.mSpans.isEmpty

/-- The pixels that a run list covers, in the order of its spans. -/
def pixels (r : VRle) : List Pixel := (r.mSpans.map Span.pixels).flatten

/-- A valid run list: its pixels are strictly increasing in the `(y, x)`
order, so that the spans are sorted and do not overlap. -/
def Valid (r : VRle) : Prop := (r.pixels).Sorted (fun p q => p < q)

/-- Modelled from the spec: `VRleData::opGeneric` with `OpCode::Add`, whose
body is not in the sources: the runs of the union sweep. -/
def opGeneric (a o : VRle) : VRle := { mSpans := encode (sweepAdd a.pixels o.pixels) }

/-- Modelled from the spec: `VRleData::opIntersect` for two run lists, whose
body is not in the sources: the runs of the intersection sweep. -/
def opIntersect (a o : VRle) : VRle := { mSpans := encode (sweepIntersect a.pixels o.pixels) }

/-- Modelled from the spec: `VRleData::opSubstract`, whose body is not in the
sources: the runs of the subtraction sweep. -/
def opSubstract (a o : VRle) : VRle := { mSpans := encode (sweepSubstract a.pixels o.pixels) }

/-- The function `VRle::operator+`: the union. -/
def add (a o : VRle) : VRle :=
  if a.empty = true then o
  else if o.empty = true then a
  else opGeneric a o

/-- The function `VRle::operator&`: the intersection. -/
def and (a o : VRle) : VRle :=
  if (a.empty || o.empty) = true then {}
  else opIntersect a o

/-- The function `VRle::operator-`: the subtraction. -/
def sub (a o : VRle) : VRle :=
  if a.empty = true then {}
  else if o.empty = true then a
  else opSubstract a o

end VRle

/-- The run list of the pixels (0, 0) to (0, 3). -/
def rowRle : VRle := { mSpans := [{ x := 0, y := 0, len := 4 }] }

/-- The run list of the pixels (0, 2) to (0, 5) and (1, 0). -/
def stepRle : VRle := { mSpans := [{ x := 2, y := 0, len := 4 }, { x := 0, y := 1, len := 1 }] }

/-- An idle instance that holds a render-once request: not playing, not
looping, ten frames of 100 ms, output id 7, `renderonce` set (as a
`SETUP_RENDER` command with `render = true` leaves it). -/
def renderOnceAnim : LottieAnim :=
  { pid := 7, play := false, renderonce := true, frame := { current := 0, total := 10 },
    timeline := { duration_ms := 100, last_ms := 0 } }

/-- The instance that `load` leaves for `a.json` (ten frames) with the custom
rate 2000 frames per second (lemma `fastRateAnim_loaded`). -/
def fastRateAnim : LottieAnim := sampleLoaded false 0

/-! ## Rectangles -/

/-- The class `VRect`: the four `int` members, as exact integers (the sums and
differences of the code are taken not to overflow). -/
structure VRect where
  x1 : Int := 0
  y1 : Int := 0
  x2 : Int := 0
  y2 : Int := 0
  deriving DecidableEq, Repr

namespace VRect

/-- The constructor `VRect(int x, int y, int w, int h)`. -/
def new (x y w h : Int) : VRect := { x1 := x, y1 := y, x2 := x + w, y2 := y + h }

/-- The function `VRect::empty()`. -/
def empty (r : VRect) : Bool := decide (r.x1 ≥ r.x2 ∨ r.y1 ≥ r.y2)

/-- The function `VRect::left()`. -/
def left (r : VRect) : Int := r.x1

/-- The function `VRect::top()`. -/
def top (r : VRect) : Int := r.y1

/-- The function `VRect::right()`. -/
def right (r : VRect) : Int := r.x2

/-- The function `VRect::bottom()`. -/
def bottom (r : VRect) : Int := r.y2

/-- The function `VRect::width()`. -/
def width (r : VRect) : Int := r.x2 - r.x1

/-- The function `VRect::height()`. -/
def height (r : VRect) : Int := r.y2 - r.y1

/-- The function `VRect::intersects(const VRect &r)`. -/
def intersects (a r : VRect) : Bool :=
  decide (a.right > r.left ∧ a.left < r.right ∧ a.bottom > r.top ∧ a.top < r.bottom)

/-- The function `VRect::operator&(const VRect &r)`. -/
def and (a r : VRect) : VRect :=
  if a.empty = true then {}
  else
    let l1 := if a.x2 - a.x1 + 1 < 0 then a.x2 else a.x1
    let r1 := if a.x2 - a.x1 + 1 < 0 then a.x1 else a.x2
    let l2 := if r.x2 - r.x1 + 1 < 0 then r.x2 else r.x1
    let r2 := if r.x2 - r.x1 + 1 < 0 then r.x1 else r.x2
    if l1 > r2 ∨ l2 > r1 then {}
    else
      let t1 := if a.y2 - a.y1 + 1 < 0 then a.y2 else a.y1
      let b1 := if a.y2 - a.y1 + 1 < 0 then a.y1 else a.y2
      let t2 := if r.y2 - r.y1 + 1 < 0 then r.y2 else r.y1
      let b2 := if r.y2 - r.y1 + 1 < 0 then r.y1 else r.y2
      if t1 > b2 ∨ t2 > b1 then {}
      else { x1 := max l1 l2, x2 := min r1 r2, y1 := max t1 t2, y2 := min b1 b2 }

/-- The integer point `(x, y)` lies in the rectangle:
`left <= x < right` and `top <= y < bottom`. -/
def HasPoint (r : VRect) (x y : Int) : Prop :=
  r.left ≤ x ∧ x < r.right ∧ r.top ≤ y ∧ y < r.bottom

end VRect

/-- The rectangle `VRect(0, 0, 10, 10)`. -/
def squareRect : VRect := VRect.new 0 0 10 10

/-- The rectangle `VRect(8, 0, -6, 10)`, built with a negative width: it is
empty. -/
def reversedRect : VRect := VRect.new 8 0 (-6) 10

/-- The rectangle `VRect(5, 5, 10, 10)`. -/
def shiftedRect : VRect := VRect.new 5 5 10 10

/-! ## Dash phase and active segment -/

/-- The outcome of a run that is bounded by a number of nested calls: a
result, an undefined operation (a read outside the dash array, a remainder by
zero, a floating-point value that is not a number), or a run that is not
finished within the bound. -/
inductive Outcome (α : Type) where
  | result (a : α) : Outcome α
  | undefined : Outcome α
  | unfinished : Outcome α

/-- The function `std::fmod(x, y)`: `x - n * y` with `n` the quotient `x / y`
rounded toward zero. `none` for `y = 0`, where the result is not a number. -/
def fmod (x y : ℚ) : Option ℚ :=
  if y = 0 then none
  else some (x - ((if 0 ≤ x / y then Int.floor (x / y) else Int.ceil (x / y) : Int) : ℚ) * y)

namespace VDasher

/-- The body of `VDasher::updateActiveSegment()` up to its last line: switch
from a dash to its gap, or from a gap to the next dash. `none` is the
remainder by `mArraySize = 0` or a read outside the dash array. -/
def nextSegment (d : VDasher) : Option VDasher :=
  if d.mDiscard = true then
    if d.mArraySize = 0 then none
    else
      (d.mDashArray.get? ((d.mIndex + 1) % d.mArraySize)).map (fun e =>
        { d with mStartNewSegment := true, mDiscard := false,
                 mIndex := (d.mIndex + 1) % d.mArraySize, mCurrentLength := e.length })
  else
    (d.mDashArray.get? d.mIndex).map (fun e =>
      { d with mStartNewSegment := true, mDiscard := true, mCurrentLength := e.gap })

/-- The function `VDasher::updateActiveSegment()`, with a bound on the depth
of its recursion: `if (vIsZero(mCurrentLength)) updateActiveSegment();`. -/
def updateActiveSegment : Nat → VDasher → Outcome VDasher
  | 0, _ => Outcome.unfinished
  | fuel + 1, d =>
    match nextSegment d with
    | none => Outcome.undefined
    | some d2 =>
      if vIsZero d2.mCurrentLength = true then updateActiveSegment fuel d2
      else Outcome.result d2

/-- The first loop of `VDasher::moveTo`:
`totalLength = mDashArray[i].length + mDashArray[i].gap;` for every pair in
turn, starting from 0. -/
def lastTotal (pairs : List Dash) : ℚ :=
  pairs.foldl (fun _ e => e.length + e.gap) 0

/-- The second loop of `VDasher::moveTo` from the pair of index `i` on, with
the phase `n` left: the values of `mIndex`, `mCurrentLength` and `mDiscard` at
the `break`, or `none` when the loop ends without one. -/
def phaseScan : List Dash → Nat → ℚ → Option (Nat × ℚ × Bool)
  | [], _, _ => none
  | e :: rest, i, n =>
    if n < e.length then some (i, e.length - n, false)
    else if n - e.length < e.gap then some (i, e.gap - (n - e.length), true)
    else phaseScan rest (i + 1) (n - e.length - e.gap)

/-- The function `VDasher::moveTo` with the total `total` that its first loop
leaves in `totalLength`, and a bound on the recursion of
`updateActiveSegment`. -/
def moveToWith (total : ℚ) (fuel : Nat) (d : VDasher) (p : VPointF) : Outcome VDasher :=
  let d1 : VDasher := { d with mDiscard := false, mStartNewSegment := true, mCurPt := p, mIndex := 0 }
  let placed : Option VDasher :=
    if vCompare d.mDashOffset 0 = false then
      match fmod d.mDashOffset total with
      | none => none
      | some n0 =>
        let n := if n0 < 0 then total + n0 else n0
        match phaseScan (d.mDashArray.take d.mArraySize) 0 n with
        | some r => some { d1 with mIndex := r.1, mCurrentLength := r.2.1, mDiscard := r.2.2 }
        | none => some d1
    else (d.mDashArray.get? 0).map (fun e => { d1 with mCurrentLength := e.length })
  match placed with
  | none => Outcome.undefined
  | some d2 =>
    if vIsZero d2.mCurrentLength = true then updateActiveSegment fuel d2
    else Outcome.result d2

/-- The function `VDasher::moveTo(const VPointF &p)`, with a bound on the
recursion of `updateActiveSegment`. -/
def moveTo (fuel : Nat) (d : VDasher) (p : VPointF) : Outcome VDasher :=
  moveToWith (lastTotal (d.mDashArray.take d.mArraySize)) fuel d p

/-- The total pattern length: the sum of all lengths and gaps. -/
def patternTotal (pairs : List Dash) : ℚ :=
  (pairs.map (fun e => e.length + e.gap)).sum

/-- What the comment in `moveTo` states ("now the length is less than total
length and +ve"): the offset is reduced modulo the total pattern length. -/
def moveToDocumented (fuel : Nat) (d : VDasher) (p : VPointF) : Outcome VDasher :=
  moveToWith (patternTotal (d.mDashArray.take d.mArraySize)) fuel d p

end VDasher

/-- The dasher of the dash array `{10, 5, 2, 1, 16}`: the pairs (10, 5) and
(2, 1) and the offset 16. -/
def offsetDasher : VDasher := VDasher.new [10, 5, 2, 1, 16] 5

/-- The dasher of the dash array `{0.000001, 0.000001}`: one pair whose
length and gap are `EPSILON_FLOAT`. -/
def tinyDasher : VDasher := VDasher.new [EPSILON_FLOAT, EPSILON_FLOAT] 2

/-! ## Trim segment -/

namespace LOTTrimData

/-- The struct `LOTTrimData::Segment` (the member `end` is `end_` here). -/
structure Segment where
  start : ℚ := 0
  end_ : ℚ := 0
  deriving DecidableEq, Repr

/-- The function `LOTTrimData::noloop`; `none` is a failed assertion. -/
def noloop (start end_ : ℚ) : Option Segment :=
  if start ≥ 0 ∧ end_ ≥ 0 then some { start := min start end_, end_ := max start end_ }
  else none

/-- The function `LOTTrimData::loop`; `none` is a failed assertion. -/
def loop (start end_ : ℚ) : Option Segment :=
  if start ≥ 0 ∧ end_ ≥ 0 then some { start := max start end_, end_ := min start end_ }
  else none

/-- The function `LOTTrimData::segment(int frameNo)`, as a function of the
values `mStart.value(frameNo)`, `mEnd.value(frameNo)` and
`mOffset.value(frameNo)`; `none` is a failed assertion. -/
def segment (startValue endValue offsetValue : ℚ) : Option Segment :=
  match fmod offsetValue 360 with
  | none => none
  | some f =>
    let start := startValue / 100
    let end_ := endValue / 100
    let offset := f / 360
    let diff := |start - end_|
    if vCompare diff 0 = true then some { start := 0, end_ := 0 }
    else if vCompare diff 1 = true then some { start := 0, end_ := 1 }
    else if offset > 0 then
      if start + offset ≤ 1 ∧ end_ + offset ≤ 1 then noloop (start + offset) (end_ + offset)
      else if start + offset > 1 ∧ end_ + offset > 1 then
        noloop (start + offset - 1) (end_ + offset - 1)
      else if start + offset > 1 then loop (start + offset - 1) (end_ + offset)
      else loop (start + offset) (end_ + offset - 1)
    else
      if start + offset ≥ 0 ∧ end_ + offset ≥ 0 then noloop (start + offset) (end_ + offset)
      else if start + offset < 0 ∧ end_ + offset < 0 then
        noloop (1 + (start + offset)) (1 + (end_ + offset))
      else if start + offset < 0 then loop (1 + (start + offset)) (end_ + offset)
      else loop (start + offset) (1 + (end_ + offset))

end LOTTrimData

/-! ## Animated properties -/

/-- The class `LOTKeyFrame<T>`: the frame range, the start and end value of
`mValue`, and the functions `progress(frameNo)`, `value(frameNo)` and
`angle(frameNo)`, whose interpolation is outside the model. -/
structure LOTKeyFrame (T : Type) where
  mStartFrame : ℚ := 0
  mEndFrame : ℚ := 0
  mStartValue : T
  mEndValue : T
  value : Int → T
  angle : Int → ℚ
  progress : Int → ℚ := fun _ => 0

/-- The class `LOTAnimInfo<T>`. -/
structure LOTAnimInfo (T : Type) where
  mKeyFrames : List (LOTKeyFrame T) := []

namespace LOTAnimInfo

/-- The function `LOTAnimInfo::value(int frameNo)`; `dflt` is the value `T()`.
`none` is the call of `front()` on an empty vector. -/
def value {T : Type} (dflt : T) (a : LOTAnimInfo T) (frameNo : Int) : Option T :=
  match a.mKeyFrames.head?, a.mKeyFrames.getLast? with
  | some first, some last =>
    if first.mStartFrame ≥ (frameNo : ℚ) then some first.mStartValue
    else if last.mEndFrame ≤ (frameNo : ℚ) then some last.mEndValue
    else
      match a.mKeyFrames.find?
          (fun k => decide ((frameNo : ℚ) ≥ k.mStartFrame ∧ (frameNo : ℚ) < k.mEndFrame)) with
      | some k => some (k.value frameNo)
      | none => some dflt
  | _, _ => none

/-- The function `LOTAnimInfo::angle(int frameNo)`. `none` is the call of
`front()` on an empty vector. -/
def angle {T : Type} (a : LOTAnimInfo T) (frameNo : Int) : Option ℚ :=
  match a.mKeyFrames.head?, a.mKeyFrames.getLast? with
  | some first, some last =>
    if first.mStartFrame ≥ (frameNo : ℚ) ∨ last.mEndFrame ≤ (frameNo : ℚ) then some 0
    else
      match a.mKeyFrames.find?
          (fun k => decide ((frameNo : ℚ) ≥ k.mStartFrame ∧ (frameNo : ℚ) < k.mEndFrame)) with
      | some k => some (k.angle frameNo)
      | none => some 0
  | _, _ => none

end LOTAnimInfo

/-- The class `LOTAnimatable<T>`: a static value or an animation (the two
members of the union `impl`). -/
structure LOTAnimatable (T : Type) where
  mStatic : Bool := true
  mValue : T
  mAnimInfo : LOTAnimInfo T := {}

namespace LOTAnimatable

/-- The function `LOTAnimatable::value(int frameNo)`. -/
def value {T : Type} (dflt : T) (x : LOTAnimatable T) (frameNo : Int) : Option T :=
  if x.mStatic = true then some x.mValue else x.mAnimInfo.value dflt frameNo

/-- The function `LOTAnimatable::angle(int frameNo)`. -/
def angle {T : Type} (x : LOTAnimatable T) (frameNo : Int) : Option ℚ :=
  if x.mStatic = true then some 0 else x.mAnimInfo.angle frameNo

end LOTAnimatable

/-- What the property of the change detection asks of an animated
property, and what is needed for its calls to be defined: it is static, or its
key frame list is not empty and its first start frame is not after its last
end frame. -/
def LOTAnimatable.WellFormed {T : Type} (x : LOTAnimatable T) : Prop :=
  x.mStatic = true
    ∨ ∃ first last, x.mAnimInfo.mKeyFrames.head? = some first
        ∧ x.mAnimInfo.mKeyFrames.getLast? = some last
        ∧ first.mStartFrame ≤ last.mEndFrame

namespace LOTPathDataItem

end LOTPathDataItem

namespace LOTAnimatableShape

end LOTAnimatableShape

/-- The class `LOTRectData`: its animated members (the members of the bases
`LOTPath` and `LOTData`, which no frame number changes, are left out). -/
structure LOTRectData where
  mPos : LOTAnimatable VPointF := { mValue := {} }
  mSize : LOTAnimatable VPointF := { mValue := {} }
  mRound : LOTAnimatable ℚ := { mValue := 0 }

/-- The class `LOTEllipseData`: its animated members. -/
structure LOTEllipseData where
  mPos : LOTAnimatable VPointF := { mValue := {} }
  mSize : LOTAnimatable VPointF := { mValue := {} }

/-- The class `LOTPolystarData`: its animated members (the constant
`mPolyType` is left out). -/
structure LOTPolystarData where
  mPos : LOTAnimatable VPointF := { mValue := {} }
  mPointCount : LOTAnimatable ℚ := { mValue := 0 }
  mInnerRadius : LOTAnimatable ℚ := { mValue := 0 }
  mOuterRadius : LOTAnimatable ℚ := { mValue := 0 }
  mInnerRoundness : LOTAnimatable ℚ := { mValue := 0 }
  mOuterRoundness : LOTAnimatable ℚ := { mValue := 0 }
  mRotation : LOTAnimatable ℚ := { mValue := 0 }

/-- The animated members of a `LOTRectData` are well formed. -/
def LOTRectData.WellFormed (d : LOTRectData) : Prop :=
  d.mPos.WellFormed ∧ d.mSize.WellFormed ∧ d.mRound.WellFormed

/-- The animated members of a `LOTEllipseData` are well formed. -/
def LOTEllipseData.WellFormed (d : LOTEllipseData) : Prop :=
  d.mPos.WellFormed ∧ d.mSize.WellFormed

/-- The animated members of a `LOTPolystarData` are well formed. -/
def LOTPolystarData.WellFormed (d : LOTPolystarData) : Prop :=
  d.mPos.WellFormed ∧ d.mPointCount.WellFormed ∧ d.mInnerRadius.WellFormed
    ∧ d.mOuterRadius.WellFormed ∧ d.mInnerRoundness.WellFormed ∧ d.mOuterRoundness.WellFormed
    ∧ d.mRotation.WellFormed

namespace VLine

/-- The function `VLine::length(float x1, float y1, float x2, float y2)`,
over any ordered field of numbers (the rationals of the model, or the reals):
the larger of `|dx|`, `|dy|` plus 0.375 times the smaller. -/
def length {K : Type} [LinearOrderedField K] (x1 y1 x2 y2 : K) : K :=
  let x := x2 - x1
  let y := y2 - y1
  let ax := if x < 0 then -x else x
  let ay := if y < 0 then -y else y
  if ax > ay then ax + 3 / 8 * ay else ay + 3 / 8 * ax

end VLine

namespace VDasher

/-- The place of the dasher in its pattern: twice the index of the pair, plus
one inside a gap. -/
def position (d : VDasher) : Nat := 2 * d.mIndex + (if d.mDiscard = true then 1 else 0)

/-- The length of the dash (even place) or gap (odd place) at a place of the
pattern. -/
def segmentAt (d : VDasher) (p : Nat) : Option ℚ :=
  (d.mDashArray.get? (p / 2)).map (fun e => if p % 2 = 0 then e.length else e.gap)

end VDasher

/-! ## Theorems -/

open LottieAnim LottieRenderThread LottieAnimationRenderer

set_option maxRecDepth 8192

/-! ### Maps -/

/-- A key that is absent from a map is found after its insertion at the end. -/
theorem mapFind_append_new {β : Type} (m : List (Nat × β)) (k : Nat) (v : β)
    (h : mapFind m k = none) : mapFind (m ++ [(k, v)]) k = some v := by
  unfold mapFind at h ⊢
  simp only [Option.map_eq_none'] at h
  simp [List.find?_append, h]

/-- Erasing the first element that satisfies `p` changes nothing when no
element does. -/
theorem eraseFirst_none {β : Type} (p : Nat × β → Bool) (m : List (Nat × β))
    (h : ∀ e ∈ m, p e = false) : eraseFirst p m = m := by
  unfold eraseFirst
  apply List.eraseP_of_forall_not
  intro e he
  simp [h e he]

/-- Modifying the first element that satisfies `p` changes nothing when no
element does. -/
theorem modifyFirst_none {β : Type} (p : Nat × β → Bool) (f : β → β) (m : List (Nat × β))
    (h : ∀ e ∈ m, p e = false) : modifyFirst p f m = m := by
  induction m with
  | nil => rfl
  | cons e m ih =>
    have he : p e = false := h e (List.mem_cons_self _ _)
    simp only [modifyFirst, he, Bool.false_eq_true, if_false]
    rw [ih (fun x hx => h x (List.mem_cons_of_mem _ hx))]

/-! ### The ready-frame queue (C1, C7) -/

/-- A sequence of pushes (all with bound `m`) and pops keeps a queue of at most
`m + 1` entries within `m + 1` entries. -/
theorem runReadyOps_length_le (m : Nat) (ops : List ReadyOp) :
    ∀ t : LottieRenderThread, t.readyFrames.length ≤ m + 1 →
      (runReadyOps m t ops).readyFrames.length ≤ m + 1 := by
  induction ops with
  | nil => intro t h; simpa [runReadyOps] using h
  | cons op ops ih =>
    intro t h
    cases op with
    | push f =>
      simp only [runReadyOps]
      apply ih
      simp only [pushReadyFrame]
      split
      · simp only [List.length_append, List.length_tail, List.length_singleton]; omega
      · simp only [List.length_append, List.length_singleton]; omega
    | pop =>
      simp only [runReadyOps]
      apply ih
      unfold popReadyFrame
      split
      · exact h
      · rename_i f rest heq
        simp only
        rw [heq] at h
        simp only [List.length_cons] at h
        omega

/-- C1 (as amended): starting from an empty ready-frame queue, no sequence of
`pushReadyFrame(frame, maxAnimSize)` and `popReadyFrame` calls leaves
`readyFrames` with more than `maxAnimSize + 1` entries (7 entries for three
instances, `maxAnimSize = 6`). -/
theorem readyFrames_length_le_succ (maxAnimSize : Nat) (ops : List ReadyOp) :
    (runReadyOps maxAnimSize {} ops).readyFrames.length ≤ maxAnimSize + 1 :=
  runReadyOps_length_le maxAnimSize ops {} (by simp)

/-- C1 (as stated) fails: with `maxAnimSize = 6`, seven pushes on the empty
queue (three instances publishing a frame each in two ticks, and a seventh
frame in the third) leave seven entries, since the guard
`readyFrames.size() > maxAnimSize` is evaluated before the push. -/
theorem readyFrames_exceeds_maxAnimSize :
    ¬ ((runReadyOps 6 {}
        [ReadyOp.push (sampleReadyFrame 1 0), ReadyOp.push (sampleReadyFrame 2 0),
         ReadyOp.push (sampleReadyFrame 3 0), ReadyOp.push (sampleReadyFrame 1 1),
         ReadyOp.push (sampleReadyFrame 2 1), ReadyOp.push (sampleReadyFrame 3 1),
         ReadyOp.push (sampleReadyFrame 1 2)]).readyFrames.length ≤ 6) := by
  decide

/-- The bound of C1 is also exceeded in the worker loop itself: three
registered instances of 100 ms per frame, ticked at 0, 100, 200 and 300 ms
with no consumer draining the queue, leave seven ready frames. -/
theorem execute_three_instances_seven_ready :
    (executeSteps sampleEnv threeRequests [0, 0, 0, 100, 200, 300]).map
        (fun t => (t.animations.length, t.readyFrames.length)) = some (3, 7) := by
  decide!

/-- C7: `pushReadyFrame(f, m)` leaves the queue `q` without its front element
when `q` held more than `m` entries, and `q` itself otherwise, followed by `f`:
the pushed frame is the last element, what precedes it is a suffix of `q` (the
survivors in their order) that misses at most the oldest element, the caller's
frame is left default (swap) and the other worker fields are untouched;
`popReadyFrame` returns false on the empty queue and leaves its argument, and
otherwise hands out the front element and removes it. -/
theorem pushReadyFrame_drop_oldest_fifo (t : LottieRenderThread) (f frame : ReadyFrame)
    (m : Nat) :
    (t.pushReadyFrame f m).1.readyFrames
        = t.readyFrames.drop (if m < t.readyFrames.length then 1 else 0) ++ [f]
      ∧ (t.pushReadyFrame f m).1.readyFrames.getLast? = some f
      ∧ (t.pushReadyFrame f m).1.readyFrames.dropLast <:+ t.readyFrames
      ∧ t.readyFrames.length ≤ (t.pushReadyFrame f m).1.readyFrames.length
      ∧ (t.pushReadyFrame f m).2 = {}
      ∧ (t.pushReadyFrame f m).1.animations = t.animations
      ∧ (t.pushReadyFrame f m).1.commands = t.commands
      ∧ (t.popReadyFrame frame).1 = !t.readyFrames.isEmpty
      ∧ (t.popReadyFrame frame).2.1 = t.readyFrames.head?.getD frame
      ∧ (t.popReadyFrame frame).2.2.readyFrames = t.readyFrames.tail := by
  refine ⟨?_, ?_, ?_, ?_, rfl, rfl, rfl, ?_, ?_, ?_⟩
  · simp only [pushReadyFrame, gt_iff_lt]
    split <;> simp
  · simp [pushReadyFrame]
  · simp only [pushReadyFrame, gt_iff_lt, List.dropLast_concat]
    split
    · exact List.tail_suffix _
    · exact List.suffix_refl _
  · simp only [pushReadyFrame, gt_iff_lt]
    split
    · simp only [List.length_append, List.length_tail, List.length_singleton]; omega
    · simp
  · unfold popReadyFrame; split <;> simp_all
  · unfold popReadyFrame; split <;> simp_all
  · unfold popReadyFrame; split <;> simp_all

/-! ### The tick of one instance -/

/-- The prerender half of `render` is defined unless a looping instance has no frames. -/
theorem prerender_some (a : LottieAnim) (ht : a.loop = true → 0 < a.frame.total) :
    ∃ b a', a.prerender = some (b, a') := by
  unfold prerender
  have h0 : ¬ (a.loop = true ∧ a.frame.total = 0) := by
    rintro ⟨hl, hz⟩
    have := ht hl
    omega
  simp only [h0, if_false]
  repeat' split
  all_goals exact ⟨_, _, rfl⟩

/-- The prerender half of `render` either changes nothing or appends exactly one frame, and
it appends only to a queue of at most `max(maxPrerenderedFrames, DEFAULT_PRERENDERED_FRAMES)`
entries, for an index below `frame.total`. -/
theorem prerender_cases (a a' : LottieAnim) (b : Bool) (h : a.prerender = some (b, a')) :
    (b = false ∧ a' = a)
      ∨ (b = true
          ∧ (a.prerenderedFrames.length : Int)
              ≤ max a.maxPrerenderedFrames DEFAULT_PRERENDERED_FRAMES
          ∧ ∃ i, i < a.frame.total
              ∧ i = (if a.loop = true
                      then (a.frame.current + a.prerenderedFrames.length % U16) % U16 % a.frame.total
                      else (a.frame.current + a.prerenderedFrames.length % U16) % U16)
              ∧ a' = { a with prerenderedFrames := a.prerenderedFrames ++
                  [{ data := PixelData.rendered i a.canvas.width a.canvas.height,
                     size := (a.canvas.width, a.canvas.height) }] }) := by
  unfold prerender at h
  by_cases hle : (a.prerenderedFrames.length : Int)
      ≤ max a.maxPrerenderedFrames DEFAULT_PRERENDERED_FRAMES
  · rw [if_pos hle] at h
    simp only at h
    by_cases hz : a.loop = true ∧ a.frame.total = 0
    · rw [if_pos hz] at h
      exact absurd h (by simp)
    · rw [if_neg hz] at h
      by_cases hlt : (if a.loop = true
          then (a.frame.current + a.prerenderedFrames.length % U16) % U16 % a.frame.total
          else (a.frame.current + a.prerenderedFrames.length % U16) % U16) < a.frame.total
      · rw [if_pos hlt] at h
        simp only [Option.some.injEq, Prod.mk.injEq] at h
        right
        exact ⟨h.1.symm, hle, _, hlt, rfl, h.2.symm⟩
      · rw [if_neg hlt] at h
        simp only [Option.some.injEq, Prod.mk.injEq] at h
        left; exact ⟨h.1.symm, h.2.symm⟩
  · rw [if_neg hle] at h
    simp only [Option.some.injEq, Prod.mk.injEq] at h
    left; exact ⟨h.1.symm, h.2.symm⟩

/-- The advance half of `render` is defined unless a looping instance has no frames. -/
theorem advance_some (a : LottieAnim) (d : Nat) (ht : a.loop = true → 0 < a.frame.total) :
    ∃ a', a.advance d = some a' := by
  unfold advance
  cases hq : a.prerenderedFrames with
  | nil =>
    simp only
    split
    · rename_i hl
      split
      · rename_i h0; exact absurd (ht hl) (by omega)
      · exact ⟨_, rfl⟩
    · exact ⟨_, rfl⟩
  | cons f rest =>
    simp only
    split
    · rename_i hl
      split
      · rename_i h0; exact absurd (ht hl) (by omega)
      · exact ⟨_, rfl⟩
    · exact ⟨_, rfl⟩

/-- What the advance half of `render` does to the queue, the frame index and the timeline. -/
theorem advance_spec (a a' : LottieAnim) (d : Nat) (h : a.advance d = some a') :
    SameConfig a a'
      ∧ a'.renderonce = a.renderonce
      ∧ a'.prerenderedFrames = a.prerenderedFrames.tail
      ∧ a'.frame.current
          = (if a.loop = true then (a.frame.current + 1) % U16 % a.frame.total
             else (a.frame.current + 1) % U16)
      ∧ a'.timeline.last_ms = (a.timeline.last_ms + d * a.timeline.duration_ms) % U32 := by
  unfold advance at h
  cases hq : a.prerenderedFrames with
  | nil =>
    rw [hq] at h
    simp only at h
    split at h
    · rename_i hl
      split at h
      · exact absurd h (by simp)
      · simp only [Option.some.injEq] at h
        subst h
        simp [SameConfig, hl, hq]
    · rename_i hl
      simp only [Option.some.injEq] at h
      subst h
      simp [SameConfig, hl, hq]
  | cons f rest =>
    rw [hq] at h
    simp only at h
    split at h
    · rename_i hl
      split at h
      · exact absurd h (by simp)
      · simp only [Option.some.injEq] at h
        subst h
        simp [SameConfig, hl]
    · rename_i hl
      simp only [Option.some.injEq] at h
      subst h
      simp [SameConfig, hl]

/-- The paths through `render`: closed gate, finished instance, or an active tick made of
an optional advance and the prerender step. -/
theorem render_cases (a a' : LottieAnim) (curTime : Nat) (b : Bool)
    (h : a.render curTime = some (b, a')) :
    (b = false ∧ a' = a ∧ (a.pid = BAD_PICTUREID ∨ ¬(a.play = true ∨ a.renderonce = true)))
      ∨ (b = false ∧ a' = { a with renderonce := false } ∧ a.loop = false
          ∧ a.frame.total < a.frame.current)
      ∨ (a.pid ≠ BAD_PICTUREID ∧ (a.play = true ∨ a.renderonce = true)
          ∧ ¬(a.loop = false ∧ a.frame.total < a.frame.current)
          ∧ a.timeline.duration_ms ≠ 0
          ∧ ((sub32 curTime a.timeline.last_ms / a.timeline.duration_ms = 0
                ∧ prerender { a with renderonce := false } = some (b, a'))
             ∨ (sub32 curTime a.timeline.last_ms / a.timeline.duration_ms ≠ 0
                ∧ ∃ a2, advance { a with renderonce := false }
                      (sub32 curTime a.timeline.last_ms / a.timeline.duration_ms) = some a2
                    ∧ prerender a2 = some (b, a')))) := by
  unfold LottieAnim.render at h
  by_cases hg : a.pid = BAD_PICTUREID ∨ ¬(a.play = true ∨ a.renderonce = true)
  · rw [if_pos hg] at h
    simp only [Option.some.injEq, Prod.mk.injEq] at h
    exact Or.inl ⟨h.1.symm, h.2.symm, hg⟩
  · rw [if_neg hg] at h
    simp only [gt_iff_lt] at h
    by_cases hf : a.loop = false ∧ a.frame.total < a.frame.current
    · rw [if_pos hf] at h
      simp only [Option.some.injEq, Prod.mk.injEq] at h
      exact Or.inr (Or.inl ⟨h.1.symm, h.2.symm, hf.1, hf.2⟩)
    · rw [if_neg hf] at h
      by_cases hd : a.timeline.duration_ms = 0
      · rw [if_pos hd] at h
        exact absurd h (by simp)
      · rw [if_neg hd] at h
        push_neg at hg
        refine Or.inr (Or.inr ⟨hg.1, hg.2, hf, hd, ?_⟩)
        by_cases hz : sub32 curTime a.timeline.last_ms / a.timeline.duration_ms = 0
        · left
          refine ⟨hz, ?_⟩
          simpa [hz] using h
        · right
          refine ⟨hz, ?_⟩
          simp only [ne_eq, hz, not_false_eq_true, if_true] at h
          cases hadv : advance { a with renderonce := false }
              (sub32 curTime a.timeline.last_ms / a.timeline.duration_ms) with
          | none => rw [hadv] at h; exact absurd h (by simp)
          | some a2 => rw [hadv] at h; exact ⟨a2, rfl, by simpa using h⟩

/-- A call of `render` is defined when the frame duration is positive and a looping instance has
at least one frame. -/
theorem render_some (a : LottieAnim) (curTime : Nat) (hd : 0 < a.timeline.duration_ms)
    (ht : a.loop = true → 0 < a.frame.total) :
    ∃ b a', a.render curTime = some (b, a') := by
  unfold LottieAnim.render
  by_cases hg : a.pid = BAD_PICTUREID ∨ ¬(a.play = true ∨ a.renderonce = true)
  · rw [if_pos hg]; exact ⟨_, _, rfl⟩
  · rw [if_neg hg]
    simp only [gt_iff_lt]
    by_cases hf : a.loop = false ∧ a.frame.total < a.frame.current
    · rw [if_pos hf]; exact ⟨_, _, rfl⟩
    · rw [if_neg hf, if_neg (by omega)]
      by_cases hz : sub32 curTime a.timeline.last_ms / a.timeline.duration_ms = 0
      · simp only [ne_eq, hz, not_true_eq_false, if_false]
        exact prerender_some _ ht
      · simp only [ne_eq, hz, not_false_eq_true, if_true]
        obtain ⟨a2, h2⟩ := advance_some { a with renderonce := false }
          (sub32 curTime a.timeline.last_ms / a.timeline.duration_ms) ht
        rw [h2]
        have hs := (advance_spec _ _ _ h2).1
        simp only [Option.some_bind]
        apply prerender_some
        rw [hs.2.2.1, hs.2.2.2.2.2.1]
        exact ht

/-- One call of `render` keeps the configuration and, on a non-looping
instance, keeps `frame.current` within `frame.total + 1`. -/
theorem render_step_invariant (a a' : LottieAnim) (curTime : Nat) (b : Bool)
    (h : a.render curTime = some (b, a')) :
    SameConfig a a'
      ∧ (a.loop = false → a.frame.current ≤ a.frame.total + 1 →
          a'.frame.current ≤ a.frame.total + 1) := by
  have hpre : ∀ (x x' : LottieAnim) (c : Bool), x.prerender = some (c, x') →
      SameConfig x x' ∧ x'.frame.current = x.frame.current := by
    intro x x' c hx
    rcases prerender_cases x x' c hx with hp | ⟨-, -, i, -, -, hp⟩
    · rw [hp.2]; simp [SameConfig]
    · rw [hp]; simp [SameConfig]
  rcases render_cases a a' curTime b h with hc | hc | ⟨-, -, hfin, -, ⟨-, h3⟩ | ⟨-, a2, h2, h3⟩⟩
  · rw [hc.2.1]; simp [SameConfig]
  · rw [hc.2.1]; simp [SameConfig]
  · obtain ⟨hs, hcur⟩ := hpre _ _ _ h3
    refine ⟨by simpa [SameConfig] using hs, fun _ hle => ?_⟩
    rw [hcur]; exact hle
  · obtain ⟨hs, hcur⟩ := hpre _ _ _ h3
    obtain ⟨hs2, -, -, hc2, -⟩ := advance_spec _ _ _ h2
    refine ⟨?_, fun hl _ => ?_⟩
    · simp only [SameConfig] at hs hs2 ⊢
      obtain ⟨s1, s2, s3, s4, s5, s6, s7⟩ := hs
      obtain ⟨r1, r2, r3, r4, r5, r6, r7⟩ := hs2
      exact ⟨s1.trans r1, s2.trans r2, s3.trans r3, s4.trans r4, s5.trans r5, s6.trans r6,
        s7.trans r7⟩
    · rw [hcur, hc2]
      simp only [hl, Bool.false_eq_true, if_false]
      have hle : a.frame.current ≤ a.frame.total := by
        by_contra hgt
        exact hfin ⟨hl, by omega⟩
      have := Nat.mod_le (a.frame.current + 1) U16
      omega

/-- A sequence of `render` calls is defined, keeps the configuration and keeps
`frame.current` of a non-looping instance within `frame.total + 1`. -/
theorem renders_invariant (times : List Nat) :
    ∀ a : LottieAnim, 0 < a.timeline.duration_ms → (a.loop = true → 0 < a.frame.total) →
      ∃ a', renders a times = some a' ∧ SameConfig a a'
        ∧ (a.loop = false → a.frame.current ≤ a.frame.total + 1 →
            a'.frame.current ≤ a.frame.total + 1) := by
  induction times with
  | nil =>
    intro a _ _
    exact ⟨a, rfl, by simp [SameConfig], fun _ h => h⟩
  | cons curTime rest ih =>
    intro a hd ht
    obtain ⟨b, a1, h1⟩ := render_some a curTime hd ht
    obtain ⟨hs1, hc1⟩ := render_step_invariant a a1 curTime b h1
    obtain ⟨a', h2, hs2, hc2⟩ := ih a1 (by rw [hs1.2.2.2.2.2.2]; exact hd)
      (by rw [hs1.2.2.1, hs1.2.2.2.2.2.1]; exact ht)
    refine ⟨a', by simp [renders, h1, h2], ?_, fun hl hle => ?_⟩
    · simp only [SameConfig] at hs1 hs2 ⊢
      obtain ⟨s1, s2, s3, s4, s5, s6, s7⟩ := hs1
      obtain ⟨r1, r2, r3, r4, r5, r6, r7⟩ := hs2
      exact ⟨r1.trans s1, r2.trans s2, r3.trans s3, r4.trans s4, r5.trans s5, r6.trans s6,
        r7.trans s7⟩
    · have h3 := hc2 (by rw [hs1.2.2.1]; exact hl)
        (by rw [hs1.2.2.2.2.2.1]; exact hc1 hl hle)
      rw [hs1.2.2.2.2.2.1] at h3
      exact h3

/-- What one call of `render` does to the prerender queue: when it returns
true it has appended one frame to the old queue or to its tail, which held at
most `max(maxPrerenderedFrames, DEFAULT_PRERENDERED_FRAMES)` entries; when it
returns false the new queue is the old one or its tail. -/
theorem render_queue_step (a a' : LottieAnim) (curTime : Nat) (b : Bool)
    (h : a.render curTime = some (b, a')) :
    (b = true → ∃ q f, a'.prerenderedFrames = q ++ [f] ∧ q <:+ a.prerenderedFrames
        ∧ (q.length : Int) ≤ max a.maxPrerenderedFrames DEFAULT_PRERENDERED_FRAMES)
      ∧ (b = false → a'.prerenderedFrames <:+ a.prerenderedFrames) := by
  rcases render_cases a a' curTime b h with hc | hc | ⟨-, -, -, -, ⟨-, h3⟩ | ⟨-, a2, h2, h3⟩⟩
  · rw [hc.1, hc.2.1]
    exact ⟨fun hb => absurd hb (by simp), fun _ => List.suffix_refl _⟩
  · rw [hc.1, hc.2.1]
    exact ⟨fun hb => absurd hb (by simp), fun _ => List.suffix_refl _⟩
  · rcases prerender_cases _ a' b h3 with hp | ⟨hb, hle, i, -, -, hp⟩
    · rw [hp.1, hp.2]
      exact ⟨fun hb => absurd hb (by simp), fun _ => List.suffix_refl _⟩
    · rw [hb, hp]
      exact ⟨fun _ => ⟨_, _, rfl, List.suffix_refl _, hle⟩, fun hb => absurd hb (by simp)⟩
  · obtain ⟨hs2, -, hq2, -, -⟩ := advance_spec _ _ _ h2
    simp only at hq2
    rcases prerender_cases a2 a' b h3 with hp | ⟨hb, hle, i, -, -, hp⟩
    · rw [hp.1, hp.2, hq2]
      exact ⟨fun hb => absurd hb (by simp), fun _ => List.tail_suffix _⟩
    · rw [hb, hp]
      refine ⟨fun _ => ⟨_, _, rfl, ?_, ?_⟩, fun hb => absurd hb (by simp)⟩
      · rw [hq2]; exact List.tail_suffix _
      · rw [hs2.2.2.2.2.1] at hle; exact hle

/-- A sequence of `render` calls keeps a prerender queue of at most
`max(maxPrerenderedFrames, DEFAULT_PRERENDERED_FRAMES) + 1` entries within
that depth. -/
theorem renders_queue_depth (times : List Nat) :
    ∀ a : LottieAnim, 0 < a.timeline.duration_ms → (a.loop = true → 0 < a.frame.total) →
      (a.prerenderedFrames.length : Int)
        ≤ max a.maxPrerenderedFrames DEFAULT_PRERENDERED_FRAMES + 1 →
      ∃ a', renders a times = some a'
        ∧ (a'.prerenderedFrames.length : Int)
            ≤ max a.maxPrerenderedFrames DEFAULT_PRERENDERED_FRAMES + 1 := by
  induction times with
  | nil => intro a _ _ h; exact ⟨a, rfl, h⟩
  | cons curTime rest ih =>
    intro a hd ht hq
    obtain ⟨b, a1, h1⟩ := render_some a curTime hd ht
    obtain ⟨hs1, -⟩ := render_step_invariant a a1 curTime b h1
    obtain ⟨hpush, hkeep⟩ := render_queue_step a a1 curTime b h1
    have hq1 : (a1.prerenderedFrames.length : Int)
        ≤ max a1.maxPrerenderedFrames DEFAULT_PRERENDERED_FRAMES + 1 := by
      rw [hs1.2.2.2.2.1]
      cases b with
      | true =>
        obtain ⟨q, f, hqf, -, hle⟩ := hpush rfl
        rw [hqf, List.length_append, List.length_singleton]
        push_cast
        omega
      | false =>
        have := (hkeep rfl).length_le
        omega
    obtain ⟨a', h2, hq2⟩ := ih a1 (by rw [hs1.2.2.2.2.2.2]; exact hd)
      (by rw [hs1.2.2.1, hs1.2.2.2.2.2.1]; exact ht) hq1
    rw [hs1.2.2.2.2.1] at hq2
    exact ⟨a', by simp [renders, h1, h2], hq2⟩

/-- The freshly loaded `scenarioAnim` is the instance of the pipeline scenario. -/
theorem scenarioAnim_fields :
    scenarioAnim.pid = 7 ∧ scenarioAnim.loop = false ∧ scenarioAnim.play = true
      ∧ scenarioAnim.renderonce = false ∧ scenarioAnim.frame = { current := 0, total := 10 }
      ∧ scenarioAnim.timeline = { duration_ms := 100, last_ms := 0 }
      ∧ scenarioAnim.maxPrerenderedFrames = 2 ∧ scenarioAnim.prerenderedFrames = []
      ∧ scenarioAnim.currentFrame.pid = BAD_PICTUREID
      ∧ scenarioAnim.canvas = { width := 64, height := 64 } := by
  decide

/-- The prerender queue of `scenarioAnim` after its first tick holds the frame of index 0
alone. -/
theorem scenarioAnim_first_tick :
    (scenarioAnim.render 0).map (fun r => r.2.prerenderedFrames.map NextFrame.data)
      = some [PixelData.rendered 0 64 64] := by
  decide

/-! ### The pipeline scenario (C2) -/

/-- C2 (as amended): for a non-looping instance with a valid id, ten frames of
100 ms, `maxPrerenderedFrames = 2`, playing, at frame 0 with an empty prerender
queue and no ready frame, `render(0)` leaves the queue holding the one frame
rendered for index 0, `frame.current = 0` and no ready frame; the following
`render(150)` sets `frame.current` to 1, puts the frame rendered for index 0
into `currentFrame` and leaves the queue holding the one frame rendered for
index 1 (each call prerenders a single frame). -/
theorem pipeline_scenario_one_frame_per_tick (a : LottieAnim)
    (hpid : a.pid ≠ BAD_PICTUREID) (hloop : a.loop = false) (hplay : a.play = true)
    (htotal : a.frame.total = 10) (hcur : a.frame.current = 0)
    (hdur : a.timeline.duration_ms = 100) (hlast : a.timeline.last_ms = 0)
    (hmax : a.maxPrerenderedFrames = 2) (hq : a.prerenderedFrames = [])
    (hready : a.currentFrame.pid = BAD_PICTUREID) :
    ∃ a1 a2 : LottieAnim,
      a.render 0 = some (true, a1)
      ∧ a1.prerenderedFrames.map NextFrame.data
          = [PixelData.rendered 0 a.canvas.width a.canvas.height]
      ∧ a1.frame.current = 0
      ∧ a1.currentFrame.pid = BAD_PICTUREID
      ∧ a1.render 150 = some (true, a2)
      ∧ a2.frame.current = 1
      ∧ a2.currentFrame.pid = a.pid
      ∧ a2.currentFrame.data = PixelData.rendered 0 a.canvas.width a.canvas.height
      ∧ a2.prerenderedFrames.map NextFrame.data
          = [PixelData.rendered 1 a.canvas.width a.canvas.height] := by
  obtain ⟨pid, canvas, ⟨dur, last⟩, ⟨cur, total⟩, loop, play, once, maxp, path, anim, q, cf⟩ := a
  simp only at hpid hloop hplay htotal hcur hdur hlast hmax hq hready
  subst hloop hplay htotal hcur hdur hlast hmax hq
  have e1 : sub32 0 0 / 100 = 0 := by decide
  have e2 : sub32 150 0 / 100 = 1 := by decide
  have e3 : ((0 : Nat) : Int) ≤ max 2 DEFAULT_PRERENDERED_FRAMES := by decide
  have e4 : (0 + 1) % U16 = 1 := by decide
  have e5 : (0 + 1 * 100) % U32 = 100 := by decide
  have e6 : (1 + 0 % U16) % U16 = 1 := by decide
  have e7 : (0 + 0 % U16) % U16 = 0 := by decide
  refine ⟨{ pid := pid, canvas := canvas, timeline := { duration_ms := 100, last_ms := 0 },
            frame := { current := 0, total := 10 }, loop := false, play := true,
            renderonce := false, maxPrerenderedFrames := 2, lottiePath := path, anim := anim,
            prerenderedFrames := [{ data := PixelData.rendered 0 canvas.width canvas.height,
                                    size := (canvas.width, canvas.height) }],
            currentFrame := cf },
          { pid := pid, canvas := canvas, timeline := { duration_ms := 100, last_ms := 100 },
            frame := { current := 1, total := 10 }, loop := false, play := true,
            renderonce := false, maxPrerenderedFrames := 2, lottiePath := path, anim := anim,
            prerenderedFrames := [{ data := PixelData.rendered 1 canvas.width canvas.height,
                                    size := (canvas.width, canvas.height) }],
            currentFrame := { pid := pid, data := PixelData.rendered 0 canvas.width canvas.height,
                              size := (canvas.width, canvas.height) } },
          ?_, ?_, ?_, ?_, ?_, ?_, ?_, ?_, ?_⟩
  · simp [LottieAnim.render, prerender, hpid, e1, e3, e7]
  · simp
  · simp
  · simp [hready]
  · simp [LottieAnim.render, prerender, advance, hpid, e1, e2, e3, e4, e5, e6, e7]
  all_goals simp

/-- C2, witness: the amended scenario on the freshly loaded `scenarioAnim`. -/
theorem pipeline_scenario_one_frame_per_tick_witness :
    ∃ a1 a2 : LottieAnim,
      scenarioAnim.render 0 = some (true, a1)
      ∧ a1.prerenderedFrames.map NextFrame.data = [PixelData.rendered 0 64 64]
      ∧ a1.frame.current = 0
      ∧ a1.currentFrame.pid = BAD_PICTUREID
      ∧ a1.render 150 = some (true, a2)
      ∧ a2.frame.current = 1
      ∧ a2.currentFrame.pid = 7
      ∧ a2.currentFrame.data = PixelData.rendered 0 64 64
      ∧ a2.prerenderedFrames.map NextFrame.data = [PixelData.rendered 1 64 64] :=
  pipeline_scenario_one_frame_per_tick scenarioAnim (by decide) (by decide) (by decide)
    (by decide) (by decide) (by decide) (by decide) (by decide) (by decide) (by decide)

/-- C2 (as stated) fails on `scenarioAnim`: there is no run in which the queue
holds the frames of indices 0 and 1 after `render(0)` and those of indices 2
and 3 after `render(150)`; one call prerenders one frame, so the queue holds
index 0 alone and then index 1 alone. -/
theorem pipeline_scenario_queue_refuted :
    ¬ ∃ (b1 b2 : Bool) (a1 a2 : LottieAnim),
      scenarioAnim.render 0 = some (b1, a1)
      ∧ a1.prerenderedFrames.map NextFrame.data
          = [PixelData.rendered 0 64 64, PixelData.rendered 1 64 64]
      ∧ a1.frame.current = 0
      ∧ a1.currentFrame.pid = BAD_PICTUREID
      ∧ a1.render 150 = some (b2, a2)
      ∧ a2.frame.current = 1
      ∧ a2.currentFrame.data = PixelData.rendered 0 64 64
      ∧ a2.prerenderedFrames.map NextFrame.data
          = [PixelData.rendered 2 64 64, PixelData.rendered 3 64 64] := by
  rintro ⟨b1, b2, a1, a2, h1, h2, -⟩
  have hq := scenarioAnim_first_tick
  rw [h1] at hq
  simp only [Option.map_some', Option.some.injEq] at hq
  rw [hq] at h2
  exact absurd h2 (by decide)

/-! ### Request de-duplication (C3) -/

/-- C3 (as amended): for a non-empty path whose fingerprint is not yet present,
two consecutive calls of `match(path, w, h, loop, rate)` return the same id
(the fingerprint), the second call changes nothing (it enqueues no command and
leaves `animationsPresent` as it is), the first call registers the fingerprint,
and together they enqueue exactly one `ADD_CONFIG` command when the command
queue holds at most 100 entries and none when it holds more. -/
theorem match_twice_dedup (E : Env) (r : LottieAnimationRenderer) (path : String) (w h : Int)
    (loop : Bool) (rate : Int) (hpath : path ≠ "")
    (hnew : mapFind r.animationsPresent (getPropsHash E path w h loop rate) = none) :
    (r.match_ E (some path) w h loop rate).1 = getPropsHash E path w h loop rate
      ∧ ((r.match_ E (some path) w h loop rate).2.match_ E (some path) w h loop rate).1
          = (r.match_ E (some path) w h loop rate).1
      ∧ ((r.match_ E (some path) w h loop rate).2.match_ E (some path) w h loop rate).2
          = (r.match_ E (some path) w h loop rate).2
      ∧ (r.match_ E (some path) w h loop rate).2.animationsPresent
          = r.animationsPresent ++
              [(getPropsHash E path w h loop rate,
                { pid := getPropsHash E path w h loop rate,
                  size := (max w DEFAULT_SIZE, max h DEFAULT_SIZE) })]
      ∧ ((r.match_ E (some path) w h loop rate).2.match_ E (some path) w h loop
            rate).2.renderThread.commands
          = r.renderThread.commands ++
              (if r.renderThread.commands.length ≤ 100
                then [addConfigCommand E path w h loop rate] else []) := by
  have hfirst : r.match_ E (some path) w h loop rate
      = (getPropsHash E path w h loop rate,
          { r with
            animationsPresent := r.animationsPresent ++
              [(getPropsHash E path w h loop rate,
                { pid := getPropsHash E path w h loop rate,
                  size := (max w DEFAULT_SIZE, max h DEFAULT_SIZE) })]
            renderThread := r.renderThread.addCommand (addConfigCommand E path w h loop rate) }) := by
    simp [match_, hpath, hnew, mapInsert, addConfigCommand]
  have hsecond : ∀ r' : LottieAnimationRenderer,
      (mapFind r'.animationsPresent (getPropsHash E path w h loop rate)).isSome →
      r'.match_ E (some path) w h loop rate = (getPropsHash E path w h loop rate, r') := by
    intro r' hs
    obtain ⟨d, hd⟩ := Option.isSome_iff_exists.mp hs
    simp [match_, hpath, hd]
  rw [hfirst]
  simp only
  rw [hsecond _ (by simp [mapFind_append_new _ _ _ hnew])]
  refine ⟨?_, ?_, ?_, ?_, ?_⟩
  iterate 4 trivial
  simp only [addCommand, gt_iff_lt]
  by_cases hlen : r.renderThread.commands.length ≤ 100
  · rw [if_neg (by omega), if_pos hlen]
  · rw [if_pos (by omega), if_neg hlen]; simp

/-- C3, witness: two requests for `a.json` at 64 x 64, looping, rate 0, on a
fresh renderer. -/
theorem match_twice_dedup_witness :
    (({} : LottieAnimationRenderer).match_ sampleEnv (some "a.json") 64 64 true 0).1
        = getPropsHash sampleEnv "a.json" 64 64 true 0
      ∧ ((({} : LottieAnimationRenderer).match_ sampleEnv (some "a.json") 64 64 true 0).2.match_
            sampleEnv (some "a.json") 64 64 true 0).2.renderThread.commands
          = [addConfigCommand sampleEnv "a.json" 64 64 true 0] :=
  ⟨(match_twice_dedup sampleEnv {} "a.json" 64 64 true 0 (by decide) (by decide)).1,
    (match_twice_dedup sampleEnv {} "a.json" 64 64 true 0 (by decide) (by decide)).2.2.2.2⟩

/-- C3 (as stated) fails on `busyRenderer`: the path is not empty and the
fingerprint of the request is not present, but the command queue holds more
than 100 entries, so `addCommand` drops the `ADD_CONFIG` command of the first
call and the two calls together enqueue no command at all. -/
theorem match_twice_busy_queue_no_command :
    mapFind busyRenderer.animationsPresent (getPropsHash sampleEnv "a.json" 64 64 true 0) = none
      ∧ ¬ ∃ c : LottieRenderCommand,
        ((busyRenderer.match_ sampleEnv (some "a.json") 64 64 true 0).2.match_
            sampleEnv (some "a.json") 64 64 true 0).2.renderThread.commands
          = busyRenderer.renderThread.commands ++ [c] := by
  refine ⟨by decide, ?_⟩
  rintro ⟨c, hc⟩
  have hlen := congrArg List.length hc
  have h1 : ((busyRenderer.match_ sampleEnv (some "a.json") 64 64 true 0).2.match_
          sampleEnv (some "a.json") 64 64 true 0).2.renderThread.commands.length = 101 := by
    decide
  rw [h1, List.length_append] at hlen
  have h2 : busyRenderer.renderThread.commands.length = 101 := by decide
  rw [h2] at hlen
  simp at hlen

/-! ### Depth of the prerender queue (C4) -/

/-- C4 (as amended): a call of `render` (defined when the frame duration is
positive and a looping instance has a frame) pushes at most one prerendered
frame, and it pushes only onto a queue (the old queue, or its tail after the
oldest frame moved to `currentFrame`) that holds at most
`max(maxPrerenderedFrames, DEFAULT_PRERENDERED_FRAMES)` entries; hence,
starting from an empty queue, after any sequence of `render` calls the queue
depth never exceeds `max(maxPrerenderedFrames, DEFAULT_PRERENDERED_FRAMES) + 1`. -/
theorem prerender_queue_depth_le_succ (a : LottieAnim) (curTime : Nat) (times : List Nat)
    (hd : 0 < a.timeline.duration_ms) (ht : a.loop = true → 0 < a.frame.total) :
    (∃ b a', a.render curTime = some (b, a')
        ∧ a'.prerenderedFrames.length ≤ a.prerenderedFrames.length + 1
        ∧ (b = true → ∃ q f, a'.prerenderedFrames = q ++ [f] ∧ q <:+ a.prerenderedFrames
            ∧ (q.length : Int) ≤ max a.maxPrerenderedFrames DEFAULT_PRERENDERED_FRAMES)
        ∧ (b = false → a'.prerenderedFrames <:+ a.prerenderedFrames))
      ∧ (a.prerenderedFrames = [] →
          ∃ a', renders a times = some a'
            ∧ (a'.prerenderedFrames.length : Int)
                ≤ max a.maxPrerenderedFrames DEFAULT_PRERENDERED_FRAMES + 1) := by
  constructor
  · obtain ⟨b, a', h⟩ := render_some a curTime hd ht
    obtain ⟨hpush, hkeep⟩ := render_queue_step a a' curTime b h
    refine ⟨b, a', h, ?_, hpush, hkeep⟩
    cases b with
    | true =>
      obtain ⟨q, f, hqf, hsuf, -⟩ := hpush rfl
      have := hsuf.length_le
      rw [hqf, List.length_append, List.length_singleton]
      omega
    | false =>
      have := (hkeep rfl).length_le
      omega
  · intro hq
    apply renders_queue_depth times a hd ht
    rw [hq]
    have : (0 : Int) ≤ max a.maxPrerenderedFrames DEFAULT_PRERENDERED_FRAMES :=
      le_trans (by decide) (le_max_right _ _)
    simp only [List.length_nil, Nat.cast_zero]
    omega

/-- C4, witness: `scenarioAnim` ticked three times at 0 ms. -/
theorem prerender_queue_depth_le_succ_witness :
    ∃ a', renders scenarioAnim [0, 0, 0] = some a'
      ∧ (a'.prerenderedFrames.length : Int)
          ≤ max scenarioAnim.maxPrerenderedFrames DEFAULT_PRERENDERED_FRAMES + 1 :=
  (prerender_queue_depth_le_succ scenarioAnim 0 [0, 0, 0] (by decide) (by decide)).2 (by decide)

/-- C4 (as stated) fails on `scenarioAnim` (`maxPrerenderedFrames = 2`, empty
queue): after two ticks the queue holds two entries, which is not fewer than
the maximum, and the third tick still pushes (the test is `size() <= max`),
leaving three. -/
theorem prerender_queue_exceeds_max :
    scenarioAnim.prerenderedFrames = []
      ∧ ¬ ∀ a', renders scenarioAnim [0, 0, 0] = some a' →
          (a'.prerenderedFrames.length : Int)
            ≤ max a'.maxPrerenderedFrames DEFAULT_PRERENDERED_FRAMES := by
  refine ⟨by decide, ?_⟩
  intro h
  have h2 : (renders scenarioAnim [0, 0, 0]).map
      (fun a => (a.prerenderedFrames.length, a.maxPrerenderedFrames)) = some (3, 2) := by decide
  cases hr : renders scenarioAnim [0, 0, 0] with
  | none => rw [hr] at h2; exact absurd h2 (by simp)
  | some a' =>
    have h3 := h a' hr
    rw [hr] at h2
    simp only [Option.map_some', Option.some.injEq, Prod.mk.injEq] at h2
    rw [h2.1, h2.2] at h3
    exact absurd h3 (by decide)

/-! ### Frame advance (C5, C6) -/

/-- C5 (as amended): when `render(curTime)` runs on an active instance (valid
pid, play or renderonce set) that is looping or has `frame.current` not above
`frame.total`, with a positive frame duration (and at least one frame when
looping), the call is defined and, when `elapsed = curTime - timeline.last_ms`
(in `uint32_t`) is at least `timeline.duration_ms`, it advances
`frame.current` by exactly one (in `uint16_t`), reduced modulo `frame.total`
when loop is set; when `elapsed < duration_ms`, `frame.current` is unchanged. -/
theorem render_advances_by_one (a : LottieAnim) (curTime : Nat)
    (hpid : a.pid ≠ BAD_PICTUREID) (hplay : a.play = true ∨ a.renderonce = true)
    (hgate : a.loop = true ∨ a.frame.current ≤ a.frame.total)
    (hd : 0 < a.timeline.duration_ms) (ht : a.loop = true → 0 < a.frame.total) :
    ∃ b a', a.render curTime = some (b, a')
      ∧ (a.timeline.duration_ms ≤ sub32 curTime a.timeline.last_ms →
          a'.frame.current
            = (if a.loop = true then (a.frame.current + 1) % U16 % a.frame.total
               else (a.frame.current + 1) % U16))
      ∧ (sub32 curTime a.timeline.last_ms < a.timeline.duration_ms →
          a'.frame.current = a.frame.current) := by
  obtain ⟨b, a', h⟩ := render_some a curTime hd ht
  refine ⟨b, a', h, ?_, ?_⟩
  · intro hel
    have hne : sub32 curTime a.timeline.last_ms / a.timeline.duration_ms ≠ 0 := by
      have := Nat.div_pos hel hd
      omega
    rcases render_cases a a' curTime b h with hc | hc | ⟨-, -, -, -, hc | ⟨-, a2, h2, h3⟩⟩
    · exact absurd hc.2.2 (by tauto)
    · rcases hgate with hg | hg
      · rw [hg] at hc; exact absurd hc.2.2.1 (by simp)
      · omega
    · exact absurd hc.1 hne
    · have hs := advance_spec _ _ _ h2
      rcases prerender_cases a2 a' b h3 with hp | ⟨-, -, i, -, -, hp⟩
      · rw [hp.2]; exact hs.2.2.2.1
      · rw [hp]; exact hs.2.2.2.1
  · intro hel
    have hz : sub32 curTime a.timeline.last_ms / a.timeline.duration_ms = 0 :=
      Nat.div_eq_of_lt hel
    rcases render_cases a a' curTime b h with hc | hc | ⟨-, -, -, -, ⟨-, h3⟩ | hc⟩
    · rw [hc.2.1]
    · rw [hc.2.1]
    · rcases prerender_cases _ a' b h3 with hp | ⟨-, -, i, -, -, hp⟩
      · rw [hp.2]
      · rw [hp]
    · exact absurd hz hc.1

/-- C5, witness: `scenarioAnim` at `curTime = 250`. -/
theorem render_advances_by_one_witness :
    ∃ b a', scenarioAnim.render 250 = some (b, a')
      ∧ (scenarioAnim.timeline.duration_ms ≤ sub32 250 scenarioAnim.timeline.last_ms →
          a'.frame.current
            = (if scenarioAnim.loop = true
                then (scenarioAnim.frame.current + 1) % U16 % scenarioAnim.frame.total
                else (scenarioAnim.frame.current + 1) % U16))
      ∧ (sub32 250 scenarioAnim.timeline.last_ms < scenarioAnim.timeline.duration_ms →
          a'.frame.current = scenarioAnim.frame.current) :=
  render_advances_by_one scenarioAnim 250 (by decide) (by decide) (by decide) (by decide)
    (by decide)

/-- C5 (as stated) fails on `scenarioAnim` (valid pid, playing): 250 ms after
the last advance, with 100 ms per frame, `floor(250 / 100) = 2` frames have
elapsed, yet `render(250)` leaves `frame.current = 1`: the index is incremented
once per call (`frame.current++`), only the timeline moves by `frameDiff`
frames. -/
theorem render_advance_not_frameDiff :
    scenarioAnim.pid ≠ BAD_PICTUREID ∧ scenarioAnim.play = true
      ∧ scenarioAnim.timeline.duration_ms ≤ sub32 250 scenarioAnim.timeline.last_ms
      ∧ ¬ ((scenarioAnim.render 250).map (fun r => r.2.frame.current)
          = some (scenarioAnim.frame.current
              + sub32 250 scenarioAnim.timeline.last_ms / scenarioAnim.timeline.duration_ms)) := by
  decide

/-- C6 (as amended): for a non-looping instance that starts at
`frame.current = 0`, with a positive frame duration, every sequence of `render`
calls (at any times) is defined and never leaves `frame.current` greater than
`frame.total + 1`, and `frame.total` is unchanged. -/
theorem nonloop_current_le_total_succ (a : LottieAnim) (times : List Nat)
    (hloop : a.loop = false) (hcur : a.frame.current = 0) (hd : 0 < a.timeline.duration_ms) :
    ∃ a', renders a times = some a' ∧ a'.frame.total = a.frame.total
      ∧ a'.frame.current ≤ a.frame.total + 1 := by
  obtain ⟨a', h, hs, hc⟩ := renders_invariant times a hd (by simp [hloop])
  exact ⟨a', h, hs.2.2.2.2.2.1, hc hloop (by omega)⟩

/-- C6, witness: `oneFrameAnim` ticked at 0, 100 and 200 ms. -/
theorem nonloop_current_le_total_succ_witness :
    ∃ a', renders oneFrameAnim [0, 100, 200] = some a'
      ∧ a'.frame.total = oneFrameAnim.frame.total
      ∧ a'.frame.current ≤ oneFrameAnim.frame.total + 1 :=
  nonloop_current_le_total_succ oneFrameAnim [0, 100, 200] (by decide) (by decide) (by decide)

/-- C6 (as stated) fails on `oneFrameAnim` (not looping, `frame.current = 0`,
`frame.total = 1`): ticks at the non-decreasing times 0, 100 and 200 ms leave
`frame.current = 2`, because the gate `frame.current > frame.total` still lets
the instance advance when `frame.current` equals `frame.total`. -/
theorem nonloop_current_exceeds_total :
    oneFrameAnim.loop = false ∧ oneFrameAnim.frame.current = 0 ∧ 1 ≤ oneFrameAnim.frame.total
      ∧ List.Pairwise (fun s t => s ≤ t) [0, 100, 200]
      ∧ ¬ ∀ a', renders oneFrameAnim [0, 100, 200] = some a' →
          a'.frame.current ≤ a'.frame.total := by
  refine ⟨by decide, by decide, by decide, by decide, ?_⟩
  intro h
  have h2 : (renders oneFrameAnim [0, 100, 200]).map (fun a => (a.frame.current, a.frame.total))
      = some (2, 1) := by decide
  cases hr : renders oneFrameAnim [0, 100, 200] with
  | none => rw [hr] at h2; exact absurd h2 (by simp)
  | some a' =>
    have h3 := h a' hr
    rw [hr] at h2
    simp only [Option.map_some', Option.some.injEq, Prod.mk.injEq] at h2
    omega

/-! ### The frame duration computed by load -/

/-- The conversion `int(x)` is exact on an integer within the range of `int`. -/
theorem intOfFloat_intCast (i : Int) (h1 : -2147483648 ≤ i) (h2 : i ≤ 2147483647) :
    intOfFloat (i : ℚ) = some i := by
  unfold intOfFloat
  simp only [Int.floor_intCast, Int.ceil_intCast, ite_self]
  rw [if_pos ⟨h1, h2⟩]

/-- The quotient `1000 / customRate` of a positive rate converts to `float`
and back without loss. -/
theorem intOfFloat_rate (rate : Int) (hr : rate > 0) :
    intOfFloat ((1000 / rate : Int) : ℚ) = some (1000 / rate) := by
  have h0 : (0 : Int) ≤ 1000 / rate := Int.ediv_nonneg (by norm_num) (le_of_lt hr)
  have h1 : (1000 : Int) / rate ≤ 1000 := Int.ediv_le_self _ (by norm_num)
  exact intOfFloat_intCast _ (by omega) (by omega)

/-- The value of `load` on a non-empty path that `animationLoad` can load. -/
theorem load_loaded (E : Env) (a : LottieAnim) (s : String) (w h : Int) (l p : Bool)
    (n rate : Int) (pid : Nat) (hs : s ≠ "") (an : Animation)
    (hl : E.animationLoad s = some an) :
    load E a (some s) w h l p n rate pid
      = if an.totalFrame % U16 = 0 then none
        else
          (intOfFloat (if rate > 0 then ((1000 / rate : Int) : ℚ)
              else an.duration / ((an.totalFrame % U16 : Nat) : ℚ) * 1000)).map
            (fun d => (true,
              { a with
                canvas := { width := max w 32, height := max h 32 }
                loop := l
                play := p
                pid := pid
                maxPrerenderedFrames := max n 2
                lottiePath := s
                anim := some an
                frame := { a.frame with total := an.totalFrame % U16 }
                timeline := { a.timeline with duration_ms := toU32 d } })) := by
  simp only [load, hs, if_false, hl, DEFAULT_SIZE, DEFAULT_PRERENDERED_FRAMES]

/-- The value of `load` on a path that is null or empty or that
`animationLoad` cannot load: the flag is false. -/
theorem load_failed (E : Env) (a : LottieAnim) (path : Option String) (w h : Int) (l p : Bool)
    (n rate : Int) (pid : Nat)
    (hf : path = none ∨ path = some "" ∨ ∃ s, path = some s ∧ E.animationLoad s = none) :
    ∃ a1, load E a path w h l p n rate pid = some (false, a1) := by
  rcases hf with rfl | rfl | ⟨s, rfl, hl⟩
  · exact ⟨a, rfl⟩
  · exact ⟨a, by simp [load]⟩
  · by_cases hs : s = ""
    · exact ⟨a, by simp [load, hs]⟩
    · simp only [load, hs, if_false, hl]
      exact ⟨_, rfl⟩

/-- The native frame duration of the sample animation: `int(1 / 10 * 1000)`. -/
theorem intOfFloat_sample : intOfFloat ((1 : ℚ) / ((10 % U16 : Nat) : ℚ) * 1000) = some 100 := by
  have h : ((1 : ℚ) / ((10 % U16 : Nat) : ℚ) * 1000) = ((100 : Int) : ℚ) := by
    norm_num [U16]
  rw [h]
  exact intOfFloat_intCast 100 (by decide) (by decide)

/-- The call `load` of the sample environment with the native rate leaves
`sampleLoaded l 100`. -/
theorem sampleLoaded_spec ( l : Bool) :
    load sampleEnv {} (some "a.json") 64 64 l true 2 0 7 = some (true, sampleLoaded l 100) := by
  rw [load_loaded sampleEnv {} "a.json" 64 64 l true 2 0 7 (by decide)
    { totalFrame := 10, duration := 1 } rfl]
  rw [if_neg (by decide), if_neg (by decide), intOfFloat_sample]
  rfl

/-- The instance `scenarioAnim` is what `load` leaves. -/
theorem scenarioAnim_loaded :
    load sampleEnv {} (some "a.json") 64 64 false true 2 0 7 = some (true, scenarioAnim) :=
  sampleLoaded_spec false

/-- The instance `loopingAnim` is what `load` leaves. -/
theorem loopingAnim_loaded :
    load sampleEnv {} (some "a.json") 64 64 true true 2 0 7 = some (true, loopingAnim) :=
  sampleLoaded_spec true

/-- The instance `fastRateAnim` is what `load` leaves for the rate 2000. -/
theorem fastRateAnim_loaded :
    load sampleEnv {} (some "a.json") 64 64 false true 2 2000 7 = some (true, fastRateAnim) := by
  rw [load_loaded sampleEnv {} "a.json" 64 64 false true 2 2000 7 (by decide)
    { totalFrame := 10, duration := 1 } rfl]
  rw [if_neg (by decide), if_pos (by decide), intOfFloat_rate 2000 (by decide)]
  rfl

/-! ### Commands (C8, C9, C10) -/

/-- The `ADD_CONFIG` case of `resolveCommand`. -/
theorem resolveCommand_add_config (E : Env) (t : LottieRenderThread) (cmd : LottieRenderCommand)
    (hty : cmd.type = LottieRenderCommand.ADD_CONFIG) :
    resolveCommand E t cmd
      = (load E {} (some (c_str cmd.path)) cmd.w cmd.h (decide (cmd.loop ≠ 0)) true 2 cmd.rate
          cmd.pid).map
        (fun r => if r.1 then { t with animations := mapInsert t.animations cmd.pid r.2 } else t) := by
  unfold resolveCommand
  rw [hty, if_pos rfl]

/-- The `DISCARD_PID` case of `resolveCommand`. -/
theorem resolveCommand_discard (E : Env) (t : LottieRenderThread) (cmd : LottieRenderCommand)
    (hty : cmd.type = LottieRenderCommand.DISCARD_PID) :
    resolveCommand E t cmd
      = some { t with animations := eraseFirst (fun e => decide (e.1 = cmd.pid)) t.animations } := by
  unfold resolveCommand
  rw [hty, if_neg (by decide), if_pos rfl]

/-- The `SETUP_PID` case of `resolveCommand`. -/
theorem resolveCommand_setup_pid (E : Env) (t : LottieRenderThread) (cmd : LottieRenderCommand)
    (hty : cmd.type = LottieRenderCommand.SETUP_PID) :
    resolveCommand E t cmd
      = some { t with animations :=
          (modifyFirst
            (fun e => decide (e.1 = getPropsHash E (c_str cmd.path) cmd.w cmd.h
              (decide (cmd.loop ≠ 0)) cmd.rate))
            (fun a => { a with pid := cmd.pid }) t.animations) } := by
  unfold resolveCommand
  rw [hty, if_neg (by decide), if_neg (by decide), if_pos rfl]

/-- The `SETUP_PLAY` case of `resolveCommand`. -/
theorem resolveCommand_setup_play (E : Env) (t : LottieRenderThread) (cmd : LottieRenderCommand)
    (hty : cmd.type = LottieRenderCommand.SETUP_PLAY) :
    resolveCommand E t cmd
      = some { t with animations :=
          (modifyFirst (fun e => decide (e.2.pid = cmd.pid)) (fun a => { a with play := cmd.play })
            t.animations) } := by
  unfold resolveCommand
  rw [hty, if_neg (by decide), if_neg (by decide), if_neg (by decide), if_pos rfl]

/-- The `SETUP_RENDER` case of `resolveCommand`. -/
theorem resolveCommand_setup_render (E : Env) (t : LottieRenderThread)
    (cmd : LottieRenderCommand) (hty : cmd.type = LottieRenderCommand.SETUP_RENDER) :
    resolveCommand E t cmd
      = some { t with animations :=
          (modifyFirst (fun e => decide (e.2.pid = cmd.pid))
            (fun a => { a with renderonce := cmd.render }) t.animations) } := by
  unfold resolveCommand
  rw [hty, if_neg (by decide), if_neg (by decide), if_neg (by decide), if_neg (by decide),
    if_pos rfl]

/-- The worker `sampleWorker` is what the `ADD_CONFIG` command of `a.json`
leaves of the empty worker. -/
theorem sampleWorker_resolved :
    resolveCommand sampleEnv {} (addConfigCommand sampleEnv "a.json" 64 64 true 0)
      = some sampleWorker := by
  rw [resolveCommand_add_config _ _ _ rfl]
  have hl : load sampleEnv {} (some (c_str (addConfigCommand sampleEnv "a.json" 64 64 true 0).path))
      (addConfigCommand sampleEnv "a.json" 64 64 true 0).w
      (addConfigCommand sampleEnv "a.json" 64 64 true 0).h
      (decide ((addConfigCommand sampleEnv "a.json" 64 64 true 0).loop ≠ 0)) true 2
      (addConfigCommand sampleEnv "a.json" 64 64 true 0).rate
      (addConfigCommand sampleEnv "a.json" 64 64 true 0).pid
      = some (true, { sampleLoaded true 100 with
          pid := getPropsHash sampleEnv "a.json" 64 64 true 0 }) := by
    have hp : c_str (addConfigCommand sampleEnv "a.json" 64 64 true 0).path = "a.json" := by
      decide
    rw [hp, load_loaded sampleEnv {} "a.json" _ _ _ true 2 _ _ (by decide)
      { totalFrame := 10, duration := 1 } rfl]
    rw [if_neg (by decide), if_neg (by decide), intOfFloat_sample]
    rfl
  rw [hl]
  rfl

/-- When `load` reports a flag, the flag is false exactly for a null path, an
empty path or a path that `animationLoad` cannot load. -/
theorem load_false_iff (E : Env) (a : LottieAnim) (path : Option String) (w h : Int)
    (l p : Bool) (n r : Int) (pid : Nat) :
    (∃ a1, load E a path w h l p n r pid = some (false, a1))
      ↔ (path = none ∨ path = some "" ∨ ∃ s, path = some s ∧ E.animationLoad s = none) := by
  constructor
  · rintro ⟨a1, h1⟩
    cases path with
    | none => exact Or.inl rfl
    | some s =>
      by_cases hs : s = ""
      · exact Or.inr (Or.inl (by rw [hs]))
      · cases hl : E.animationLoad s with
        | none => exact Or.inr (Or.inr ⟨s, rfl, hl⟩)
        | some an =>
          rw [load_loaded E a s w h l p n r pid hs an hl] at h1
          by_cases h0 : an.totalFrame % U16 = 0
          · rw [if_pos h0] at h1
            exact absurd h1 (by simp)
          · rw [if_neg h0] at h1
            cases hd : intOfFloat (if r > 0 then ((1000 / r : Int) : ℚ)
                else an.duration / ((an.totalFrame % U16 : Nat) : ℚ) * 1000) with
            | none =>
              rw [hd] at h1
              exact absurd h1 (by simp)
            | some d =>
              rw [hd] at h1
              simp at h1
  · exact load_failed E a path w h l p n r pid

/-- The flag of `load` is true exactly for a non-empty path that
`animationLoad` can load and for which the frame duration is defined: the
frame count (as `uint16_t`) is not zero, and the rate is positive or the
native frame duration in milliseconds is within the range of `int`. -/
theorem load_true_iff (E : Env) (a : LottieAnim) (path : Option String) (w h : Int)
    (l p : Bool) (n r : Int) (pid : Nat) :
    (∃ a1, load E a path w h l p n r pid = some (true, a1))
      ↔ ∃ s an, path = some s ∧ s ≠ "" ∧ E.animationLoad s = some an
          ∧ an.totalFrame % U16 ≠ 0
          ∧ (r > 0 ∨ (intOfFloat
                (an.duration / ((an.totalFrame % U16 : Nat) : ℚ) * 1000)).isSome = true) := by
  constructor
  · rintro ⟨a1, h1⟩
    cases path with
    | none => simp [load] at h1
    | some s =>
      by_cases hs : s = ""
      · simp [load, hs] at h1
      · cases hl : E.animationLoad s with
        | none =>
          obtain ⟨a2, h2⟩ := load_failed E a (some s) w h l p n r pid
            (Or.inr (Or.inr ⟨s, rfl, hl⟩))
          rw [h2] at h1
          simp at h1
        | some an =>
          refine ⟨s, an, rfl, hs, hl, ?_⟩
          rw [load_loaded E a s w h l p n r pid hs an hl] at h1
          by_cases h0 : an.totalFrame % U16 = 0
          · rw [if_pos h0] at h1
            exact absurd h1 (by simp)
          · refine ⟨h0, ?_⟩
            rw [if_neg h0] at h1
            by_cases hr : r > 0
            · exact Or.inl hr
            · right
              rw [if_neg hr] at h1
              cases hd : intOfFloat (an.duration / ((an.totalFrame % U16 : Nat) : ℚ) * 1000) with
              | none =>
                rw [hd] at h1
                exact absurd h1 (by simp)
              | some d => rfl
  · rintro ⟨s, an, rfl, hs, hl, h0, hd⟩
    rw [load_loaded E a s w h l p n r pid hs an hl, if_neg h0]
    by_cases hr : r > 0
    · rw [if_pos hr, intOfFloat_rate r hr]
      exact ⟨_, rfl⟩
    · rw [if_neg hr]
      rcases hd with hd | hd
      · exact absurd hd hr
      · obtain ⟨d, hd⟩ := Option.isSome_iff_exists.mp hd
        rw [hd]
        exact ⟨_, rfl⟩

/-- C8: `load` returns false exactly for a null or empty path and for a path
that `animationLoad` cannot load, and true exactly when the path is a
non-empty string, `animationLoad` yields an animation and the computation of
the frame duration is defined; `resolveCommand` of an `ADD_CONFIG` command
whose load fails leaves the worker, and so the animations map, exactly as it
was; when the load succeeds and the key `cmd.pid` is new, the map gains
exactly the one entry `(cmd.pid, loaded instance)` and nothing else changes. -/
theorem load_failure_not_registered (E : Env) (t : LottieRenderThread)
    (cmd : LottieRenderCommand) (hty : cmd.type = LottieRenderCommand.ADD_CONFIG) :
    (∀ (a : LottieAnim) (path : Option String) (w h : Int) (l p : Bool) (n r : Int) (pid : Nat),
        ((∃ a1, load E a path w h l p n r pid = some (false, a1))
          ↔ (path = none ∨ path = some "" ∨ ∃ s, path = some s ∧ E.animationLoad s = none))
        ∧ ((∃ a1, load E a path w h l p n r pid = some (true, a1))
          ↔ ∃ s an, path = some s ∧ s ≠ "" ∧ E.animationLoad s = some an
              ∧ an.totalFrame % U16 ≠ 0
              ∧ (r > 0 ∨ (intOfFloat
                    (an.duration / ((an.totalFrame % U16 : Nat) : ℚ) * 1000)).isSome = true)))
      ∧ (∀ a1, load E {} (some (c_str cmd.path)) cmd.w cmd.h (decide (cmd.loop ≠ 0)) true 2
            cmd.rate cmd.pid = some (false, a1) → resolveCommand E t cmd = some t)
      ∧ (∀ a1, load E {} (some (c_str cmd.path)) cmd.w cmd.h (decide (cmd.loop ≠ 0)) true 2
            cmd.rate cmd.pid = some (true, a1) → mapFind t.animations cmd.pid = none →
          resolveCommand E t cmd
            = some { t with animations := t.animations ++ [(cmd.pid, a1)] }) := by
  refine ⟨fun a path w h l p n r pid =>
    ⟨load_false_iff E a path w h l p n r pid, load_true_iff E a path w h l p n r pid⟩, ?_, ?_⟩
  · intro a1 hf
    rw [resolveCommand_add_config E t cmd hty, hf]
    rfl
  · intro a1 hok hnew
    rw [resolveCommand_add_config E t cmd hty, hok]
    simp only [Option.map_some', if_true, mapInsert, hnew, Option.isSome_none,
      Bool.false_eq_true, if_false]

/-- C8, witness: on the empty worker, `ADD_CONFIG` for `missing.json` (which
`animationLoad` cannot load) registers nothing, and `ADD_CONFIG` for `a.json`
registers one entry under the command's id. -/
theorem load_failure_not_registered_witness :
    resolveCommand sampleEnv {}
        { type := LottieRenderCommand.ADD_CONFIG, path := "missing.json", w := 64, h := 64,
          pid := 5 } = some {}
      ∧ resolveCommand sampleEnv {}
          { type := LottieRenderCommand.ADD_CONFIG, path := "a.json", w := 64, h := 64,
            pid := 5 }
        = some { animations := [(5, { sampleLoaded false 100 with pid := 5 })] } :=
  ⟨(load_failure_not_registered sampleEnv {}
      { type := LottieRenderCommand.ADD_CONFIG, path := "missing.json", w := 64, h := 64,
        pid := 5 } rfl).2.1
      { pid := 5, canvas := { width := 64, height := 64 }, play := true,
        lottiePath := "missing.json" } (by decide),
   (load_failure_not_registered sampleEnv {}
      { type := LottieRenderCommand.ADD_CONFIG, path := "a.json", w := 64, h := 64,
        pid := 5 } rfl).2.2 _
      (by
        have hp : c_str "a.json" = "a.json" := by decide
        show load sampleEnv {} (some (c_str "a.json")) 64 64 (decide ((0 : Int) ≠ 0)) true 2 0 5
          = some (true, { sampleLoaded false 100 with pid := 5 })
        rw [hp, load_loaded sampleEnv {} "a.json" _ _ _ true 2 _ _ (by decide)
          { totalFrame := 10, duration := 1 } rfl]
        rw [if_neg (by decide), if_neg (by decide), intOfFloat_sample]
        rfl)
      (by decide)⟩

/-- C9: `resolveCommand` leaves the worker (the animations map and every
instance in it) unchanged for a command whose type is `UNKNOWN` or any value
other than the five handled ones, for `DISCARD_PID` with an id that is the key
of no entry, and for `SETUP_PLAY` and `SETUP_RENDER` with an id that is the
`pid` of no instance. -/
theorem resolveCommand_unknown_ignored (E : Env) (t : LottieRenderThread)
    (cmd : LottieRenderCommand)
    (h : (cmd.type ≠ LottieRenderCommand.ADD_CONFIG ∧ cmd.type ≠ LottieRenderCommand.DISCARD_PID
            ∧ cmd.type ≠ LottieRenderCommand.SETUP_PID
            ∧ cmd.type ≠ LottieRenderCommand.SETUP_PLAY
            ∧ cmd.type ≠ LottieRenderCommand.SETUP_RENDER)
        ∨ (cmd.type = LottieRenderCommand.DISCARD_PID ∧ ∀ e ∈ t.animations, e.1 ≠ cmd.pid)
        ∨ ((cmd.type = LottieRenderCommand.SETUP_PLAY
              ∨ cmd.type = LottieRenderCommand.SETUP_RENDER)
            ∧ ∀ e ∈ t.animations, e.2.pid ≠ cmd.pid)) :
    resolveCommand E t cmd = some t := by
  rcases h with ⟨h1, h2, h3, h4, h5⟩ | ⟨hty, hk⟩ | ⟨hty | hty, hp⟩
  · simp only [resolveCommand, h1, h2, h3, h4, h5, if_false]
  · rw [resolveCommand_discard E t cmd hty,
      eraseFirst_none _ _ (fun e he => by simpa using hk e he)]
  · rw [resolveCommand_setup_play E t cmd hty,
      modifyFirst_none _ _ _ (fun e he => by simpa using hp e he)]
  · rw [resolveCommand_setup_render E t cmd hty,
      modifyFirst_none _ _ _ (fun e he => by simpa using hp e he)]

/-- C9, witness: on `sampleWorker` an `UNKNOWN` command, a command of type 9,
a `DISCARD_PID` for the unknown id 5 and a `SETUP_PLAY` for the unknown id 5
change nothing. -/
theorem resolveCommand_unknown_ignored_witness :
    resolveCommand sampleEnv sampleWorker { type := LottieRenderCommand.UNKNOWN, pid := 5 }
        = some sampleWorker
      ∧ resolveCommand sampleEnv sampleWorker { type := 9, pid := 5 } = some sampleWorker
      ∧ resolveCommand sampleEnv sampleWorker
          { type := LottieRenderCommand.DISCARD_PID, pid := 5 } = some sampleWorker
      ∧ resolveCommand sampleEnv sampleWorker
          { type := LottieRenderCommand.SETUP_PLAY, pid := 5, play := false } = some sampleWorker :=
  ⟨resolveCommand_unknown_ignored sampleEnv sampleWorker _ (Or.inl (by decide)),
   resolveCommand_unknown_ignored sampleEnv sampleWorker _ (Or.inl (by decide)),
   resolveCommand_unknown_ignored sampleEnv sampleWorker _ (Or.inr (Or.inl (by decide))),
   resolveCommand_unknown_ignored sampleEnv sampleWorker _ (Or.inr (Or.inr (by decide)))⟩

/-- With pairwise distinct keys, erasing the entry of a key leaves exactly the
entries of the other keys. -/
theorem eraseFirst_key_eq_filter {β : Type} (k : Nat) (m : List (Nat × β))
    (hk : KeysDistinct m) :
    eraseFirst (fun e => decide (e.1 = k)) m = m.filter (fun e => decide (e.1 ≠ k)) := by
  unfold eraseFirst
  induction m with
  | nil => rfl
  | cons e m ih =>
    have hk' : KeysDistinct m := by
      unfold KeysDistinct at hk ⊢
      simp only [List.map_cons, List.nodup_cons] at hk
      exact hk.2
    by_cases he : e.1 = k
    · have hnot : ∀ x ∈ m, x.1 ≠ k := by
        intro x hx hxk
        unfold KeysDistinct at hk
        simp only [List.map_cons, List.nodup_cons, List.mem_map, not_exists, not_and] at hk
        exact hk.1 x hx (by rw [hxk, he])
      simp only [List.eraseP_cons, he, decide_True, cond_true, ne_eq, not_true_eq_false,
        decide_False, Bool.false_eq_true, not_false_eq_true, List.filter_cons_of_neg]
      symm
      rw [List.filter_eq_self]
      intro x hx
      simpa using hnot x hx
    · simp only [List.eraseP_cons, he, decide_False, cond_false, ne_eq, not_false_eq_true,
        decide_True, List.filter_cons_of_pos]
      rw [ih hk']

/-- Where no instance has been retargeted (every `pid` field equals the key
of its entry, keys pairwise distinct), `DISCARD_PID` for id `p` removes the
instance of id `p` and keeps every other entry as it is. -/
theorem discard_removes_instance_of_pid_eq_key (E : Env) (t : LottieRenderThread)
    (cmd : LottieRenderCommand) (hty : cmd.type = LottieRenderCommand.DISCARD_PID)
    (hk : KeysDistinct t.animations) (hpid : ∀ e ∈ t.animations, e.2.pid = e.1) :
    ∃ t1, resolveCommand E t cmd = some t1
      ∧ (∀ e ∈ t1.animations, e.2.pid ≠ cmd.pid)
      ∧ t1.animations = t.animations.filter (fun e => decide (e.2.pid ≠ cmd.pid)) := by
  refine ⟨_, resolveCommand_discard E t cmd hty, ?_⟩
  simp only
  rw [eraseFirst_key_eq_filter _ _ hk]
  have hfil : t.animations.filter (fun e => decide (e.1 ≠ cmd.pid))
      = t.animations.filter (fun e => decide (e.2.pid ≠ cmd.pid)) := by
    apply List.filter_congr
    intro e he
    rw [hpid e he]
  rw [hfil]
  refine ⟨fun e he => ?_, rfl⟩
  simpa using (List.mem_filter.mp he).2

/-- The commands of `retargetThenDiscard` after the first one, resolved on
`sampleWorker`: the instance is retargeted to id 42 and is still there after
the discard, which changes nothing. -/
theorem retarget_then_discard_run :
    resolveCommands sampleEnv sampleWorker retargetThenDiscard.tail
        = some { animations :=
            [(getPropsHash sampleEnv "a.json" 64 64 true 0,
              { sampleLoaded true 100 with pid := 42 })] }
      ∧ resolveCommands sampleEnv sampleWorker retargetThenDiscard.dropLast.tail
        = some { animations :=
            [(getPropsHash sampleEnv "a.json" 64 64 true 0,
              { sampleLoaded true 100 with pid := 42 })] } := by
  decide

/-- C10 fails on the code: after `ADD_CONFIG` (key = fingerprint), `SETUP_PID`
retargeting the instance to output id 42 and `DISCARD_PID` for id 42, the
instance whose `pid` field is 42 is still in the animations map, because
`DISCARD_PID` looks the id up among the map keys (`animations.find(cmd.pid)`)
while `SETUP_PLAY` and `SETUP_RENDER` search the `pid` fields; the discard
changed nothing. -/
theorem discard_misses_retargeted_instance :
    ∃ t1, resolveCommands sampleEnv {} retargetThenDiscard = some t1
      ∧ (∃ e ∈ t1.animations, e.2.pid = 42)
      ∧ t1.animations.map (fun e => (e.1, e.2.pid))
          = [(getPropsHash sampleEnv "a.json" 64 64 true 0, 42)]
      ∧ resolveCommands sampleEnv {} retargetThenDiscard.dropLast = some t1 := by
  have h1 : resolveCommands sampleEnv {} retargetThenDiscard
      = resolveCommands sampleEnv sampleWorker retargetThenDiscard.tail := by
    show (resolveCommand sampleEnv {} (addConfigCommand sampleEnv "a.json" 64 64 true 0)).bind _
      = _
    rw [sampleWorker_resolved]
    rfl
  have h2 : resolveCommands sampleEnv {} retargetThenDiscard.dropLast
      = resolveCommands sampleEnv sampleWorker retargetThenDiscard.dropLast.tail := by
    show (resolveCommand sampleEnv {} (addConfigCommand sampleEnv "a.json" 64 64 true 0)).bind _
      = _
    rw [sampleWorker_resolved]
    rfl
  refine ⟨_, h1.trans retarget_then_discard_run.1, ⟨_, List.mem_singleton.mpr rfl, rfl⟩, rfl,
    h2.trans retarget_then_discard_run.2⟩

/-! ### Configuration surface of load (C11) -/

/-- The conversion of a non-negative `int` below `2^32` to `uint32_t` keeps
the value. -/
theorem toU32_of_nonneg (d : Int) (h0 : 0 ≤ d) (h1 : d < 4294967296) : (toU32 d : Int) = d := by
  unfold toU32
  rw [Int.toNat_of_nonneg (Int.emod_nonneg _ (by decide))]
  exact Int.emod_eq_of_lt h0 h1

/-- The test `vIsZero` without the absolute value. -/
theorem vIsZero_eq (f : ℚ) : vIsZero f = decide (-(1 / 1000000) ≤ f ∧ f ≤ 1 / 1000000) := by
  simp [vIsZero, EPSILON_FLOAT, abs_le]

/-- Zero passes `vIsZero`. -/
theorem vIsZero_zero : vIsZero 0 = true := by
  rw [vIsZero_eq]; norm_num

/-- A value that fails `vIsZero` is not zero. -/
theorem ne_zero_of_not_vIsZero (f : ℚ) (h : vIsZero f = false) : f ≠ 0 := by
  rintro rfl
  rw [vIsZero_zero] at h
  exact absurd h (by decide)

namespace VMatrix

/-- A call of `type()` does not change the coefficients. -/
theorem typed_coeffs (m : VMatrix) : SameCoeffs m.typed m := by
  unfold typed SameCoeffs
  split <;> simp

/-- After a call of `type()` the stored classification is the returned one. -/
theorem typed_mType (m : VMatrix) : m.typed.mType = m.type := by
  unfold typed type
  split <;> rfl

/-- After a call of `type()` the cache is clean or dirty below the stored
classification. -/
theorem typed_dirty (m : VMatrix) :
    m.typed.dirty = MatrixType.None ∨ m.typed.dirty.val < m.type.val := by
  unfold typed type
  split
  · rename_i h
    rcases h with h | h
    · exact Or.inl h
    · exact Or.inr h
  · exact Or.inl rfl

/-- A second call of `type()` returns the same classification. -/
theorem type_typed (m : VMatrix) : m.typed.type = m.type := by
  have h1 := typed_mType m
  have h2 := typed_dirty m
  unfold type at h2 ⊢
  rw [if_pos (by rw [h1]; exact h2), h1]
  rfl

/-- The recomputed classification is at most the level it starts from. -/
theorem rank_classify_le (d : MatrixType) (m : VMatrix) : (classify d m).rank ≤ d.rank := by
  cases d <;> simp only [classify, fromProject, fromRotate, fromScale, fromTranslate] <;>
    repeat' split
  all_goals decide

end VMatrix

namespace VMatrix

/-- On a matrix that is exactly canonical for an affine type, `map` is the
affine map of its six coefficients. -/
theorem map_eq_mapAffine (m : VMatrix) (p : VPointF) (hc : Canonical m)
    (ha : m.type ≠ MatrixType.Project) : m.map p = mapAffine m p := by
  unfold Canonical at hc
  unfold map mapAffine
  cases ht : m.type with
  | None =>
    rw [ht] at hc
    obtain ⟨h1, h2, -, h4, h5, -, h7, h8, -⟩ := hc
    simp [h1, h2, h4, h5, h7, h8]
  | Translate =>
    rw [ht] at hc
    obtain ⟨h1, h2, -, h4, h5, -, -⟩ := hc
    simp [h1, h2, h4, h5]
  | Scale =>
    rw [ht] at hc
    obtain ⟨h2, -, h4, -, -⟩ := hc
    simp [h2, h4]
  | Rotate => rfl
  | Shear => rfl
  | Project => exact absurd ht ha

/-- The classification of a product is at most the larger of the two
classifications, Rotate and Shear counted as one class. -/
theorem rank_type_mul_le (a b : VMatrix) :
    (a.mul b).type.rank ≤ max a.type.rank b.type.rank := by
  unfold mul
  split
  · exact le_max_left _ _
  · split
    · rw [type_typed]; exact le_max_right _ _
    · have hty : ∀ ty : MatrixType, ty ≠ MatrixType.None →
          ({ product ty {} a b with dirty := ty, mType := ty } : VMatrix).type
            = classify ty { product ty {} a b with dirty := ty, mType := ty } := by
        intro ty hne
        unfold type
        rw [if_neg]
        simp only [lt_self_iff_false, or_false]
        exact hne
      have hne : MatrixType.vMax a.type b.type ≠ MatrixType.None := by
        rename_i h1 h2
        unfold MatrixType.vMax
        split
        · exact h1
        · exact h2
      simp only
      rw [hty _ hne]
      refine le_trans (rank_classify_le _ _) ?_
      unfold MatrixType.vMax
      split
      · exact le_max_right _ _
      · exact le_max_left _ _

end VMatrix
namespace VMatrix

/-- For operands that are exactly canonical for their types, the coefficients
that `operator*` computes with its reduced per-type formula are those of the
full 3 x 3 product. -/
theorem mul_sameCoeffs (a b : VMatrix) (ha : Canonical a) (hb : Canonical b) :
    SameCoeffs (a.mul b) (fullProduct a b) := by
  unfold Canonical at ha hb
  obtain ⟨t1, t2, t3, t4, t5, t6, t7, t8, t9⟩ := typed_coeffs b
  cases hA : a.type <;> cases hB : b.type <;> rw [hA] at ha <;> rw [hB] at hb <;>
    simp only [CanonicalFor] at ha hb <;>
    simp [mul, hA, hB, MatrixType.vMax, MatrixType.val, product, fullProduct, SameCoeffs,
      t1, t2, t3, t4, t5, t6, t7, t8, t9, ha, hb]

end VMatrix

namespace VMatrix

/-- A matrix that is exactly canonical for an affine type has the last column
of the identity. -/
theorem canonical_affine (m : VMatrix) (hc : Canonical m) (ha : m.type ≠ MatrixType.Project) :
    m.m13 = 0 ∧ m.m23 = 0 ∧ m.m33 = 1 := by
  unfold Canonical at hc
  cases ht : m.type <;> rw [ht] at hc <;> simp only [CanonicalFor] at hc
  · exact ⟨hc.2.2.1, hc.2.2.2.2.2.1, hc.2.2.2.2.2.2.2.2⟩
  · exact ⟨hc.2.2.1, hc.2.2.2.2.2.1, hc.2.2.2.2.2.2⟩
  · exact ⟨hc.2.1, hc.2.2.2.1, hc.2.2.2.2⟩
  · exact hc
  · exact hc
  · exact absurd ht ha

end VMatrix

/-- The coefficients and the cache of `shiftRight`. -/
theorem shiftRight_eq : shiftRight = { mtx := 1, dirty := MatrixType.Translate } := by
  simp [shiftRight, VMatrix.translate, VMatrix.type, VMatrix.typed, VMatrix.bump, MatrixType.val]

/-- The coefficients and the cache of `shiftLeft`. -/
theorem shiftLeft_eq : shiftLeft = { mtx := -1, dirty := MatrixType.Translate } := by
  simp [shiftLeft, VMatrix.translate, VMatrix.type, VMatrix.typed, VMatrix.bump, MatrixType.val]

/-- The coefficients and the cache of `doubleSize`. -/
theorem doubleSize_eq : doubleSize = { m11 := 2, m22 := 2, dirty := MatrixType.Scale } := by
  simp [doubleSize, VMatrix.scale, VMatrix.type, VMatrix.typed, VMatrix.bump, MatrixType.val]

/-- The classification of `shiftRight`. -/
theorem shiftRight_type : shiftRight.type = MatrixType.Translate := by
  rw [shiftRight_eq]
  simp [VMatrix.type, VMatrix.classify, VMatrix.fromTranslate, vIsZero_eq, MatrixType.val]
  norm_num

/-- The classification of `shiftLeft`. -/
theorem shiftLeft_type : shiftLeft.type = MatrixType.Translate := by
  rw [shiftLeft_eq]
  simp [VMatrix.type, VMatrix.classify, VMatrix.fromTranslate, vIsZero_eq, MatrixType.val]
  norm_num

/-- The classification of `doubleSize`. -/
theorem doubleSize_type : doubleSize.type = MatrixType.Scale := by
  rw [doubleSize_eq]
  simp [VMatrix.type, VMatrix.classify, VMatrix.fromScale, vIsZero_eq, MatrixType.val]
  norm_num

/-- The product `shiftRight * doubleSize`. -/
theorem shiftRight_mul_doubleSize :
    shiftRight.mul doubleSize
      = { m11 := 2, m22 := 2, mtx := 2, mType := MatrixType.Scale, dirty := MatrixType.Scale } := by
  simp [VMatrix.mul, shiftRight_type, doubleSize_type, MatrixType.vMax, MatrixType.val,
    VMatrix.product]
  rw [shiftRight_eq, doubleSize_eq]
  norm_num

/-- The classification of `shiftRight * doubleSize`. -/
theorem shiftRight_mul_doubleSize_type :
    (shiftRight.mul doubleSize).type = MatrixType.Scale := by
  rw [shiftRight_mul_doubleSize]
  simp [VMatrix.type, VMatrix.classify, VMatrix.fromScale, vIsZero_eq, MatrixType.val]
  norm_num

/-- The matrix `shiftRight` is exactly canonical for its type. -/
theorem shiftRight_canonical : VMatrix.Canonical shiftRight := by
  unfold VMatrix.Canonical
  rw [shiftRight_type]
  simp [VMatrix.CanonicalFor, shiftRight_eq]

/-- The matrix `shiftLeft` is exactly canonical for its type. -/
theorem shiftLeft_canonical : VMatrix.Canonical shiftLeft := by
  unfold VMatrix.Canonical
  rw [shiftLeft_type]
  simp [VMatrix.CanonicalFor, shiftLeft_eq]

/-- The matrix `doubleSize` is exactly canonical for its type. -/
theorem doubleSize_canonical : VMatrix.Canonical doubleSize := by
  unfold VMatrix.Canonical
  rw [doubleSize_type]
  simp [VMatrix.CanonicalFor, doubleSize_eq]

/-! ### Matrix composition (C12) -/

/-- C12 (as amended): for affine matrices `A` and `B` that are exactly
canonical for their types and whose product `A * B` is exactly canonical for
its type too, `(A * B).map(p)` equals `B.map(A.map(p))` for every point `p`,
over exact arithmetic: the left operand is applied first. -/
theorem mul_map_applies_left_first (a b : VMatrix) (p : VPointF)
    (hta : a.type ≠ MatrixType.Project) (htb : b.type ≠ MatrixType.Project)
    (ha : VMatrix.Canonical a) (hb : VMatrix.Canonical b)
    (hab : VMatrix.Canonical (a.mul b)) :
    (a.mul b).map p = b.map (a.map p) := by
  have htab : (a.mul b).type ≠ MatrixType.Project := by
    intro h
    have hle := VMatrix.rank_type_mul_le a b
    rw [h] at hle
    have h1 : a.type.rank ≤ 3 := by cases hA : a.type <;> simp_all [MatrixType.rank]
    have h2 : b.type.rank ≤ 3 := by cases hB : b.type <;> simp_all [MatrixType.rank]
    have h3 : MatrixType.Project.rank = 4 := rfl
    rw [h3] at hle
    have := max_le h1 h2
    omega
  rw [VMatrix.map_eq_mapAffine _ _ hab htab, VMatrix.map_eq_mapAffine _ _ ha hta,
    VMatrix.map_eq_mapAffine _ _ hb htb]
  obtain ⟨c1, c2, -, c4, c5, -, c7, c8, -⟩ := VMatrix.mul_sameCoeffs a b ha hb
  obtain ⟨a13, a23, a33⟩ := VMatrix.canonical_affine a ha hta
  simp only [VMatrix.mapAffine, c1, c2, c4, c5, c7, c8, VMatrix.fullProduct, VMatrix.product,
    a13, a23, a33, VPointF.mk.injEq]
  constructor <;> ring

/-- C12, witness: `translate(1, 0) * scale(2, 2)` at the point (3, 4). -/
theorem mul_map_applies_left_first_witness :
    (shiftRight.mul doubleSize).map { mx := 3, my := 4 }
      = doubleSize.map (shiftRight.map { mx := 3, my := 4 }) :=
  mul_map_applies_left_first shiftRight doubleSize { mx := 3, my := 4 }
    (by rw [shiftRight_type]; decide) (by rw [doubleSize_type]; decide)
    shiftRight_canonical doubleSize_canonical
    (by unfold VMatrix.Canonical
        rw [shiftRight_mul_doubleSize_type]
        simp [VMatrix.CanonicalFor, shiftRight_mul_doubleSize])

/-- C12 (as stated) fails: for the affine matrices `translate(1, 0)` and
`scale(2, 2)` and the origin, `(A * B).map(p)` is (2, 0), which is
`B.map(A.map(p))`, while `A.map(B.map(p))` is (1, 0). -/
theorem mul_map_order_refuted :
    shiftRight.type ≠ MatrixType.Project ∧ doubleSize.type ≠ MatrixType.Project
      ∧ (shiftRight.mul doubleSize).map {} = { mx := 2, my := 0 }
      ∧ shiftRight.map (doubleSize.map {}) = { mx := 1, my := 0 }
      ∧ (shiftRight.mul doubleSize).map {} ≠ shiftRight.map (doubleSize.map {}) := by
  have m1 : (shiftRight.mul doubleSize).map {} = { mx := 2, my := 0 } := by
    simp [VMatrix.map, shiftRight_mul_doubleSize_type]
    rw [shiftRight_mul_doubleSize]
    norm_num
  have m2 : shiftRight.map (doubleSize.map {}) = { mx := 1, my := 0 } := by
    simp [VMatrix.map, shiftRight_type, doubleSize_type]
    rw [shiftRight_eq, doubleSize_eq]
    norm_num
  refine ⟨by rw [shiftRight_type]; decide, by rw [doubleSize_type]; decide, m1, m2, ?_⟩
  rw [m1, m2]
  simp

namespace VMatrix

/-- A matrix whose cache is clean or dirty below the stored classification has
the stored classification. -/
theorem type_of_cache (n : VMatrix) (t : MatrixType) (h1 : n.mType = t)
    (h2 : n.dirty = MatrixType.None ∨ n.dirty.val < t.val) : n.type = t := by
  unfold type
  rw [if_pos (by rw [h1]; exact h2), h1]

/-- The coefficients after `operator/=` by a non-zero divisor. -/
theorem divScalar_coeffs (x : VMatrix) (d : ℚ) (hd : d ≠ 0) :
    SameCoeffs (x.divScalar d)
      { m11 := x.m11 / d, m12 := x.m12 / d, m13 := x.m13 / d, m21 := x.m21 / d,
        m22 := x.m22 / d, m23 := x.m23 / d, mtx := x.mtx / d, mty := x.mty / d,
        m33 := x.m33 / d } := by
  unfold divScalar mulScalar
  rw [if_neg hd]
  by_cases h1 : 1 / d = 1
  · have hd1 : d = 1 := by
      field_simp at h1
      exact h1.symm
    rw [if_pos h1]
    simp [SameCoeffs, hd1]
  · rw [if_neg h1]
    unfold bump
    split <;> simp [SameCoeffs, div_eq_mul_inv]

/-- The function `inverted` always returns: no division by zero occurs. -/
theorem inverted_isSome (m : VMatrix) : ∃ r, m.inverted = some r := by
  unfold inverted
  cases ht : m.type <;> simp only
  · exact ⟨_, rfl⟩
  · exact ⟨_, rfl⟩
  · by_cases hz : (!vIsZero m.m11 && !vIsZero m.m22) = true
    · rw [if_pos hz]
      simp only [Bool.and_eq_true, Bool.not_eq_true'] at hz
      have h1 := ne_zero_of_not_vIsZero _ hz.1
      have h2 := ne_zero_of_not_vIsZero _ hz.2
      rw [if_neg (by tauto)]
      exact ⟨_, rfl⟩
    · rw [if_neg hz]
      exact ⟨_, rfl⟩
  all_goals
    by_cases hz : (!vIsZero m.determinant) = true
    · rw [if_pos hz]; exact ⟨_, rfl⟩
    · rw [if_neg hz]; exact ⟨_, rfl⟩

end VMatrix

/-! ### Matrix inversion (C13) -/

namespace VMatrix

/-- The inverse that `inverted` returns when it succeeds has the type of the
matrix. -/
theorem type_inverse_cache (m n : VMatrix) (h1 : n.mType = m.typed.mType)
    (h2 : n.dirty = m.typed.dirty) : n.type = m.type := by
  apply type_of_cache
  · rw [h1, typed_mType]
  · rw [h2]; exact typed_dirty m

/-- The general branch of `inverted` on an exactly affine matrix with a
determinant that is not zero: the result maps `m.map p` back to `p`. -/
theorem inverted_general_map (m : VMatrix) (p : VPointF)
    (ht : m.type = MatrixType.Rotate ∨ m.type = MatrixType.Shear)
    (h13 : m.m13 = 0) (h23 : m.m23 = 0) (h33 : m.m33 = 1) (hd : m.determinant ≠ 0) :
    ({ divScalar m.adjoint m.determinant with
        mType := m.typed.mType, dirty := m.typed.dirty } : VMatrix).map (m.map p) = p := by
  have hty : ({ divScalar m.adjoint m.determinant with
      mType := m.typed.mType, dirty := m.typed.dirty } : VMatrix).type = m.type :=
    type_inverse_cache m _ rfl rfl
  have hc := divScalar_coeffs m.adjoint m.determinant hd
  dsimp only [SameCoeffs] at hc
  obtain ⟨c1, c2, -, c4, c5, -, c7, c8, -⟩ := hc
  have hdet : m.determinant = m.m11 * m.m22 - m.m21 * m.m12 := by
    simp [determinant, h13, h23, h33]
  have hd2 : m.m11 * m.m22 - m.m21 * m.m12 ≠ 0 := hdet ▸ hd
  have key : ∀ q : VPointF,
      ({ divScalar m.adjoint m.determinant with
        mType := m.typed.mType, dirty := m.typed.dirty } : VMatrix).map q
        = { mx := (m.m22 * q.mx - m.m21 * q.my + (m.m21 * m.mty - m.m22 * m.mtx))
                    / (m.m11 * m.m22 - m.m21 * m.m12),
            my := (-(m.m12 * q.mx) + m.m11 * q.my + (m.m12 * m.mtx - m.m11 * m.mty))
                    / (m.m11 * m.m22 - m.m21 * m.m12) } := by
    intro q
    unfold map
    rw [hty]
    rcases ht with ht | ht <;> rw [ht] <;> dsimp only <;>
      rw [c1, c2, c4, c5, c7, c8, hdet] <;>
      simp only [adjoint, h13, h23, h33, VPointF.mk.injEq] <;>
      constructor <;> field_simp <;> ring
  rw [key]
  have hm : m.map p
      = { mx := m.m11 * p.mx + m.m21 * p.my + m.mtx, my := m.m12 * p.mx + m.m22 * p.my + m.mty } := by
    unfold map
    rcases ht with ht | ht <;> rw [ht]
  rw [hm]
  cases p with
  | mk x y =>
    simp only [VPointF.mk.injEq]
    constructor <;> field_simp <;> ring

end VMatrix

namespace VMatrix

/-- A matrix of type None maps every point to itself, also behind another
matrix of type None. -/
theorem map_none_roundtrip (m n : VMatrix) (p : VPointF) (hm : m.type = MatrixType.None)
    (hn : n.type = MatrixType.None) : n.map (m.map p) = p := by
  unfold map
  rw [hn, hm]

/-- The negated translation undoes a translation. -/
theorem map_translate_roundtrip (m n : VMatrix) (p : VPointF)
    (hm : m.type = MatrixType.Translate) (hn : n.type = MatrixType.Translate)
    (hx : n.mtx = -m.mtx) (hy : n.mty = -m.mty) : n.map (m.map p) = p := by
  unfold map
  rw [hn, hm]
  cases p
  simp [hx, hy]

/-- The reciprocal scale undoes a scale whose factors are not zero. -/
theorem map_scale_roundtrip (m n : VMatrix) (p : VPointF)
    (hm : m.type = MatrixType.Scale) (hn : n.type = MatrixType.Scale)
    (h1 : m.m11 ≠ 0) (h2 : m.m22 ≠ 0)
    (h11 : n.m11 = 1 / m.m11) (h22 : n.m22 = 1 / m.m22)
    (hx : n.mtx = -m.mtx * (1 / m.m11)) (hy : n.mty = -m.mty * (1 / m.m22)) :
    n.map (m.map p) = p := by
  unfold map
  rw [hn, hm]
  cases p
  simp only [VPointF.mk.injEq, h11, h22, hx, hy]
  constructor <;> field_simp

end VMatrix
/-- Claim C13. For every affine matrix `m` that is exactly canonical for its
type, `inverted` returns a matrix `n` and a flag `ok` (no division by zero is
reached). The flag is false exactly when the type is Scale and `m11` or `m22`
is zero within the tolerance, or the type is Rotate or Shear and the
determinant is zero within the tolerance, and then `n` is the identity. When
the flag is true, `n` has the type of `m` and `n.map (m.map p) = p` for every
point. For None the result has the identity coefficients, for Translate the
negated translation, for Scale the reciprocal scale. -/
theorem inverted_contract (m : VMatrix) (ha : m.type ≠ MatrixType.Project)
    (hc : VMatrix.Canonical m) :
    ∃ n ok, m.inverted = some (n, ok)
      ∧ (ok = false ↔
          (m.type = MatrixType.Scale ∧ (vIsZero m.m11 = true ∨ vIsZero m.m22 = true))
          ∨ ((m.type = MatrixType.Rotate ∨ m.type = MatrixType.Shear)
              ∧ vIsZero m.determinant = true))
      ∧ (ok = false → n = {})
      ∧ (ok = true → n.type = m.type ∧ ∀ p, n.map (m.map p) = p)
      ∧ (m.type = MatrixType.None → VMatrix.SameCoeffs n {})
      ∧ (m.type = MatrixType.Translate →
          VMatrix.SameCoeffs n { mtx := -m.mtx, mty := -m.mty })
      ∧ (m.type = MatrixType.Scale → ok = true →
          VMatrix.SameCoeffs n
            { m11 := 1 / m.m11, m22 := 1 / m.m22, mtx := -m.mtx * (1 / m.m11),
              mty := -m.mty * (1 / m.m22) }) := by
  obtain ⟨h13, h23, h33⟩ := VMatrix.canonical_affine m hc ha
  rcases hty : m.type with _ | _ | _ | _ | _ | _
  · -- None
    refine ⟨{ mType := m.typed.mType, dirty := m.typed.dirty }, true, ?_, ?_, ?_, ?_, ?_, ?_, ?_⟩
    · unfold VMatrix.inverted; rw [hty]
    · simp
    · simp
    · intro _
      have hn := (VMatrix.type_inverse_cache m
        { mType := m.typed.mType, dirty := m.typed.dirty } rfl rfl).trans hty
      exact ⟨hn, fun p => VMatrix.map_none_roundtrip m _ p hty hn⟩
    · intro _; simp [VMatrix.SameCoeffs]
    · intro h; cases h
    · intro h; cases h
  · -- Translate
    refine ⟨{ mtx := -m.mtx, mty := -m.mty, mType := m.typed.mType, dirty := m.typed.dirty },
      true, ?_, ?_, ?_, ?_, ?_, ?_, ?_⟩
    · unfold VMatrix.inverted; rw [hty]
    · simp
    · simp
    · intro _
      have hn := (VMatrix.type_inverse_cache m
        { mtx := -m.mtx, mty := -m.mty, mType := m.typed.mType, dirty := m.typed.dirty }
        rfl rfl).trans hty
      exact ⟨hn, fun p => VMatrix.map_translate_roundtrip m _ p hty hn rfl rfl⟩
    · intro h; cases h
    · intro _; simp [VMatrix.SameCoeffs]
    · intro h; cases h
  · -- Scale
    by_cases hz : (!vIsZero m.m11 && !vIsZero m.m22) = true
    · have hz1 : vIsZero m.m11 = false := by
        cases h : vIsZero m.m11 <;> simp [h] at hz ⊢
      have hz2 : vIsZero m.m22 = false := by
        cases h : vIsZero m.m22 <;> simp [h] at hz ⊢
      have hn1 : m.m11 ≠ 0 := ne_zero_of_not_vIsZero _ hz1
      have hn2 : m.m22 ≠ 0 := ne_zero_of_not_vIsZero _ hz2
      refine ⟨{ m11 := 1 / m.m11, m22 := 1 / m.m22, mtx := -m.mtx * (1 / m.m11),
                mty := -m.mty * (1 / m.m22), mType := m.typed.mType, dirty := m.typed.dirty },
        true, ?_, ?_, ?_, ?_, ?_, ?_, ?_⟩
      · unfold VMatrix.inverted
        rw [hty]
        simp only [hz, if_true]
        rw [if_neg (by simp [hn1, hn2])]
      · simp [hz1, hz2]
      · simp
      · intro _
        have hn := (VMatrix.type_inverse_cache m
          { m11 := 1 / m.m11, m22 := 1 / m.m22, mtx := -m.mtx * (1 / m.m11),
            mty := -m.mty * (1 / m.m22), mType := m.typed.mType, dirty := m.typed.dirty }
          rfl rfl).trans hty
        exact ⟨hn, fun p => VMatrix.map_scale_roundtrip m _ p hty hn hn1 hn2 rfl rfl rfl rfl⟩
      · intro h; cases h
      · intro h; cases h
      · intro _ _; simp [VMatrix.SameCoeffs]
    · refine ⟨{}, false, ?_, ?_, ?_, ?_, ?_, ?_, ?_⟩
      · unfold VMatrix.inverted
        rw [hty]
        simp only [hz]
        rfl
      · have : vIsZero m.m11 = true ∨ vIsZero m.m22 = true := by
          cases h1 : vIsZero m.m11 <;> cases h2 : vIsZero m.m22 <;> simp [h1, h2] at hz ⊢
        simp [this]
      · simp
      · intro h; cases h
      · intro h; cases h
      · intro h; cases h
      · intro _ h; cases h
  · -- Rotate
    by_cases hz : (!vIsZero m.determinant) = true
    · have hz1 : vIsZero m.determinant = false := by
        cases h : vIsZero m.determinant <;> simp [h] at hz ⊢
      have hd : m.determinant ≠ 0 := ne_zero_of_not_vIsZero _ hz1
      refine ⟨{ VMatrix.divScalar m.adjoint m.determinant with
                mType := m.typed.mType, dirty := m.typed.dirty }, true, ?_, ?_, ?_, ?_, ?_, ?_, ?_⟩
      · unfold VMatrix.inverted
        rw [hty]
        simp only [hz, if_true]
      · simp [hz1]
      · simp
      · intro _
        refine ⟨?_, fun p => VMatrix.inverted_general_map m p (Or.inl hty) h13 h23 h33 hd⟩
        rw [← hty]
        exact VMatrix.type_inverse_cache m _ rfl rfl
      · intro h; cases h
      · intro h; cases h
      · intro h; cases h
    · have hz1 : vIsZero m.determinant = true := by
        cases h : vIsZero m.determinant <;> simp [h] at hz ⊢
      refine ⟨{}, false, ?_, ?_, ?_, ?_, ?_, ?_, ?_⟩
      · unfold VMatrix.inverted
        rw [hty]
        simp only [hz]
        rfl
      · simp [hz1]
      · simp
      · intro h; cases h
      · intro h; cases h
      · intro h; cases h
      · intro h; cases h
  · -- Shear
    by_cases hz : (!vIsZero m.determinant) = true
    · have hz1 : vIsZero m.determinant = false := by
        cases h : vIsZero m.determinant <;> simp [h] at hz ⊢
      have hd : m.determinant ≠ 0 := ne_zero_of_not_vIsZero _ hz1
      refine ⟨{ VMatrix.divScalar m.adjoint m.determinant with
                mType := m.typed.mType, dirty := m.typed.dirty }, true, ?_, ?_, ?_, ?_, ?_, ?_, ?_⟩
      · unfold VMatrix.inverted
        rw [hty]
        simp only [hz, if_true]
      · simp [hz1]
      · simp
      · intro _
        refine ⟨?_, fun p => VMatrix.inverted_general_map m p (Or.inr hty) h13 h23 h33 hd⟩
        rw [← hty]
        exact VMatrix.type_inverse_cache m _ rfl rfl
      · intro h; cases h
      · intro h; cases h
      · intro h; cases h
    · have hz1 : vIsZero m.determinant = true := by
        cases h : vIsZero m.determinant <;> simp [h] at hz ⊢
      refine ⟨{}, false, ?_, ?_, ?_, ?_, ?_, ?_, ?_⟩
      · unfold VMatrix.inverted
        rw [hty]
        simp only [hz]
        rfl
      · simp [hz1]
      · simp
      · intro h; cases h
      · intro h; cases h
      · intro h; cases h
      · intro h; cases h
  · exact absurd hty ha

/-- The coefficients and the cache of `quarterTurn`. -/
theorem quarterTurn_eq :
    quarterTurn = { m11 := 0, m12 := 1, m21 := -1, m22 := 0, dirty := MatrixType.Rotate } := by
  simp [quarterTurn, VMatrix.rotate, VMatrix.type, VMatrix.typed, VMatrix.bump, MatrixType.val]

/-- The classification of `quarterTurn`. -/
theorem quarterTurn_type : quarterTurn.type = MatrixType.Rotate := by
  rw [quarterTurn_eq]
  simp [VMatrix.type, VMatrix.classify, VMatrix.fromRotate, vIsZero_eq, MatrixType.val]
  norm_num

/-- The matrix `quarterTurn` is exactly canonical for its type. -/
theorem quarterTurn_canonical : VMatrix.Canonical quarterTurn := by
  unfold VMatrix.Canonical
  rw [quarterTurn_type]
  simp [VMatrix.CanonicalFor, quarterTurn_eq]

/-- Claim C13, witness: the rotation by 90 degrees is inverted with the flag
true, and the result maps every image point back. -/
theorem inverted_contract_witness :
    quarterTurn.type ≠ MatrixType.Project ∧ VMatrix.Canonical quarterTurn
      ∧ ∃ n, quarterTurn.inverted = some (n, true)
          ∧ n.type = MatrixType.Rotate ∧ ∀ p, n.map (quarterTurn.map p) = p := by
  have hp : quarterTurn.type ≠ MatrixType.Project := by rw [quarterTurn_type]; decide
  refine ⟨hp, quarterTurn_canonical, ?_⟩
  obtain ⟨n, ok, h1, h2, -, h4, -⟩ := inverted_contract quarterTurn hp quarterTurn_canonical
  have hdet : vIsZero quarterTurn.determinant = false := by
    rw [quarterTurn_eq]
    simp [VMatrix.determinant, vIsZero_eq]
    norm_num
  have hok : ok = true := by
    cases ok with
    | true => rfl
    | false =>
      rcases h2.mp rfl with ⟨h, -⟩ | ⟨-, h⟩
      · rw [quarterTurn_type] at h; cases h
      · rw [hdet] at h; cases h
  subst hok
  obtain ⟨h5, h6⟩ := h4 rfl
  exact ⟨n, h1, h5.trans quarterTurn_type, h6⟩

/-! ### Type of a composition (C15) -/

namespace VMatrix

/-- The classification of a product: the larger classification when an
operand is of type None, else the classification recomputed from the
coefficients of the product, starting at the larger classification. -/
theorem type_mul_eq (a b : VMatrix) :
    (a.mul b).type
      = if a.type = MatrixType.None ∨ b.type = MatrixType.None then
          MatrixType.vMax a.type b.type
        else classify (MatrixType.vMax a.type b.type) (a.mul b) := by
  by_cases hb : b.type = MatrixType.None
  · rw [if_pos (Or.inr hb)]
    unfold mul
    rw [if_pos hb, hb]
    simp [MatrixType.vMax, MatrixType.val]
  · by_cases ha : a.type = MatrixType.None
    · rw [if_pos (Or.inl ha)]
      unfold mul
      rw [if_neg hb, if_pos ha, type_typed, ha]
      unfold MatrixType.vMax
      rw [if_pos]
      cases hB : b.type <;> simp_all [MatrixType.val]
    · rw [if_neg (by simp [ha, hb])]
      have hne : MatrixType.vMax a.type b.type ≠ MatrixType.None := by
        unfold MatrixType.vMax
        split
        · exact hb
        · exact ha
      unfold mul
      rw [if_neg hb, if_neg ha]
      simp only
      unfold type
      rw [if_neg]
      simp only [lt_self_iff_false, or_false]
      exact hne

end VMatrix

/-- The product `shiftRight * shiftLeft`. -/
theorem shiftRight_mul_shiftLeft :
    shiftRight.mul shiftLeft
      = { mType := MatrixType.Translate, dirty := MatrixType.Translate } := by
  simp [VMatrix.mul, shiftRight_type, shiftLeft_type, MatrixType.vMax, MatrixType.val,
    VMatrix.product]
  rw [shiftRight_eq, shiftLeft_eq]
  norm_num

/-- The classification of `shiftRight * shiftLeft`. -/
theorem shiftRight_mul_shiftLeft_type :
    (shiftRight.mul shiftLeft).type = MatrixType.None := by
  rw [shiftRight_mul_shiftLeft]
  simp [VMatrix.type, VMatrix.classify, VMatrix.fromTranslate, vIsZero_eq, MatrixType.val]

/-- Claim C15, as amended. For matrices `A` and `B` that are exactly canonical
for their types, the type of `A * B` is at most the larger of the two types
(Rotate and Shear counted as one class); it is that larger type when an
operand has type None, and otherwise the classification recomputed from the
coefficients of the product, starting at the larger type; and the
coefficients that the reduced per-type formula computes are those of the full
3 x 3 product. -/
theorem mul_type_le_max_and_coeffs (a b : VMatrix) (ha : VMatrix.Canonical a)
    (hb : VMatrix.Canonical b) :
    (a.mul b).type.rank ≤ max a.type.rank b.type.rank
      ∧ (a.mul b).type
          = (if a.type = MatrixType.None ∨ b.type = MatrixType.None then
              MatrixType.vMax a.type b.type
            else VMatrix.classify (MatrixType.vMax a.type b.type) (a.mul b))
      ∧ VMatrix.SameCoeffs (a.mul b) (VMatrix.fullProduct a b) :=
  ⟨VMatrix.rank_type_mul_le a b, VMatrix.type_mul_eq a b, VMatrix.mul_sameCoeffs a b ha hb⟩

/-- Claim C15, witness: `translate(1, 0) * scale(2, 2)`. -/
theorem mul_type_le_max_and_coeffs_witness :
    VMatrix.Canonical shiftRight ∧ VMatrix.Canonical doubleSize
      ∧ (shiftRight.mul doubleSize).type.rank ≤ max shiftRight.type.rank doubleSize.type.rank
      ∧ (shiftRight.mul doubleSize).type
          = (if shiftRight.type = MatrixType.None ∨ doubleSize.type = MatrixType.None then
              MatrixType.vMax shiftRight.type doubleSize.type
            else VMatrix.classify (MatrixType.vMax shiftRight.type doubleSize.type)
              (shiftRight.mul doubleSize))
      ∧ VMatrix.SameCoeffs (shiftRight.mul doubleSize)
          (VMatrix.fullProduct shiftRight doubleSize) :=
  ⟨shiftRight_canonical, doubleSize_canonical,
    mul_type_le_max_and_coeffs shiftRight doubleSize shiftRight_canonical doubleSize_canonical⟩

/-- Claim C15, as stated, fails: `translate(1, 0)` and `translate(-1, 0)` both
have type Translate, and the type of their product is None, not the larger of
the two types. -/
theorem mul_type_not_max :
    shiftRight.type = MatrixType.Translate ∧ shiftLeft.type = MatrixType.Translate
      ∧ (shiftRight.mul shiftLeft).type = MatrixType.None
      ∧ (shiftRight.mul shiftLeft).type ≠ MatrixType.vMax shiftRight.type shiftLeft.type := by
  refine ⟨shiftRight_type, shiftLeft_type, shiftRight_mul_shiftLeft_type, ?_⟩
  rw [shiftRight_mul_shiftLeft_type, shiftRight_type, shiftLeft_type]
  decide

/-! ### The type invariant (C14) -/

namespace VMatrix

end VMatrix

namespace VMatrix

end VMatrix

namespace VMatrix

end VMatrix

namespace VMatrix

end VMatrix
namespace VMatrix

end VMatrix

namespace VMatrix

end VMatrix

namespace VMatrix

end VMatrix

namespace VMatrix

end VMatrix

/-- For a composition whose frame rate is not zero and whose end frame is not
before its start frame (and within 64 bits of it), `duration()` is
`(totalFrame() - 1) / frameRate()`. -/
theorem duration_eq_totalFrame_pred_div (c : LOTCompositionData) (hr : c.frameRate ≠ 0)
    (h1 : c.mStartFrame ≤ c.mEndFrame) (h2 : c.mEndFrame - c.mStartFrame < 2 ^ 64) :
    c.duration = some (((c.totalFrame : ℚ) - 1) / c.frameRate) := by
  unfold LOTCompositionData.duration
  rw [if_neg hr]
  have ht : (c.totalFrame : Int) = c.mEndFrame - c.mStartFrame := by
    unfold LOTCompositionData.totalFrame
    rw [Int.emod_eq_of_lt (by omega) h2]
    exact Int.toNat_of_nonneg (by omega)
  have hq : (c.totalFrame : ℚ) = ((c.mEndFrame - c.mStartFrame : Int) : ℚ) := by
    rw [← ht]; simp
  rw [hq]
  unfold LOTCompositionData.frameDuration
  push_cast
  rfl

/-- Claim C19 fails on the code: for the composition with start frame 0, end
frame 60 and frame rate 30, `totalFrame() / frameRate()` is 2 seconds, as the
documentation of `Animation::duration` states, and `duration()` returns
59 / 30. -/
theorem duration_not_documented :
    0 < twoSecondComposition.frameRate
      ∧ twoSecondComposition.totalFrame = 60
      ∧ (twoSecondComposition.totalFrame : ℚ) / twoSecondComposition.frameRate = 2
      ∧ twoSecondComposition.duration = some (59 / 30)
      ∧ twoSecondComposition.duration
          ≠ some ((twoSecondComposition.totalFrame : ℚ) / twoSecondComposition.frameRate) := by
  have ht : twoSecondComposition.totalFrame = 60 := by
    simp [twoSecondComposition, LOTCompositionData.totalFrame]
  have hr : twoSecondComposition.frameRate = 30 := rfl
  have hd : twoSecondComposition.duration = some (59 / 30) := by
    simp [twoSecondComposition, LOTCompositionData.duration, LOTCompositionData.frameRate,
      LOTCompositionData.frameDuration]
  refine ⟨by rw [hr]; norm_num, ht, by rw [ht, hr]; norm_num, hd, ?_⟩
  rw [hd, ht, hr]
  norm_num

/-! ### Degenerate trim and dash (C17) -/

/-- Claim C17. For every input path: `trim` returns the empty path `VPath()`
when the trim start and end coincide (`|start - end| < 1e-6`); it returns the
input path when (start, end) is (0, 1) or (1, 0); `dashed` of an empty path
is an empty path, for the overload that returns the path and, when
`VPathData::reset` leaves an empty path, for the overload that writes
`result`. -/
theorem degenerate_trim_and_dash (P : PathEnv) (s : VPathMesure) (d : VDasher)
    (path result : VPath) :
    (|s.mStart - s.mEnd| < EPSILON_FLOAT →
        (s.trim P path).1 = {} ∧ (s.trim P path).1.empty = true)
      ∧ ((s.mStart = 0 ∧ s.mEnd = 1) ∨ (s.mStart = 1 ∧ s.mEnd = 0) → (s.trim P path).1 = path)
      ∧ (path.empty = true → (d.dashed P path).empty = true)
      ∧ (path.empty = true → (∀ r, (P.reset r).empty = true) →
          (d.dashedInto P path result).empty = true) := by
  refine ⟨?_, ?_, ?_, ?_⟩
  · intro h
    have hv : vCompare s.mStart s.mEnd = true := by simp [vCompare, h]
    unfold VPathMesure.trim
    rw [if_pos hv]
    exact ⟨rfl, rfl⟩
  · intro h
    unfold VPathMesure.trim
    rcases h with ⟨h0, h1⟩ | ⟨h0, h1⟩
    · rw [h0, h1]
      have e1 : vCompare 0 1 = false := by simp [vCompare, EPSILON_FLOAT]; norm_num
      have e2 : vCompare 0 0 = true := by simp [vCompare, EPSILON_FLOAT]
      have e3 : vCompare 1 1 = true := by simp [vCompare, EPSILON_FLOAT]
      simp [e1, e2, e3]
    · rw [h0, h1]
      have e1 : vCompare 1 0 = false := by simp [vCompare, EPSILON_FLOAT]; norm_num
      have e2 : vCompare 0 0 = true := by simp [vCompare, EPSILON_FLOAT]
      have e3 : vCompare 1 1 = true := by simp [vCompare, EPSILON_FLOAT]
      simp [e1, e2, e3]
  · intro he
    unfold VDasher.dashed
    split
    · exact he
    · rw [if_pos (by simp [he])]
      rfl
  · intro he hr
    unfold VDasher.dashedInto
    split
    · exact hr _
    · rw [if_pos (by simp [he])]
      exact hr _

/-- Claim C17, witness: a trim range of (1/2, 1/2) and of (0, 1) on the path
`moveTo(0, 0); lineTo(10, 0)`, and the dasher with the pattern (5, 5) on the
empty path. -/
theorem degenerate_trim_and_dash_witness :
    (({ mStart := 1 / 2, mEnd := 1 / 2 } : VPathMesure).trim samplePathEnv linePath).1 = {}
      ∧ (({ mStart := 0, mEnd := 1 } : VPathMesure).trim samplePathEnv linePath).1 = linePath
      ∧ ((VDasher.new [5, 5] 2).dashed samplePathEnv {}).empty = true
      ∧ ((VDasher.new [5, 5] 2).dashedInto samplePathEnv {} linePath).empty = true :=
  ⟨((degenerate_trim_and_dash samplePathEnv { mStart := 1 / 2, mEnd := 1 / 2 } {} linePath {}).1
      (by simp [EPSILON_FLOAT])).1,
    (degenerate_trim_and_dash samplePathEnv { mStart := 0, mEnd := 1 } {} linePath {}).2.1
      (Or.inl ⟨rfl, rfl⟩),
    (degenerate_trim_and_dash samplePathEnv {} (VDasher.new [5, 5] 2) {} {}).2.2.1 rfl,
    (degenerate_trim_and_dash samplePathEnv {} (VDasher.new [5, 5] 2) {} linePath).2.2.2 rfl
      (fun _ => rfl)⟩

/-! ### Copy-on-write isolation (C18) -/

namespace vcow_ptr

namespace World

/-- Before the first handle exists the counters agree with the handles. -/
theorem init_counted {T : Type} (d : T) : Counted (init d) := by
  refine ⟨rfl, ?_, ?_⟩
  · intro i; simp [init]
  · intro i _; simp [init]

/-- In a counted state, a heap cell that a handle points at holds a payload
whose counter is the number of handles at it. -/
theorem heap_of_mem {T : Type} (w : World T) (hc : Counted w) (i : Nat)
    (h : Addr.heap i ∈ w.handles) :
    ∃ m, w.store.heap i = some m ∧ m.mRef = w.handles.count (Addr.heap i)
      ∧ 0 < w.handles.count (Addr.heap i) ∧ i < w.store.next := by
  have hpos : 0 < w.handles.count (Addr.heap i) := List.count_pos_iff.mpr h
  have h2 := hc.2.1 i
  rw [if_neg (by omega)] at h2
  have hlt : i < w.store.next := by
    by_contra hge
    have := hc.2.2 i (by omega)
    omega
  cases hm : w.store.heap i with
  | none => rw [hm] at h2; simp at h2
  | some m =>
    rw [hm] at h2
    simp at h2
    exact ⟨m, rfl, h2, hpos, hlt⟩

/-- In a counted state the next cell of the heap is free. -/
theorem heap_next_none {T : Type} (w : World T) (hc : Counted w) :
    w.store.heap w.store.next = none ∧ w.handles.count (Addr.heap w.store.next) = 0 := by
  have h0 := hc.2.2 w.store.next (le_refl _)
  have h2 := hc.2.1 w.store.next
  rw [if_pos h0] at h2
  cases hm : w.store.heap w.store.next with
  | none => exact ⟨rfl, h0⟩
  | some m => rw [hm] at h2; simp at h2

end World

end vcow_ptr

namespace vcow_ptr

namespace World

/-- A default-constructed handle keeps the counters in agreement. -/
theorem construct_counted {T : Type} (w : World T) (hc : Counted w) :
    Counted { store := (defaultCtor w.store).2, handles := Addr.static :: w.handles } := by
  obtain ⟨h1, h2, h3⟩ := hc
  refine ⟨?_, ?_, ?_⟩
  · simp [defaultCtor, h1]
  · intro i
    simpa [defaultCtor] using h2 i
  · intro i hi
    simpa [defaultCtor] using h3 i hi

/-- A handle constructed from a value keeps the counters in agreement. -/
theorem make_counted {T : Type} (w : World T) (v : T) (hc : Counted w) :
    Counted { store := (valueCtor w.store v).2,
              handles := Addr.heap w.store.next :: w.handles } := by
  obtain ⟨hn, hz⟩ := heap_next_none w hc
  obtain ⟨h1, h2, h3⟩ := hc
  refine ⟨?_, ?_, ?_⟩
  · simpa [valueCtor] using h1
  · intro i
    by_cases hi : i = w.store.next
    · subst hi
      simp [valueCtor, hz]
    · have hne : w.store.next ≠ i := fun h => hi h.symm
      simpa [valueCtor, Function.update_apply, hi, hne] using h2 i
  · intro i hi
    have hne : w.store.next ≠ i := by
      simp only [valueCtor] at hi
      omega
    have := h3 i (by simp only [valueCtor] at hi; omega)
    simp [List.count_cons, hne, this]

end World

end vcow_ptr

namespace vcow_ptr

namespace World

/-- The copy of a live handle succeeds and keeps the counters in agreement. -/
theorem copy_counted {T : Type} (w : World T) (a : Addr) (hc : Counted w)
    (ha : a ∈ w.handles) : ∃ w2, w.step (Op.copy a) = some w2 ∧ Counted w2 := by
  cases a with
  | static =>
    refine ⟨{ store := setModel w.store Addr.static
                { w.store.default_s with mRef := w.store.default_s.mRef + 1 },
              handles := Addr.static :: w.handles }, ?_, ?_⟩
    · simp [step, ha, copyCtor, modelAt]
    · obtain ⟨h1, h2, h3⟩ := hc
      refine ⟨?_, ?_, ?_⟩
      · simp [setModel, h1]
      · intro i; simpa [setModel] using h2 i
      · intro i hi; simpa [setModel] using h3 i hi
  | heap j =>
    obtain ⟨m, hm, hr, hpos, hlt⟩ := heap_of_mem w hc j ha
    refine ⟨{ store := setModel w.store (Addr.heap j) { m with mRef := m.mRef + 1 },
              handles := Addr.heap j :: w.handles }, ?_, ?_⟩
    · simp [step, ha, copyCtor, modelAt, hm]
    · obtain ⟨h1, h2, h3⟩ := hc
      refine ⟨?_, ?_, ?_⟩
      · simpa [setModel] using h1
      · intro i
        by_cases hi : i = j
        · subst hi
          simp [setModel, hr]
        · have hne : j ≠ i := fun h => hi h.symm
          simpa [setModel, Function.update_apply, hi, List.count_cons, hne] using h2 i
      · intro i hi
        have hne : j ≠ i := by
          simp only [setModel] at hi
          omega
        have := h3 i (by simpa [setModel] using hi)
        simp [List.count_cons, hne, this]

/-- The destruction of a live handle succeeds and keeps the counters in
agreement. -/
theorem destroy_counted {T : Type} (w : World T) (a : Addr) (hc : Counted w)
    (ha : a ∈ w.handles) : ∃ w2, w.step (Op.destroy a) = some w2 ∧ Counted w2 := by
  have hpos : 0 < w.handles.count a := List.count_pos_iff.mpr ha
  cases a with
  | static =>
    obtain ⟨h1, h2, h3⟩ := hc
    refine ⟨{ store := setModel w.store Addr.static
                { w.store.default_s with mRef := w.store.default_s.mRef - 1 },
              handles := w.handles.erase Addr.static }, ?_, ?_⟩
    · have e1 : w.store.default_s.mRef ≠ 0 := by omega
      have e2 : w.store.default_s.mRef - 1 ≠ 0 := by omega
      simp [step, ha, dtor, modelAt, e1, e2]
    · refine ⟨?_, ?_, ?_⟩
      · simp only [setModel, List.count_erase_self]
        omega
      · intro i
        have := h2 i
        rw [List.count_erase_of_ne (by simp)]
        simpa [setModel] using this
      · intro i hi
        rw [List.count_erase_of_ne (by simp)]
        exact h3 i (by simpa [setModel] using hi)
  | heap j =>
    obtain ⟨m, hm, hr, -, hlt⟩ := heap_of_mem w hc j ha
    obtain ⟨h1, h2, h3⟩ := hc
    by_cases hone : m.mRef - 1 = 0
    · refine ⟨{ store := { w.store with heap := Function.update w.store.heap j none },
                handles := w.handles.erase (Addr.heap j) }, ?_, ?_⟩
      · have e1 : m.mRef ≠ 0 := by omega
        simp [step, ha, dtor, modelAt, hm, e1, hone]
      · refine ⟨?_, ?_, ?_⟩
        · rw [List.count_erase_of_ne (by simp)]
          exact h1
        · intro i
          by_cases hi : i = j
          · subst hi
            simp only [Function.update_same, Option.map_none', List.count_erase_self]
            rw [if_pos (by omega)]
          · have hne : Addr.heap i ≠ Addr.heap j := by simp [hi]
            rw [List.count_erase_of_ne hne]
            simpa [Function.update_apply, hi] using h2 i
        · intro i hi
          by_cases hij : i = j
          · subst hij
            simp only [List.count_erase_self]
            omega
          · have hne : Addr.heap i ≠ Addr.heap j := by simp [hij]
            rw [List.count_erase_of_ne hne]
            exact h3 i hi
    · refine ⟨{ store := setModel w.store (Addr.heap j) { m with mRef := m.mRef - 1 },
                handles := w.handles.erase (Addr.heap j) }, ?_, ?_⟩
      · have e1 : m.mRef ≠ 0 := by omega
        simp [step, ha, dtor, modelAt, hm, e1, hone]
      · refine ⟨?_, ?_, ?_⟩
        · rw [List.count_erase_of_ne (by simp)]
          simpa [setModel] using h1
        · intro i
          by_cases hi : i = j
          · subst hi
            simp only [setModel, Function.update_same, Option.map_some', List.count_erase_self]
            rw [if_neg (by omega), hr]
          · have hne : Addr.heap i ≠ Addr.heap j := by simp [hi]
            rw [List.count_erase_of_ne hne]
            simpa [setModel, Function.update_apply, hi] using h2 i
        · intro i hi
          by_cases hij : i = j
          · subst hij
            simp only [setModel] at hi
            omega
          · have hne : Addr.heap i ≠ Addr.heap j := by simp [hij]
            rw [List.count_erase_of_ne hne]
            exact h3 i (by simpa [setModel] using hi)

end World

end vcow_ptr

namespace vcow_ptr

namespace World

/-- A mutation through `write()` on a handle of a heap payload that other
handles share: the state after it. The payload is cloned into the next cell,
the clone has the counter 1 and the changed value, and the shared payload
keeps its value and loses one count. -/
theorem mutate_shared_step {T : Type} (w : World T) (j : Nat) (f : T → T) (hc : Counted w)
    (m : Model T) (hm : w.store.heap j = some m) (h2 : 2 ≤ m.mRef) :
    w.step (Op.mutate (Addr.heap j) f)
      = some { store :=
                { w.store with
                  heap := Function.update
                    (Function.update w.store.heap j (some { m with mRef := m.mRef - 1 }))
                    w.store.next (some { mRef := 1, mValue := f m.mValue })
                  next := w.store.next + 1 }
               handles := Addr.heap w.store.next :: w.handles.erase (Addr.heap j) } := by
  have hmem : Addr.heap j ∈ w.handles := by
    have := hc.2.1 j
    rw [hm] at this
    by_contra hn
    rw [if_pos (List.count_eq_zero_of_not_mem hn)] at this
    simp at this
  obtain ⟨m2, hm2, -, -, hlt⟩ := heap_of_mem w hc j hmem
  have hne : j ≠ w.store.next := by omega
  have hne2 : w.store.next ≠ j := by omega
  have e1 : m.mRef ≠ 1 := by omega
  have e2 : m.mRef ≠ 0 := by omega
  have e3 : m.mRef - 1 ≠ 0 := by omega
  have hw : write w.store (some (Addr.heap j))
      = some (some (Addr.heap w.store.next),
          { w.store with
            heap := Function.update
              (Function.update w.store.heap w.store.next (some { mRef := 1, mValue := m.mValue }))
              j (some { m with mRef := m.mRef - 1 })
            next := w.store.next + 1 }) := by
    simp [write, unique, refCount, read, modelAt, hm, e1, valueCtor, dtor, Function.update_apply,
      hne, e2, e3, setModel]
  simp only [step, hmem, if_true, mutate, hw, modelAt, Function.update_apply, hne2, if_false,
    if_true, setModel]
  congr 2
  simp only [Store.mk.injEq, true_and, and_true]
  funext i
  simp only [Function.update_apply]
  by_cases h1 : i = w.store.next
  · simp [h1]
  · simp [h1]

end World

end vcow_ptr

namespace vcow_ptr

namespace World

/-- A mutation through `write()` on a handle of the static payload, in a state
where the counter of the static payload is at least 2: the payload is cloned
into the next cell and the static payload loses one count. -/
theorem mutate_static_step {T : Type} (w : World T) (f : T → T)
    (hmem : Addr.static ∈ w.handles) (h2 : 2 ≤ w.store.default_s.mRef) :
    w.step (Op.mutate Addr.static f)
      = some { store :=
                { default_s := { w.store.default_s with mRef := w.store.default_s.mRef - 1 }
                  heap := Function.update w.store.heap w.store.next
                    (some { mRef := 1, mValue := f w.store.default_s.mValue })
                  next := w.store.next + 1 }
               handles := Addr.heap w.store.next :: w.handles.erase Addr.static } := by
  have e1 : w.store.default_s.mRef ≠ 1 := by omega
  have e2 : w.store.default_s.mRef ≠ 0 := by omega
  have e3 : w.store.default_s.mRef - 1 ≠ 0 := by omega
  have hw : write w.store (some Addr.static)
      = some (some (Addr.heap w.store.next),
          { default_s := { w.store.default_s with mRef := w.store.default_s.mRef - 1 }
            heap := Function.update w.store.heap w.store.next
              (some { mRef := 1, mValue := w.store.default_s.mValue })
            next := w.store.next + 1 }) := by
    simp [write, unique, refCount, read, modelAt, e1, valueCtor, dtor, e2, e3, setModel]
  simp only [step, hmem, if_true, mutate, hw, modelAt, Function.update_same, setModel,
    Function.update_idem]

/-- A mutation through `write()` on the only handle of a heap payload: nothing
is cloned, the value of the payload is changed in place. -/
theorem mutate_unique_step {T : Type} (w : World T) (j : Nat) (f : T → T)
    (hmem : Addr.heap j ∈ w.handles) (m : Model T) (hm : w.store.heap j = some m)
    (h1 : m.mRef = 1) :
    w.step (Op.mutate (Addr.heap j) f)
      = some { store :=
                { w.store with
                  heap := Function.update w.store.heap j (some { m with mValue := f m.mValue }) }
               handles := Addr.heap j :: w.handles.erase (Addr.heap j) } := by
  have hw : write w.store (some (Addr.heap j)) = some (some (Addr.heap j), w.store) := by
    simp [write, unique, refCount, modelAt, hm, h1]
  simp only [step, hmem, if_true, mutate, hw, modelAt, hm, setModel]

/-- A mutation through `write()` on a live handle succeeds and keeps the
counters in agreement. -/
theorem mutate_counted {T : Type} (w : World T) (a : Addr) (f : T → T) (hc : Counted w)
    (ha : a ∈ w.handles) : ∃ w2, w.step (Op.mutate a f) = some w2 ∧ Counted w2 := by
  have hpos : 0 < w.handles.count a := List.count_pos_iff.mpr ha
  obtain ⟨hn, hz⟩ := heap_next_none w hc
  cases a with
  | static =>
    have h1 := hc.1
    refine ⟨_, mutate_static_step w f ha (by omega), ?_, ?_, ?_⟩
    · simp only [List.count_cons, List.count_erase_self]
      simp
      omega
    · intro i
      have hi := hc.2.1 i
      by_cases hin : i = w.store.next
      · subst hin
        simp [List.count_cons, List.count_erase_of_ne, hz]
      · have hne : w.store.next ≠ i := fun h => hin h.symm
        simpa [Function.update_apply, hin, List.count_cons, hne, List.count_erase_of_ne]
          using hi
    · intro i hi
      have hne : w.store.next ≠ i := by
        simp only at hi
        omega
      have := hc.2.2 i (by simp only at hi; omega)
      simp [List.count_cons, hne, List.count_erase_of_ne, this]
  | heap j =>
    obtain ⟨m, hm, hr, -, hlt⟩ := heap_of_mem w hc j ha
    have hjn : j ≠ w.store.next := by omega
    have hnj : w.store.next ≠ j := by omega
    by_cases hone : m.mRef = 1
    · refine ⟨_, mutate_unique_step w j f ha m hm hone, ?_, ?_, ?_⟩
      · simpa [List.count_cons] using hc.1
      · intro i
        have hi := hc.2.1 i
        by_cases hij : i = j
        · subst hij
          simp only [Function.update_same, Option.map_some', List.count_cons_self,
            List.count_erase_self]
          rw [if_neg (by omega)]
          congr 1
          omega
        · have hne : j ≠ i := fun h => hij h.symm
          have hne2 : Addr.heap i ≠ Addr.heap j := by simp [hij]
          simpa [Function.update_apply, hij, List.count_cons, hne, List.count_erase_of_ne hne2]
            using hi
      · intro i hi
        have hne : j ≠ i := by
          simp only at hi
          omega
        have hne2 : Addr.heap i ≠ Addr.heap j := by
          intro h
          exact hne (by injection h with h; exact h.symm)
        have := hc.2.2 i hi
        simp [List.count_cons, hne, List.count_erase_of_ne hne2, this]
    · refine ⟨_, mutate_shared_step w j f hc m hm (by omega), ?_, ?_, ?_⟩
      · simpa [List.count_cons, List.count_erase_of_ne] using hc.1
      · intro i
        have hi := hc.2.1 i
        by_cases hin : i = w.store.next
        · subst hin
          have hne2 : Addr.heap w.store.next ≠ Addr.heap j := by simp [hnj]
          simp [List.count_cons, List.count_erase_of_ne hne2, hz]
        · have hne : w.store.next ≠ i := fun h => hin h.symm
          by_cases hij : i = j
          · subst hij
            simp only [Function.update_apply, hin, if_false, if_true, Option.map_some',
              List.count_cons, List.count_erase_self]
            simp [hne]
            omega
          · have hne2 : Addr.heap i ≠ Addr.heap j := by simp [hij]
            simpa [Function.update_apply, hin, hij, List.count_cons, hne,
              List.count_erase_of_ne hne2] using hi
      · intro i hi
        have hne : w.store.next ≠ i := by
          simp only at hi
          omega
        have hne2 : Addr.heap i ≠ Addr.heap j := by
          intro h
          injection h with h
          simp only at hi
          omega
        have := hc.2.2 i (by simp only at hi; omega)
        simp [List.count_cons, hne, List.count_erase_of_ne hne2, this]

end World

end vcow_ptr

/-- The counters of `sharedWorld` agree with its handles. -/
theorem sharedWorld_counted : vcow_ptr.World.Counted sharedWorld := by
  refine ⟨rfl, ?_, ?_⟩
  · intro i
    by_cases hi : i = 0
    · subst hi
      simp [sharedWorld]
    · have : (0 : Nat) ≠ i := fun h => hi h.symm
      simp [sharedWorld, Function.update_apply, hi, List.count_cons, this]
  · intro i hi
    have : (0 : Nat) ≠ i := by
      simp only [sharedWorld] at hi
      omega
    simp [sharedWorld, List.count_cons, this]

/-- Claim C18, as amended. In a state whose counters agree with the handles,
the counter of a heap payload is the number of live handles at it and the
counter of the static payload of the default constructor is that number plus
one; every operation on a live handle (default construction, construction
from a value, copy, destruction, mutation through `write()`) succeeds and
leaves such a state. When two handles share one heap payload, a mutation
through `write()` on one of them clones the payload: the value read through
the other is unchanged, the mutated handle reads the changed value, and both
are unique afterwards. When a handle is unique, `write()` clones nothing and
returns the handle and the store as they are. -/
theorem cow_isolation {T : Type} (w : vcow_ptr.World T) (hc : vcow_ptr.World.Counted w) :
    (vcow_ptr.refCount w.store (some vcow_ptr.Addr.static)
        = some (w.handles.count vcow_ptr.Addr.static + 1)
      ∧ ∀ j, vcow_ptr.Addr.heap j ∈ w.handles →
          vcow_ptr.refCount w.store (some (vcow_ptr.Addr.heap j))
            = some (w.handles.count (vcow_ptr.Addr.heap j)))
      ∧ (∀ op, vcow_ptr.Op.Live w op → ∃ w2, w.step op = some w2 ∧ vcow_ptr.World.Counted w2)
      ∧ (∀ j f, w.handles.count (vcow_ptr.Addr.heap j) = 2 →
          ∃ v w2, vcow_ptr.read w.store (some (vcow_ptr.Addr.heap j)) = some v
            ∧ w.step (vcow_ptr.Op.mutate (vcow_ptr.Addr.heap j) f) = some w2
            ∧ w2.handles
                = vcow_ptr.Addr.heap w.store.next :: w.handles.erase (vcow_ptr.Addr.heap j)
            ∧ vcow_ptr.read w2.store (some (vcow_ptr.Addr.heap j)) = some v
            ∧ vcow_ptr.read w2.store (some (vcow_ptr.Addr.heap w.store.next)) = some (f v)
            ∧ vcow_ptr.unique w2.store (some (vcow_ptr.Addr.heap j)) = some true
            ∧ vcow_ptr.unique w2.store (some (vcow_ptr.Addr.heap w.store.next)) = some true)
      ∧ (∀ h, vcow_ptr.unique w.store h = some true →
          vcow_ptr.write w.store h = some (h, w.store)) := by
  refine ⟨⟨?_, ?_⟩, ?_, ?_, ?_⟩
  · simp [vcow_ptr.refCount, vcow_ptr.modelAt, hc.1]
  · intro j hj
    obtain ⟨m, hm, hr, -, -⟩ := vcow_ptr.World.heap_of_mem w hc j hj
    simp [vcow_ptr.refCount, vcow_ptr.modelAt, hm, hr]
  · intro op hl
    cases op with
    | construct => exact ⟨_, rfl, vcow_ptr.World.construct_counted w hc⟩
    | make v => exact ⟨_, rfl, vcow_ptr.World.make_counted w v hc⟩
    | copy a => exact vcow_ptr.World.copy_counted w a hc hl
    | destroy a => exact vcow_ptr.World.destroy_counted w a hc hl
    | mutate a f => exact vcow_ptr.World.mutate_counted w a f hc hl
  · intro j f h2
    have hmem : vcow_ptr.Addr.heap j ∈ w.handles := List.count_pos_iff.mp (by omega)
    obtain ⟨m, hm, hr, -, hlt⟩ := vcow_ptr.World.heap_of_mem w hc j hmem
    have hjn : j ≠ w.store.next := by omega
    have hnj : w.store.next ≠ j := by omega
    have hm2 : m.mRef = 2 := by omega
    refine ⟨m.mValue, _, ?_, vcow_ptr.World.mutate_shared_step w j f hc m hm (by omega), rfl,
      ?_, ?_, ?_, ?_⟩
    · simp [vcow_ptr.read, vcow_ptr.modelAt, hm]
    · simp [vcow_ptr.read, vcow_ptr.modelAt, Function.update_apply, hjn]
    · simp [vcow_ptr.read, vcow_ptr.modelAt]
    · simp [vcow_ptr.unique, vcow_ptr.refCount, vcow_ptr.modelAt, Function.update_apply, hjn,
        hm2]
    · simp [vcow_ptr.unique, vcow_ptr.refCount, vcow_ptr.modelAt]
  · intro h hu
    unfold vcow_ptr.write
    rw [hu]

/-- Claim C18, witness: two handles share the heap payload
`moveTo(0, 0); lineTo(10, 0)`; a mutation through the first that empties the
path leaves the second reading the path, and both unique. -/
theorem cow_isolation_witness :
    vcow_ptr.World.Counted sharedWorld
      ∧ ∃ w2, sharedWorld.step (vcow_ptr.Op.mutate (vcow_ptr.Addr.heap 0) (fun _ => {}))
            = some w2
          ∧ w2.handles = [vcow_ptr.Addr.heap 1, vcow_ptr.Addr.heap 0]
          ∧ vcow_ptr.read w2.store (some (vcow_ptr.Addr.heap 0)) = some linePath
          ∧ vcow_ptr.read w2.store (some (vcow_ptr.Addr.heap 1)) = some {}
          ∧ vcow_ptr.unique w2.store (some (vcow_ptr.Addr.heap 0)) = some true
          ∧ vcow_ptr.unique w2.store (some (vcow_ptr.Addr.heap 1)) = some true := by
  refine ⟨sharedWorld_counted, ?_⟩
  obtain ⟨v, w2, h1, h2, h3, h4, h5, h6, h7⟩ :=
    (cow_isolation sharedWorld sharedWorld_counted).2.2.1 0 (fun _ => {}) (by decide)
  have hv : v = linePath := by
    have : vcow_ptr.read sharedWorld.store (some (vcow_ptr.Addr.heap 0)) = some linePath := by
      simp [vcow_ptr.read, vcow_ptr.modelAt, sharedWorld]
    rw [this] at h1
    exact (Option.some.inj h1).symm
  subst hv
  exact ⟨w2, h2, h3, h4, h5, h6, h7⟩

/-- Claim C18, as stated, fails for default-constructed handles. After
`VPath a; VPath b = a;` and a mutation through `a`, the handle `a` holds a
clone in heap cell 0 and `b` is the only handle at the static payload, whose
counter is 2: the counter is not the number of handles at the payload, and
`b` is not unique. -/
theorem default_payload_not_unique :
    defaultSharedRun.map (fun w =>
        (w.handles, w.handles.count vcow_ptr.Addr.static,
          vcow_ptr.refCount w.store (some vcow_ptr.Addr.static),
          vcow_ptr.unique w.store (some vcow_ptr.Addr.static),
          vcow_ptr.unique w.store (some (vcow_ptr.Addr.heap 0))))
      = some ([vcow_ptr.Addr.heap 0, vcow_ptr.Addr.static], 1, some 2, some false, some true) := by
  rfl

/-! ### Consecutive frames in the prerender queue (C20) -/

/-- The prerender half of `render` keeps the queue consecutive, when the sum
`frame.current + size` does not wrap for a looping instance. -/
theorem prerender_consecutive (a a' : LottieAnim) (b : Bool)
    (h : a.prerender = some (b, a'))
    (hU : a.frame.total < U16) (hc : a.frame.current < U16)
    (hl : a.loop = true → a.frame.current < a.frame.total)
    (hw : a.loop = true →
      (a.frame.total : Int) + max a.maxPrerenderedFrames DEFAULT_PRERENDERED_FRAMES ≤ 65536)
    (hQ : QueueConsecutive a) :
    QueueConsecutive a' ∧ a'.frame = a.frame ∧ a'.currentFrame = a.currentFrame
      ∧ a'.loop = a.loop ∧ a'.canvas = a.canvas ∧ a'.pid = a.pid
      ∧ a'.maxPrerenderedFrames = a.maxPrerenderedFrames
      ∧ a'.timeline.duration_ms = a.timeline.duration_ms ∧ a'.play = a.play := by
  rcases prerender_cases a a' b h with ⟨-, rfl⟩ | ⟨-, hle, i, hi, hie, rfl⟩
  · exact ⟨hQ, rfl, rfl, rfl, rfl, rfl, rfl, rfl, rfl⟩
  · refine ⟨?_, rfl, rfl, rfl, rfl, rfl, rfl, rfl, rfl⟩
    have hidx : i = expectedIndex a a.prerenderedFrames.length := by
      rw [hie]
      unfold expectedIndex
      by_cases hloop : a.loop = true
      · rw [if_pos hloop, if_pos hloop]
        have h1 := hl hloop
        have h2 := hw hloop
        have h3 : (a.prerenderedFrames.length : Int) + a.frame.total ≤ 65536 := by omega
        have h4 : a.prerenderedFrames.length + a.frame.current < 65536 := by omega
        have h5 : a.prerenderedFrames.length % U16 = a.prerenderedFrames.length :=
          Nat.mod_eq_of_lt (by unfold U16; omega)
        rw [h5, Nat.mod_eq_of_lt (a := a.frame.current + a.prerenderedFrames.length)
          (by unfold U16; omega)]
      · rw [if_neg hloop, if_neg hloop]
        rw [if_neg hloop] at hie
        -- the entries of the queue stand for indices below `frame.total`
        cases hn : a.prerenderedFrames.length with
        | zero => simp [Nat.mod_eq_of_lt hc]
        | succ n =>
          have hlast : n < a.prerenderedFrames.length := by omega
          obtain ⟨-, hlt⟩ := hQ n _ (List.get?_eq_get hlast)
          unfold expectedIndex at hlt
          rw [if_neg hloop] at hlt
          have h5 : (n + 1) % U16 = n + 1 := Nat.mod_eq_of_lt (by unfold U16 at hU ⊢; omega)
          rw [h5]
          by_cases hwrap : a.frame.current + (n + 1) < U16
          · exact Nat.mod_eq_of_lt hwrap
          · exfalso
            unfold U16 at hU hwrap hc
            omega
    intro k f hk
    by_cases hkn : k < a.prerenderedFrames.length
    · have := hQ k f (by simpa [List.getElem?_append_left hkn] using hk)
      simpa [expectedIndex] using this
    · have hlen : k < (a.prerenderedFrames ++
          [({ data := PixelData.rendered i a.canvas.width a.canvas.height,
              size := (a.canvas.width, a.canvas.height) } : NextFrame)]).length := by
        by_contra hh
        have : (a.prerenderedFrames ++
          [({ data := PixelData.rendered i a.canvas.width a.canvas.height,
              size := (a.canvas.width, a.canvas.height) } : NextFrame)]).get? k = none :=
          List.get?_eq_none.mpr (by omega)
        simp only at hk
        rw [this] at hk
        exact absurd hk (by simp)
      have hke : k = a.prerenderedFrames.length := by
        simp only [List.length_append, List.length_singleton] at hlen
        omega
      subst hke
      simp only [List.get?_eq_getElem?, List.getElem?_concat_length, Option.some.injEq] at hk
      subst hk
      refine ⟨?_, ?_⟩
      · simp only [expectedIndex] at hidx ⊢
        rw [hidx]
      · simp only [expectedIndex] at hidx ⊢
        rw [← hidx]
        exact hi

/-- The advance half of `render` keeps the queue consecutive, and the frame it
moves into `currentFrame` (when the queue is not empty) was rendered for the
value `frame.current` had before. -/
theorem advance_consecutive (a a' : LottieAnim) (d : Nat) (h : a.advance d = some a')
    (hU : a.frame.total < U16)
    (hl : a.loop = true → a.frame.current < a.frame.total)
    (hQ : QueueConsecutive a) :
    QueueConsecutive a' ∧ a'.frame.current < U16
      ∧ (a'.loop = true → a'.frame.current < a'.frame.total)
      ∧ (a'.currentFrame
            = (if a.prerenderedFrames = [] then a.currentFrame
               else { pid := a.pid,
                      data := PixelData.rendered a.frame.current a.canvas.width a.canvas.height,
                      size := (a.canvas.width, a.canvas.height) }))
      ∧ a'.frame.total = a.frame.total
      ∧ a'.loop = a.loop ∧ a'.canvas = a.canvas ∧ a'.pid = a.pid
      ∧ a'.maxPrerenderedFrames = a.maxPrerenderedFrames
      ∧ a'.timeline.duration_ms = a.timeline.duration_ms ∧ a'.play = a.play
      ∧ a'.renderonce = a.renderonce := by
  have hmod : ∀ n : Nat, n % U16 < U16 := fun n => Nat.mod_lt _ (by unfold U16; omega)
  unfold advance at h
  cases hq : a.prerenderedFrames with
  | nil =>
    rw [hq] at h
    simp only at h
    by_cases hloop : a.loop = true
    · rw [if_pos hloop] at h
      have ht : a.frame.total ≠ 0 := by have := hl hloop; omega
      rw [if_neg ht] at h
      simp only [Option.some.injEq] at h
      subst h
      refine ⟨?_, ?_, ?_, ?_, rfl, rfl, rfl, rfl, rfl, rfl, rfl, rfl⟩
      · intro k f hk
        simp [hq] at hk
      · exact lt_trans (Nat.mod_lt _ (by omega)) hU
      · intro _; exact Nat.mod_lt _ (by omega)
      · simp
    · rw [if_neg hloop] at h
      simp only [Option.some.injEq] at h
      subst h
      refine ⟨?_, ?_, ?_, ?_, rfl, rfl, rfl, rfl, rfl, rfl, rfl, rfl⟩
      · intro k f hk
        simp [hq] at hk
      · exact hmod _
      · intro h; exact absurd h hloop
      · simp
  | cons e rest =>
    rw [hq] at h
    simp only at h
    obtain ⟨he, hlt⟩ := hQ 0 e (by simp [hq])
    have hrest : ∀ k f, rest.get? k = some f →
        f = { data := PixelData.rendered (expectedIndex a (k + 1)) a.canvas.width a.canvas.height,
              size := (a.canvas.width, a.canvas.height) }
          ∧ expectedIndex a (k + 1) < a.frame.total := by
      intro k f hk
      exact hQ (k + 1) f (by simpa [hq] using hk)
    by_cases hloop : a.loop = true
    · rw [if_pos hloop] at h
      have hcl := hl hloop
      have ht : a.frame.total ≠ 0 := by omega
      rw [if_neg ht] at h
      simp only [Option.some.injEq] at h
      subst h
      have he0 : expectedIndex a 0 = a.frame.current := by
        simp [expectedIndex, hloop, Nat.mod_eq_of_lt hcl]
      refine ⟨?_, ?_, ?_, ?_, rfl, rfl, rfl, rfl, rfl, rfl, rfl, rfl⟩
      · intro k f hk
        obtain ⟨h1, h2⟩ := hrest k f hk
        have hidx : expectedIndex a (k + 1)
            = ((a.frame.current + 1) % U16 % a.frame.total + k) % a.frame.total := by
          simp only [expectedIndex, hloop, if_true]
          rw [Nat.mod_eq_of_lt (a := a.frame.current + 1) (by unfold U16 at hU ⊢; omega)]
          rw [Nat.mod_add_mod]
          congr 1
          omega
        simp only [expectedIndex, hloop, if_true] at h1 h2 hidx ⊢
        rw [← hidx]
        exact ⟨h1, h2⟩
      · exact lt_trans (Nat.mod_lt _ (by omega)) hU
      · intro _; exact Nat.mod_lt _ (by omega)
      · simp only [reduceCtorEq, if_false]
        rw [he, he0]
    · rw [if_neg hloop] at h
      simp only [Option.some.injEq] at h
      subst h
      have he0 : expectedIndex a 0 = a.frame.current := by
        simp [expectedIndex, hloop]
      have hcl : a.frame.current < a.frame.total := by rw [← he0]; exact hlt
      refine ⟨?_, ?_, ?_, ?_, rfl, rfl, rfl, rfl, rfl, rfl, rfl, rfl⟩
      · intro k f hk
        obtain ⟨h1, h2⟩ := hrest k f hk
        have hidx : expectedIndex a (k + 1) = (a.frame.current + 1) % U16 + k := by
          simp only [expectedIndex, hloop]
          rw [Nat.mod_eq_of_lt (a := a.frame.current + 1) (by unfold U16 at hU ⊢; omega)]
          simp
          omega
        simp only [expectedIndex, hloop] at h1 h2 hidx ⊢
        simp only [Bool.false_eq_true, if_false] at h1 h2 hidx ⊢
        rw [← hidx]
        exact ⟨h1, h2⟩
      · exact hmod _
      · intro h; exact absurd h hloop
      · simp only [reduceCtorEq, if_false]
        rw [he, he0]

/-- One call of `render` is defined and keeps the queue consecutive; the frame
it moves into `currentFrame`, if any, was rendered for the value
`frame.current` had before the call. -/
theorem render_consecutive (a : LottieAnim) (curTime : Nat)
    (hU : a.frame.total < U16) (hd : 0 < a.timeline.duration_ms)
    (hc : a.frame.current < U16)
    (hl : a.loop = true → a.frame.current < a.frame.total)
    (hw : a.loop = true →
      (a.frame.total : Int) + max a.maxPrerenderedFrames DEFAULT_PRERENDERED_FRAMES ≤ 65536)
    (hQ : QueueConsecutive a) :
    ∃ b a', a.render curTime = some (b, a')
      ∧ QueueConsecutive a' ∧ a'.frame.current < U16
      ∧ (a'.loop = true → a'.frame.current < a'.frame.total)
      ∧ (a'.currentFrame = a.currentFrame
          ∨ a'.currentFrame
              = { pid := a.pid,
                  data := PixelData.rendered a.frame.current a.canvas.width a.canvas.height,
                  size := (a.canvas.width, a.canvas.height) })
      ∧ a'.frame.total = a.frame.total
      ∧ a'.loop = a.loop ∧ a'.canvas = a.canvas ∧ a'.pid = a.pid
      ∧ a'.maxPrerenderedFrames = a.maxPrerenderedFrames
      ∧ a'.timeline.duration_ms = a.timeline.duration_ms := by
  obtain ⟨b, a', h⟩ := render_some a curTime hd (fun h => by have := hl h; omega)
  refine ⟨b, a', h, ?_⟩
  rcases render_cases a a' curTime b h with ⟨-, rfl, -⟩ | ⟨-, rfl, -, -⟩ | ⟨-, -, -, -, hx⟩
  · exact ⟨hQ, hc, hl, Or.inl rfl, rfl, rfl, rfl, rfl, rfl, rfl⟩
  · exact ⟨hQ, hc, hl, Or.inl rfl, rfl, rfl, rfl, rfl, rfl, rfl⟩
  · have hQ1 : QueueConsecutive { a with renderonce := false } := hQ
    rcases hx with ⟨-, hp⟩ | ⟨-, a2, hadv, hp⟩
    · obtain ⟨q1, q2, q3, q4, q5, q6, q7, q8, -⟩ :=
        prerender_consecutive _ a' b hp hU hc hl hw hQ1
      refine ⟨q1, ?_, ?_, Or.inl q3, ?_, q4, q5, q6, q7, q8⟩
      · rw [q2]; exact hc
      · rw [q2, q4]; exact hl
      · rw [q2]
    · obtain ⟨r1, r2, r3, r4, r5, r6, r7, r8, r9, r10, -, -⟩ :=
        advance_consecutive _ a2 _ hadv hU hl hQ1
      have hw2 : a2.loop = true →
          (a2.frame.total : Int) + max a2.maxPrerenderedFrames DEFAULT_PRERENDERED_FRAMES
            ≤ 65536 := by
        rw [r5, r6, r9]; exact hw
      obtain ⟨q1, q2, q3, q4, q5, q6, q7, q8, -⟩ :=
        prerender_consecutive a2 a' b hp (by rw [r5]; exact hU) r2 r3 hw2 r1
      refine ⟨q1, ?_, ?_, ?_, ?_, q4.trans r6, q5.trans r7, q6.trans r8, q7.trans r9,
        q8.trans r10⟩
      · rw [q2]; exact r2
      · rw [q2, q4]; exact r3
      · rw [q3, r4]
        split
        · exact Or.inl rfl
        · exact Or.inr rfl
      · rw [q2]; exact r5

/-- A sequence of `render` calls is defined and keeps the queue
consecutive. -/
theorem renders_consecutive (times : List Nat) :
    ∀ a : LottieAnim, a.frame.total < U16 → 0 < a.timeline.duration_ms →
      a.frame.current < U16 → (a.loop = true → a.frame.current < a.frame.total) →
      (a.loop = true →
        (a.frame.total : Int) + max a.maxPrerenderedFrames DEFAULT_PRERENDERED_FRAMES ≤ 65536) →
      QueueConsecutive a →
      ∃ a', renders a times = some a' ∧ QueueConsecutive a'
        ∧ a'.frame.total < U16 ∧ 0 < a'.timeline.duration_ms ∧ a'.frame.current < U16
        ∧ (a'.loop = true → a'.frame.current < a'.frame.total)
        ∧ (a'.loop = true →
            (a'.frame.total : Int) + max a'.maxPrerenderedFrames DEFAULT_PRERENDERED_FRAMES
              ≤ 65536) := by
  induction times with
  | nil =>
    intro a hU hd hc hl hw hQ
    exact ⟨a, rfl, hQ, hU, hd, hc, hl, hw⟩
  | cons t rest ih =>
    intro a hU hd hc hl hw hQ
    obtain ⟨b, a1, hr, q1, q2, q3, -, q5, q6, -, -, q9, q10⟩ :=
      render_consecutive a t hU hd hc hl hw hQ
    have hw1 : a1.loop = true →
        (a1.frame.total : Int) + max a1.maxPrerenderedFrames DEFAULT_PRERENDERED_FRAMES
          ≤ 65536 := by
      rw [q5, q6, q9]; exact hw
    obtain ⟨a2, h2, rest2⟩ :=
      ih a1 (by rw [q5]; exact hU) (by rw [q10]; exact hd) q2 q3 hw1 q1
    refine ⟨a2, ?_, rest2⟩
    simp only [renders, hr, Option.bind_some]
    exact h2

/-- Claim C20, as amended. Start from a freshly loaded instance
(`frame.current = 0`, empty queue, `1 <= frame.total < 65536`) whose frame
duration is not zero and, when it loops, whose
`frame.total + max(maxPrerenderedFrames, 2)` is at most 65536. Every sequence
of `render` calls is defined, and after it the `k`-th entry of
`prerenderedFrames` was rendered for the frame index `frame.current + k`
(modulo `frame.total` when looping), an index below `frame.total`; and the
next call of `render` leaves `currentFrame` as it is or moves into it a frame
rendered for the value `frame.current` had before the call. -/
theorem prerender_queue_consecutive (a0 : LottieAnim) (times : List Nat) (curTime : Nat)
    (h0 : a0.frame.current = 0) (hq : a0.prerenderedFrames = [])
    (h1 : 1 ≤ a0.frame.total) (hU : a0.frame.total < U16)
    (hd : 0 < a0.timeline.duration_ms)
    (hw : a0.loop = true →
      (a0.frame.total : Int) + max a0.maxPrerenderedFrames DEFAULT_PRERENDERED_FRAMES ≤ 65536) :
    ∃ a, renders a0 times = some a
      ∧ QueueConsecutive a
      ∧ ∃ b a', a.render curTime = some (b, a')
          ∧ QueueConsecutive a'
          ∧ (a'.currentFrame = a.currentFrame
              ∨ a'.currentFrame
                  = { pid := a.pid,
                      data := PixelData.rendered a.frame.current a.canvas.width a.canvas.height,
                      size := (a.canvas.width, a.canvas.height) }) := by
  have hQ0 : QueueConsecutive a0 := by
    intro k f hk
    simp [hq] at hk
  obtain ⟨a, ha, q1, q2, q3, q4, q5, q6⟩ :=
    renders_consecutive times a0 hU hd (by rw [h0]; unfold U16; omega)
      (fun _ => by rw [h0]; omega) hw hQ0
  obtain ⟨b, a', hr, r1, -, -, r4, -⟩ := render_consecutive a curTime q2 q3 q4 q5 q6 q1
  exact ⟨a, ha, q1, b, a', hr, r1, r4⟩

/-- Claim C20, witness: the looping instance of ten frames after the calls
`render(0)`, `render(100)`, `render(200)`, and the call `render(300)`. -/
theorem prerender_queue_consecutive_witness :
    ∃ a, renders loopingAnim [0, 100, 200] = some a
      ∧ QueueConsecutive a
      ∧ ∃ b a', a.render 300 = some (b, a')
          ∧ QueueConsecutive a'
          ∧ (a'.currentFrame = a.currentFrame
              ∨ a'.currentFrame
                  = { pid := a.pid,
                      data := PixelData.rendered a.frame.current a.canvas.width a.canvas.height,
                      size := (a.canvas.width, a.canvas.height) }) :=
  prerender_queue_consecutive loopingAnim [0, 100, 200] 300 (by decide) (by decide) (by decide)
    (by decide) (by decide) (by decide)

/-- A sequence of `render` calls can be split in two. -/
theorem renders_append (l1 l2 : List Nat) :
    ∀ a : LottieAnim, renders a (l1 ++ l2) = (renders a l1).bind (fun a1 => renders a1 l2) := by
  induction l1 with
  | nil => intro a; rfl
  | cons t rest ih =>
    intro a
    simp only [List.cons_append, renders]
    cases h : a.render t with
    | none => rfl
    | some r => exact ih r.2

/-- One call `render(0)` on `deepQueueAnim` with a queue of `n <= 65536`
entries appends the entry for the frame index `(n % 65536) % 3`. -/
theorem deepQueue_render (n : Nat) (hn : n ≤ 65536) :
    (deepQueueAfter n).render 0
      = some (true, { deepQueueAfter n with
          prerenderedFrames := (deepQueueAfter n).prerenderedFrames
            ++ [deepQueueEntry (n % U16 % 3)] }) := by
  have hlen : ((deepQueueAfter n).prerenderedFrames.length : Int) ≤ 70000 := by
    simp only [deepQueueAfter, List.length_map, List.length_range]
    omega
  have hlt : n % U16 % 3 < 3 := Nat.mod_lt _ (by omega)
  simp only [LottieAnim.render, deepQueueAfter, deepQueueAnim, BAD_PICTUREID, sub32, U32,
    LottieAnim.prerender, DEFAULT_PRERENDERED_FRAMES, List.length_map, List.length_range,
    deepQueueEntry] at hlen ⊢
  simp [hlen, hlt]

/-- The queue of `deepQueueAnim` with `n + 1` entries is the queue with `n`
entries and the entry for the frame index `n % 3`. -/
theorem deepQueueAfter_succ (n : Nat) :
    deepQueueAfter (n + 1)
      = { deepQueueAfter n with
          prerenderedFrames := (deepQueueAfter n).prerenderedFrames ++ [deepQueueEntry (n % 3)] } := by
  simp [deepQueueAfter, List.range_succ]

/-- After `m` calls `render(0)`, the instance `deepQueueAnim` with a queue of
`n` entries has a queue of `n + m` entries, as long as `n + m <= 65536`. -/
theorem deepQueue_renders (m : Nat) :
    ∀ n, n + m ≤ 65536 →
      renders (deepQueueAfter n) (List.replicate m 0) = some (deepQueueAfter (n + m)) := by
  induction m with
  | zero => intro n _; rfl
  | succ m ih =>
    intro n hn
    have hmod : n % U16 = n := Nat.mod_eq_of_lt (by unfold U16; omega)
    simp only [List.replicate_succ, renders, deepQueue_render n (by omega), Option.some_bind,
      hmod]
    rw [← deepQueueAfter_succ, ih (n + 1) (by omega)]
    congr 2
    omega

/-- The 16-bit sum of `frame.current = 0` and the queue size 65536 is 0. -/
theorem deepQueue_wrapped_index : 65536 % U16 % 3 = 0 := by decide

/-- After 65536 calls `render(0)` the queue of `deepQueueAnim` has 65536
entries. -/
theorem deepQueue_full :
    renders (deepQueueAfter 0) (List.replicate 65536 0) = some (deepQueueAfter 65536) := by
  have := deepQueue_renders 65536 0 (by omega)
  simpa only [zero_add] using this

/-- The next call `render(0)` appends an entry rendered for the frame index
0. -/
theorem deepQueue_overflow_render :
    (deepQueueAfter 65536).render 0
      = some (true, { deepQueueAfter 65536 with
          prerenderedFrames := (deepQueueAfter 65536).prerenderedFrames
            ++ [deepQueueEntry 0] }) := by
  rw [deepQueue_render 65536 (by omega)]
  have hz : 65536 % U16 % 3 = 0 := deepQueue_wrapped_index
  rw [hz]

/-- The list of 65537 zeros is the list of 65536 zeros and one more. -/
theorem replicate_zeros_succ :
    List.replicate 65537 (0 : Nat) = List.replicate 65536 0 ++ [0] :=
  List.replicate_succ' 65536 0

/-- The first 65536 calls of the run. -/
theorem deepQueue_run_split :
    renders (deepQueueAfter 0) (List.replicate 65536 0 ++ [0])
      = (some (deepQueueAfter 65536)).bind (fun a1 => renders a1 [0]) := by
  rw [renders_append, deepQueue_full]

/-- The last call of the run. -/
theorem deepQueue_run_last :
    renders (deepQueueAfter 65536) [0]
      = some { deepQueueAfter 65536 with
          prerenderedFrames := (deepQueueAfter 65536).prerenderedFrames
            ++ [deepQueueEntry 0] } := by
  simp only [renders]
  rw [deepQueue_overflow_render]
  simp only [Option.some_bind]

/-- The last call of the run, after the first 65536. -/
theorem deepQueue_run_bind :
    (some (deepQueueAfter 65536)).bind (fun a1 => renders a1 [0])
      = some { deepQueueAfter 65536 with
          prerenderedFrames := (deepQueueAfter 65536).prerenderedFrames
            ++ [deepQueueEntry 0] } := by
  rw [Option.some_bind]
  exact deepQueue_run_last

/-- The run of 65537 calls `render(0)` on `deepQueueAnim`. -/
theorem deepQueue_run :
    renders (deepQueueAfter 0) (List.replicate 65537 0)
      = some { deepQueueAfter 65536 with
          prerenderedFrames := (deepQueueAfter 65536).prerenderedFrames
            ++ [deepQueueEntry 0] } := by
  rw [replicate_zeros_succ]
  exact deepQueue_run_split.trans deepQueue_run_bind

/-- The entry of index 65536 after the run. -/
theorem deepQueue_last :
    ((deepQueueAfter 65536).prerenderedFrames ++ [deepQueueEntry 0]).get? 65536
      = some (deepQueueEntry 0) := by
  have hlen : (deepQueueAfter 65536).prerenderedFrames.length = 65536 := by
    simp only [deepQueueAfter, List.length_map, List.length_range]
  have h := List.getElem?_concat_length (deepQueueAfter 65536).prerenderedFrames
    (deepQueueEntry 0)
  rw [hlen] at h
  rw [List.get?_eq_getElem?]
  exact h

/-- Claim C20, as stated, fails. The looping instance `deepQueueAnim` is
freshly loaded (`frame.current = 0`, empty queue, `frame.total = 3`). After
65537 calls `render(0)` the entry of index 65536 of its queue was rendered
for the frame index 0, while `frame.current + 65536` modulo `frame.total` is
1: the 16-bit sum `frame.current + size` has wrapped. -/
theorem prerender_queue_wraps :
    deepQueueAnim.frame.current = 0 ∧ deepQueueAnim.prerenderedFrames = []
      ∧ 1 ≤ deepQueueAnim.frame.total
      ∧ ∃ a, renders deepQueueAnim (List.replicate 65537 0) = some a
          ∧ a.loop = true ∧ a.frame.current = 0 ∧ a.frame.total = 3
          ∧ a.prerenderedFrames.get? 65536 = some (deepQueueEntry 0)
          ∧ expectedIndex a 65536 = 1
          ∧ ¬ QueueConsecutive a := by
  refine ⟨rfl, rfl, by decide, ?_⟩
  have h0 : deepQueueAnim = deepQueueAfter 0 := rfl
  have hidx : expectedIndex ({ deepQueueAfter 65536 with
      prerenderedFrames := (deepQueueAfter 65536).prerenderedFrames
        ++ [deepQueueEntry 0] } : LottieAnim) 65536 = 1 := by
    simp [expectedIndex, deepQueueAfter, deepQueueAnim]
  rw [h0]
  refine ⟨_, deepQueue_run, rfl, rfl, rfl, ?_, hidx, ?_⟩
  · dsimp only
    exact deepQueue_last
  intro hQ
  unfold QueueConsecutive at hQ
  dsimp only at hQ
  have h1 := (hQ 65536 (deepQueueEntry 0) deepQueue_last).1
  rw [hidx] at h1
  simp [deepQueueEntry] at h1

/-! ### Run-list algebra (C16) -/

namespace VRle

/-- The union sweep with the empty list on the right. -/
theorem sweepAdd_nil_right (as : List Pixel) : sweepAdd as [] = as := by
  cases as <;> simp [sweepAdd]

/-- The union sweep of a list with itself is the list. -/
theorem sweepAdd_self (as : List Pixel) : sweepAdd as as = as := by
  induction as with
  | nil => simp [sweepAdd]
  | cons a as ih => simp [sweepAdd, ih]

/-- The union sweep does not depend on the order of its arguments. -/
theorem sweepAdd_comm (as : List Pixel) : ∀ bs, sweepAdd as bs = sweepAdd bs as := by
  induction as with
  | nil => intro bs; rw [sweepAdd_nil_right]; simp [sweepAdd]
  | cons a as iha =>
    intro bs
    induction bs with
    | nil => simp [sweepAdd]
    | cons b bs ihb =>
      rw [sweepAdd, sweepAdd]
      rcases lt_trichotomy a b with h | h | h
      · rw [if_pos h, if_neg (lt_asymm h), if_pos h, iha]
      · subst h
        simp only [lt_irrefl, if_false]
        rw [iha]
      · rw [if_neg (lt_asymm h), if_pos h, if_pos h, ihb]

/-- The members of a union sweep. -/
theorem mem_sweepAdd (x : Pixel) (as : List Pixel) :
    ∀ bs, x ∈ sweepAdd as bs ↔ x ∈ as ∨ x ∈ bs := by
  induction as with
  | nil => intro bs; simp [sweepAdd]
  | cons a as iha =>
    intro bs
    induction bs with
    | nil => simp [sweepAdd]
    | cons b bs ihb =>
      rw [sweepAdd]
      rcases lt_trichotomy a b with h | h | h
      · rw [if_pos h]
        simp only [List.mem_cons, iha]
        tauto
      · subst h
        rw [if_neg (lt_irrefl _), if_neg (lt_irrefl _)]
        simp only [List.mem_cons, iha]
        tauto
      · rw [if_neg (lt_asymm h), if_pos h]
        simp only [List.mem_cons] at ihb ⊢
        rw [ihb]
        tauto

/-- The union sweep of two sorted lists is sorted. -/
theorem sorted_sweepAdd (as : List Pixel) :
    ∀ bs, as.Sorted (fun p q => p < q) → bs.Sorted (fun p q => p < q) →
      (sweepAdd as bs).Sorted (fun p q => p < q) := by
  induction as with
  | nil => intro bs _ hb; simpa [sweepAdd] using hb
  | cons a as iha =>
    intro bs
    induction bs with
    | nil => intro ha _; simpa [sweepAdd] using ha
    | cons b bs ihb =>
      intro ha hb
      have ha2 := List.sorted_cons.mp ha
      have hb2 := List.sorted_cons.mp hb
      rw [sweepAdd]
      rcases lt_trichotomy a b with h | h | h
      · rw [if_pos h]
        refine List.sorted_cons.mpr ⟨?_, iha _ ha2.2 hb⟩
        intro x hx
        rcases (mem_sweepAdd x as (b :: bs)).mp hx with hx | hx
        · exact ha2.1 x hx
        · rcases List.mem_cons.mp hx with hx | hx
          · rw [hx]; exact h
          · exact lt_trans h (hb2.1 x hx)
      · subst h
        rw [if_neg (lt_irrefl _), if_neg (lt_irrefl _)]
        refine List.sorted_cons.mpr ⟨?_, iha _ ha2.2 hb2.2⟩
        intro x hx
        rcases (mem_sweepAdd x as bs).mp hx with hx | hx
        · exact ha2.1 x hx
        · exact hb2.1 x hx
      · rw [if_neg (lt_asymm h), if_pos h]
        refine List.sorted_cons.mpr ⟨?_, ihb ha hb2.2⟩
        intro x hx
        rcases (mem_sweepAdd x (a :: as) bs).mp hx with hx | hx
        · rcases List.mem_cons.mp hx with hx | hx
          · rw [hx]; exact h
          · exact lt_trans h (ha2.1 x hx)
        · exact hb2.1 x hx

/-- The members of an intersection sweep of two sorted lists. -/
theorem mem_sweepIntersect (x : Pixel) (as : List Pixel) :
    ∀ bs, as.Sorted (fun p q => p < q) → bs.Sorted (fun p q => p < q) →
      (x ∈ sweepIntersect as bs ↔ x ∈ as ∧ x ∈ bs) := by
  induction as with
  | nil => intro bs _ _; simp [sweepIntersect]
  | cons a as iha =>
    intro bs
    induction bs with
    | nil => intro _ _; simp [sweepIntersect]
    | cons b bs ihb =>
      intro ha hb
      have ha2 := List.sorted_cons.mp ha
      have hb2 := List.sorted_cons.mp hb
      rw [sweepIntersect]
      rcases lt_trichotomy a b with h | h | h
      · rw [if_pos h, iha _ ha2.2 hb]
        simp only [List.mem_cons]
        constructor
        · rintro ⟨h1, h2⟩; exact ⟨Or.inr h1, h2⟩
        · rintro ⟨h1 | h1, h2⟩
          · exfalso
            subst h1
            rcases h2 with h2 | h2
            · exact lt_irrefl _ (h2 ▸ h)
            · exact lt_asymm h (hb2.1 x h2)
          · exact ⟨h1, h2⟩
      · subst h
        rw [if_neg (lt_irrefl _), if_neg (lt_irrefl _)]
        simp only [List.mem_cons, iha _ ha2.2 hb2.2]
        constructor
        · rintro (h1 | ⟨h1, h2⟩)
          · exact ⟨Or.inl h1, Or.inl h1⟩
          · exact ⟨Or.inr h1, Or.inr h2⟩
        · rintro ⟨h1 | h1, h2 | h2⟩
          · exact Or.inl h1
          · exact Or.inl h1
          · exact Or.inl h2
          · exact Or.inr ⟨h1, h2⟩
      · rw [if_neg (lt_asymm h), if_pos h, ihb ha hb2.2]
        simp only [List.mem_cons]
        constructor
        · rintro ⟨h1, h2⟩; exact ⟨h1, Or.inr h2⟩
        · rintro ⟨h1, h2 | h2⟩
          · exfalso
            subst h2
            rcases h1 with h1 | h1
            · exact lt_irrefl _ (h1 ▸ h)
            · exact lt_asymm h (ha2.1 x h1)
          · exact ⟨h1, h2⟩

/-- The intersection sweep keeps the order of its first argument. -/
theorem sublist_sweepIntersect (as : List Pixel) :
    ∀ bs, (sweepIntersect as bs).Sublist as := by
  induction as with
  | nil => intro bs; simp [sweepIntersect]
  | cons a as iha =>
    intro bs
    induction bs with
    | nil => simp [sweepIntersect]
    | cons b bs ihb =>
      rw [sweepIntersect]
      split
      · exact List.Sublist.cons _ (iha _)
      · split
        · exact ihb
        · exact List.Sublist.cons₂ _ (iha _)

/-- The members of a subtraction sweep of two sorted lists. -/
theorem mem_sweepSubstract (x : Pixel) (as : List Pixel) :
    ∀ bs, as.Sorted (fun p q => p < q) → bs.Sorted (fun p q => p < q) →
      (x ∈ sweepSubstract as bs ↔ x ∈ as ∧ x ∉ bs) := by
  induction as with
  | nil => intro bs _ _; simp [sweepSubstract]
  | cons a as iha =>
    intro bs
    induction bs with
    | nil => intro _ _; simp [sweepSubstract]
    | cons b bs ihb =>
      intro ha hb
      have ha2 := List.sorted_cons.mp ha
      have hb2 := List.sorted_cons.mp hb
      rw [sweepSubstract]
      rcases lt_trichotomy a b with h | h | h
      · rw [if_pos h]
        simp only [List.mem_cons, iha _ ha2.2 hb, not_or]
        constructor
        · rintro (h1 | ⟨h1, h2, h3⟩)
          · subst h1
            refine ⟨Or.inl rfl, ne_of_lt h, ?_⟩
            intro hm
            exact lt_asymm h (hb2.1 x hm)
          · exact ⟨Or.inr h1, h2, h3⟩
        · rintro ⟨h1 | h1, h2, h3⟩
          · exact Or.inl h1
          · exact Or.inr ⟨h1, h2, h3⟩
      · subst h
        rw [if_neg (lt_irrefl _), if_neg (lt_irrefl _), iha _ ha2.2 hb2.2]
        simp only [List.mem_cons, not_or]
        constructor
        · rintro ⟨h1, h2⟩
          exact ⟨Or.inr h1, ne_of_gt (ha2.1 x h1), h2⟩
        · rintro ⟨h1 | h1, h2, h3⟩
          · exact absurd h1 h2
          · exact ⟨h1, h3⟩
      · rw [if_neg (lt_asymm h), if_pos h, ihb ha hb2.2]
        simp only [List.mem_cons, not_or]
        constructor
        · rintro ⟨h1, h2⟩
          refine ⟨h1, ?_, h2⟩
          rcases h1 with h1 | h1
          · rw [h1]; exact ne_of_gt h
          · exact ne_of_gt (lt_trans h (ha2.1 x h1))
        · rintro ⟨h1, -, h3⟩
          exact ⟨h1, h3⟩

/-- The subtraction sweep keeps the order of its first argument. -/
theorem sublist_sweepSubstract (as : List Pixel) :
    ∀ bs, (sweepSubstract as bs).Sublist as := by
  induction as with
  | nil => intro bs; simp [sweepSubstract]
  | cons a as iha =>
    intro bs
    induction bs with
    | nil => simp [sweepSubstract]
    | cons b bs ihb =>
      rw [sweepSubstract]
      split
      · exact List.Sublist.cons₂ _ (iha _)
      · split
        · exact ihb
        · exact List.Sublist.cons _ (iha _)

end VRle

namespace VRle

/-- The pixels of the runs of a pixel list are the pixel list. -/
theorem pixels_encode (ps : List Pixel) : ({ mSpans := encode ps } : VRle).pixels = ps := by
  induction ps with
  | nil => simp [encode, pixels]
  | cons p ps ih =>
    have hp : toLex ((ofLex p).1, (ofLex p).2) = p := rfl
    have hr1 : List.range 1 = [0] := rfl
    unfold pixels at ih ⊢
    simp only at ih ⊢
    rw [encode]
    cases he : encode ps with
    | nil =>
      rw [he] at ih
      simp only [List.map_nil, List.flatten_nil] at ih
      simp [Span.pixels, ← ih, hp, hr1]
    | cons s ss =>
      rw [he] at ih
      simp only [List.map_cons, List.flatten_cons] at ih
      simp only
      split
      · rename_i hadj
        simp only [List.map_cons, List.flatten_cons]
        rw [← ih]
        simp only [Span.pixels, List.range_succ_eq_map, List.map_cons, List.map_map,
          List.cons_append, Nat.cast_zero, add_zero, hp, List.cons.injEq, true_and]
        congr 1
        apply List.map_congr_left
        intro i _
        simp only [Function.comp, hadj.1, hadj.2, Nat.succ_eq_add_one, Nat.cast_add,
          Nat.cast_one]
        congr 2
        ring
      · simp only [List.map_cons, List.flatten_cons]
        rw [← ih]
        simp [Span.pixels, hp, hr1]

/-- The pixels of a union are the union sweep of the pixels. -/
theorem pixels_add (a o : VRle) : (a.add o).pixels = sweepAdd a.pixels o.pixels := by
  unfold add
  by_cases ha : a.empty = true
  · rw [if_pos ha]
    have : a.pixels = [] := by
      simp only [empty, List.isEmpty_iff] at ha
      simp [pixels, ha]
    rw [this]
    simp [sweepAdd]
  · rw [if_neg ha]
    by_cases ho : o.empty = true
    · rw [if_pos ho]
      have : o.pixels = [] := by
        simp only [empty, List.isEmpty_iff] at ho
        simp [pixels, ho]
      rw [this, sweepAdd_nil_right]
    · rw [if_neg ho]
      exact pixels_encode _

/-- The pixels of an intersection are the intersection sweep of the pixels. -/
theorem pixels_and (a o : VRle) : (a.and o).pixels = sweepIntersect a.pixels o.pixels := by
  unfold VRle.and
  by_cases ha : a.empty = true
  · have : a.pixels = [] := by
      simp only [empty, List.isEmpty_iff] at ha
      simp [pixels, ha]
    rw [if_pos (by simp [ha]), this]
    simp [sweepIntersect, pixels]
  · by_cases ho : o.empty = true
    · have : o.pixels = [] := by
        simp only [empty, List.isEmpty_iff] at ho
        simp [pixels, ho]
      rw [if_pos (by simp [ho]), this]
      cases a.pixels <;> simp [sweepIntersect, pixels]
    · rw [if_neg (by simp [ha, ho])]
      exact pixels_encode _

/-- The pixels of a subtraction are the subtraction sweep of the pixels. -/
theorem pixels_sub (a o : VRle) : (a.sub o).pixels = sweepSubstract a.pixels o.pixels := by
  unfold sub
  by_cases ha : a.empty = true
  · rw [if_pos ha]
    have : a.pixels = [] := by
      simp only [empty, List.isEmpty_iff] at ha
      simp [pixels, ha]
    rw [this]
    simp [sweepSubstract, pixels]
  · rw [if_neg ha]
    by_cases ho : o.empty = true
    · rw [if_pos ho]
      have : o.pixels = [] := by
        simp only [empty, List.isEmpty_iff] at ho
        simp [pixels, ho]
      rw [this]
      cases a.pixels <;> simp [sweepSubstract]
    · rw [if_neg ho]
      exact pixels_encode _

end VRle

namespace VRle

/-- Two sorted pixel lists with the same members are equal. -/
theorem sorted_ext (as bs : List Pixel) (ha : as.Sorted (fun p q => p < q))
    (hb : bs.Sorted (fun p q => p < q)) (h : ∀ x, x ∈ as ↔ x ∈ bs) : as = bs :=
  List.eq_of_perm_of_sorted ((List.perm_ext_iff_of_nodup ha.nodup hb.nodup).mpr h) ha hb

/-- The partition law of the sweeps on sorted pixel lists. -/
theorem sweep_partition (as bs : List Pixel) (ha : as.Sorted (fun p q => p < q))
    (hb : bs.Sorted (fun p q => p < q)) :
    sweepAdd (sweepAdd (sweepIntersect as bs) (sweepSubstract as bs)) (sweepSubstract bs as)
      = sweepAdd as bs := by
  have s1 : (sweepIntersect as bs).Sorted (fun p q => p < q) :=
    List.Pairwise.sublist (sublist_sweepIntersect as bs) ha
  have s2 : (sweepSubstract as bs).Sorted (fun p q => p < q) :=
    List.Pairwise.sublist (sublist_sweepSubstract as bs) ha
  have s3 : (sweepSubstract bs as).Sorted (fun p q => p < q) :=
    List.Pairwise.sublist (sublist_sweepSubstract bs as) hb
  apply sorted_ext _ _ (sorted_sweepAdd _ _ (sorted_sweepAdd _ _ s1 s2) s3)
    (sorted_sweepAdd _ _ ha hb)
  intro x
  rw [mem_sweepAdd, mem_sweepAdd, mem_sweepAdd, mem_sweepIntersect x as bs ha hb,
    mem_sweepSubstract x as bs ha hb, mem_sweepSubstract x bs as hb ha]
  tauto

end VRle

/-- The run list `rowRle` is valid. -/
theorem rowRle_valid : VRle.Valid rowRle := by
  unfold VRle.Valid
  decide

/-- The run list `stepRle` is valid. -/
theorem stepRle_valid : VRle.Valid stepRle := by
  unfold VRle.Valid
  decide

/-- Claim C16, on the span sets (the pixels that the runs cover). For all
valid run lists `A` and `B`: the union is idempotent, `A + A` covers the
pixels of `A`; it is commutative, `A + B` and `B + A` are the same run list;
the partition law holds, `(A & B) + (A - B) + (B - A)` covers the pixels of
`A + B`; and `A + B` is valid. -/
theorem run_list_algebra (a b : VRle) (ha : VRle.Valid a) (hb : VRle.Valid b) :
    (a.add a).pixels = a.pixels
      ∧ a.add b = b.add a
      ∧ (((a.and b).add (a.sub b)).add (b.sub a)).pixels = (a.add b).pixels
      ∧ VRle.Valid (a.add b) := by
  refine ⟨?_, ?_, ?_, ?_⟩
  · rw [VRle.pixels_add, VRle.sweepAdd_self]
  · unfold VRle.add
    by_cases h1 : a.empty = true
    · by_cases h2 : b.empty = true
      · rw [if_pos h1, if_pos h2]
        cases a with
        | mk sa =>
          cases b with
          | mk sb =>
            simp only [VRle.empty, List.isEmpty_iff] at h1 h2
            rw [h1, h2]
      · rw [if_pos h1, if_neg h2, if_pos h1]
    · by_cases h2 : b.empty = true
      · rw [if_neg h1, if_pos h2, if_pos h2]
      · rw [if_neg h1, if_neg h2, if_neg h2, if_neg h1]
        unfold VRle.opGeneric
        rw [VRle.sweepAdd_comm]
  · rw [VRle.pixels_add, VRle.pixels_add, VRle.pixels_and, VRle.pixels_sub, VRle.pixels_sub,
      VRle.pixels_add]
    exact VRle.sweep_partition _ _ ha hb
  · unfold VRle.Valid
    rw [VRle.pixels_add]
    exact VRle.sorted_sweepAdd _ _ ha hb

/-- Claim C16, witness: the run of the pixels (0, 0) to (0, 3) and the runs of
the pixels (0, 2) to (0, 5) and (1, 0). -/
theorem run_list_algebra_witness :
    VRle.Valid rowRle ∧ VRle.Valid stepRle
      ∧ (rowRle.add rowRle).pixels = rowRle.pixels
      ∧ rowRle.add stepRle = stepRle.add rowRle
      ∧ (((rowRle.and stepRle).add (rowRle.sub stepRle)).add (stepRle.sub rowRle)).pixels
          = (rowRle.add stepRle).pixels
      ∧ VRle.Valid (rowRle.add stepRle) :=
  ⟨rowRle_valid, stepRle_valid, run_list_algebra rowRle stepRle rowRle_valid stepRle_valid⟩

/-! ### Inactive and finished instances (C21) -/

/-- The prerender half of `render` does not write `renderonce`, `play` or
`pid`. -/
theorem prerender_flags (a a' : LottieAnim) (b : Bool) (h : a.prerender = some (b, a')) :
    a'.renderonce = a.renderonce ∧ a'.play = a.play ∧ a'.pid = a.pid := by
  rcases prerender_cases a a' b h with ⟨-, rfl⟩ | ⟨-, -, i, -, -, rfl⟩
  · exact ⟨rfl, rfl, rfl⟩
  · exact ⟨rfl, rfl, rfl⟩

/-- A call of `render` that passes the gate `pid != BAD_PICTUREID`,
`play || renderonce` leaves `renderonce` false and keeps `play` and `pid`. -/
theorem render_clears_renderonce (a a' : LottieAnim) (curTime : Nat) (b : Bool)
    (h : a.render curTime = some (b, a')) (hpid : a.pid ≠ BAD_PICTUREID)
    (hplay : a.play = true ∨ a.renderonce = true) :
    a'.renderonce = false ∧ a'.play = a.play ∧ a'.pid = a.pid := by
  rcases render_cases a a' curTime b h with hc | hc | ⟨-, -, -, -, hc | ⟨-, a2, h2, h3⟩⟩
  · rcases hc.2.2 with h1 | h1
    · exact absurd h1 hpid
    · exact absurd hplay h1
  · rw [hc.2.1]
    exact ⟨rfl, rfl, rfl⟩
  · obtain ⟨q1, q2, q3⟩ := prerender_flags _ _ _ hc.2
    exact ⟨q1, q2, q3⟩
  · obtain ⟨q1, q2, q3⟩ := prerender_flags _ _ _ h3
    obtain ⟨hs, hr, -⟩ := advance_spec _ _ _ h2
    exact ⟨q1.trans hr, q2.trans hs.2.2.2.1, q3.trans hs.1⟩

/-- Claim C21. A call of `render` returns false and changes no field when
`pid == BAD_PICTUREID` or neither `play` nor `renderonce` is set; for a
non-looping instance with `frame.current > frame.total` it returns false and
leaves `timeline`, `frame`, `prerenderedFrames` and `currentFrame` unchanged.
A call that passes the gate and returns leaves `renderonce` false, and it
returns when the frame duration is positive and a looping instance has a
frame. With `play` false, the call after one that passed the gate changes
nothing: a `SETUP_RENDER` command, which sets `renderonce` of the instance
with its id, permits one tick. -/
theorem render_gate (E : Env) (a : LottieAnim) (curTime : Nat) :
    ((a.pid = BAD_PICTUREID ∨ ¬(a.play = true ∨ a.renderonce = true)) →
        a.render curTime = some (false, a))
      ∧ (a.loop = false → a.frame.total < a.frame.current →
          ∃ a', a.render curTime = some (false, a') ∧ a'.timeline = a.timeline
            ∧ a'.frame = a.frame ∧ a'.prerenderedFrames = a.prerenderedFrames
            ∧ a'.currentFrame = a.currentFrame)
      ∧ (a.pid ≠ BAD_PICTUREID → (a.play = true ∨ a.renderonce = true) →
          ∀ b a', a.render curTime = some (b, a') → a'.renderonce = false)
      ∧ (a.pid ≠ BAD_PICTUREID → (a.play = true ∨ a.renderonce = true) →
          0 < a.timeline.duration_ms → (a.loop = true → 0 < a.frame.total) →
          ∃ b a', a.render curTime = some (b, a') ∧ a'.renderonce = false)
      ∧ (a.pid ≠ BAD_PICTUREID → a.play = false → a.renderonce = true →
          ∀ b a', a.render curTime = some (b, a') →
            ∀ t2, a'.render t2 = some (false, a'))
      ∧ (∀ (key : Nat) (cmd : LottieRenderCommand),
          cmd.type = LottieRenderCommand.SETUP_RENDER → cmd.pid = a.pid →
          resolveCommand E { animations := [(key, a)] } cmd
            = some { animations := [(key, { a with renderonce := cmd.render })] }) := by
  refine ⟨?_, ?_, ?_, ?_, ?_, ?_⟩
  · intro hg
    unfold LottieAnim.render
    rw [if_pos hg]
  · intro hl hf
    unfold LottieAnim.render
    by_cases hg : a.pid = BAD_PICTUREID ∨ ¬(a.play = true ∨ a.renderonce = true)
    · rw [if_pos hg]
      exact ⟨a, rfl, rfl, rfl, rfl, rfl⟩
    · rw [if_neg hg]
      simp only
      rw [if_pos ⟨hl, hf⟩]
      exact ⟨_, rfl, rfl, rfl, rfl, rfl⟩
  · intro hpid hplay b a' h
    exact (render_clears_renderonce a a' curTime b h hpid hplay).1
  · intro hpid hplay hd ht
    obtain ⟨b, a', h⟩ := render_some a curTime hd ht
    exact ⟨b, a', h, (render_clears_renderonce a a' curTime b h hpid hplay).1⟩
  · intro hpid hp hr b a' h t2
    obtain ⟨q1, q2, -⟩ := render_clears_renderonce a a' curTime b h hpid (Or.inr hr)
    unfold LottieAnim.render
    rw [if_pos (Or.inr (by rw [q1, q2, hp]; simp))]
  · intro key cmd hty hpid
    rw [resolveCommand_setup_render E _ cmd hty]
    simp [modifyFirst, hpid]

/-- Claim C21, witness: the idle instance with a render-once request ticks
once at time 0 (the call returns true and clears `renderonce`), and the call
at time 100 changes nothing. -/
theorem render_gate_witness :
    ∃ a', renderOnceAnim.render 0 = some (true, a') ∧ a'.renderonce = false
      ∧ a'.render 100 = some (false, a') := by
  have h := render_gate sampleEnv renderOnceAnim 0
  have hr : (renderOnceAnim.render 0).map (fun r => r.1) = some true := by decide
  cases hx : renderOnceAnim.render 0 with
  | none => rw [hx] at hr; exact absurd hr (by simp)
  | some r =>
    obtain ⟨b, a'⟩ := r
    rw [hx] at hr
    simp only [Option.map_some', Option.some.injEq] at hr
    subst hr
    exact ⟨a', rfl, h.2.2.1 (by decide) (by decide) true a' hx,
      h.2.2.2.2.1 (by decide) (by decide) (by decide) true a' hx 100⟩

/-! ### Timeline bookkeeping (C22) -/

/-- The prerender half of `render` does not write the timeline. -/
theorem prerender_timeline (a a' : LottieAnim) (b : Bool) (h : a.prerender = some (b, a')) :
    a'.timeline = a.timeline := by
  rcases prerender_cases a a' b h with ⟨-, rfl⟩ | ⟨-, -, i, -, -, rfl⟩
  · rfl
  · rfl

/-- The `uint32_t` difference of two `uint32_t` values in order is the
difference. -/
theorem sub32_of_le (c l : Nat) (hc : c < U32) (hle : l ≤ c) : sub32 c l = c - l := by
  unfold sub32
  have hl : l < U32 := lt_of_le_of_lt hle hc
  rw [Nat.mod_eq_of_lt hc, Nat.mod_eq_of_lt hl]
  have : c + U32 - l = (c - l) + U32 := by omega
  rw [this, Nat.add_mod_right, Nat.mod_eq_of_lt (by omega)]

/-- Claim C22, as amended. For an active instance (valid pid, play or
renderonce set) that is looping with at least one frame or has
`frame.current` not above `frame.total`, with `timeline.duration_ms = d > 0`
and `timeline.last_ms <= curTime` (both `uint32_t`), the call `render(curTime)`
is defined and the new `last_ms` is the old one plus
`floor((curTime - last_ms) / d) * d`: it is congruent to the old value modulo
`d`, it is at most `curTime`, `curTime - last_ms < d` afterwards, and neither
the product nor the sum exceeds the 32-bit range. -/
theorem render_timeline_remainder (a : LottieAnim) (curTime : Nat)
    (hpid : a.pid ≠ BAD_PICTUREID) (hplay : a.play = true ∨ a.renderonce = true)
    (hgate : a.loop = true ∨ a.frame.current ≤ a.frame.total)
    (hd : 0 < a.timeline.duration_ms) (ht : a.loop = true → 0 < a.frame.total)
    (hc : curTime < U32) (hle : a.timeline.last_ms ≤ curTime) :
    ∃ b a', a.render curTime = some (b, a')
      ∧ a'.timeline.duration_ms = a.timeline.duration_ms
      ∧ a'.timeline.last_ms
          = a.timeline.last_ms
            + (curTime - a.timeline.last_ms) / a.timeline.duration_ms * a.timeline.duration_ms
      ∧ a'.timeline.last_ms % a.timeline.duration_ms
          = a.timeline.last_ms % a.timeline.duration_ms
      ∧ a'.timeline.last_ms ≤ curTime
      ∧ curTime - a'.timeline.last_ms < a.timeline.duration_ms
      ∧ (curTime - a.timeline.last_ms) / a.timeline.duration_ms * a.timeline.duration_ms < U32
      ∧ a.timeline.last_ms
          + (curTime - a.timeline.last_ms) / a.timeline.duration_ms * a.timeline.duration_ms
            < U32 := by
  obtain ⟨b, a', h⟩ := render_some a curTime hd ht
  have hsub := sub32_of_le curTime a.timeline.last_ms hc hle
  have hmul : (curTime - a.timeline.last_ms) / a.timeline.duration_ms * a.timeline.duration_ms
      ≤ curTime - a.timeline.last_ms := Nat.div_mul_le_self _ _
  have hrem : curTime - a.timeline.last_ms
      - (curTime - a.timeline.last_ms) / a.timeline.duration_ms * a.timeline.duration_ms
        < a.timeline.duration_ms := by
    have h1 := Nat.mod_lt (curTime - a.timeline.last_ms) hd
    have h2 := Nat.div_add_mod (curTime - a.timeline.last_ms) a.timeline.duration_ms
    rw [Nat.mul_comm] at h2
    omega
  have hlast : a'.timeline.duration_ms = a.timeline.duration_ms
      ∧ a'.timeline.last_ms
        = a.timeline.last_ms
          + (curTime - a.timeline.last_ms) / a.timeline.duration_ms
            * a.timeline.duration_ms := by
    rcases render_cases a a' curTime b h with hx | hx | ⟨-, -, -, -, hx | ⟨-, a2, h2, h3⟩⟩
    · rcases hx.2.2 with h1 | h1
      · exact absurd h1 hpid
      · exact absurd hplay h1
    · rcases hgate with hg | hg
      · rw [hg] at hx; exact absurd hx.2.2.1 (by simp)
      · have := hx.2.2.2; omega
    · have hz := hx.1
      rw [hsub] at hz
      rw [prerender_timeline _ _ _ hx.2, hz]
      simp
    · have hs := advance_spec _ _ _ h2
      rw [prerender_timeline _ _ _ h3]
      refine ⟨hs.1.2.2.2.2.2.2, ?_⟩
      rw [hs.2.2.2.2, hsub]
      exact Nat.mod_eq_of_lt (by simp only; omega)
  refine ⟨b, a', h, hlast.1, hlast.2, ?_, ?_, ?_, ?_, ?_⟩
  · rw [hlast.2, Nat.add_mul_mod_self_right]
  · rw [hlast.2]; omega
  · rw [hlast.2]; omega
  · omega
  · omega

/-- Claim C22, witness: the instance of the pipeline scenario at time 250. -/
theorem render_timeline_remainder_witness :
    ∃ b a', scenarioAnim.render 250 = some (b, a')
      ∧ a'.timeline.duration_ms = scenarioAnim.timeline.duration_ms
      ∧ a'.timeline.last_ms
          = scenarioAnim.timeline.last_ms
            + (250 - scenarioAnim.timeline.last_ms) / scenarioAnim.timeline.duration_ms
              * scenarioAnim.timeline.duration_ms
      ∧ a'.timeline.last_ms % scenarioAnim.timeline.duration_ms
          = scenarioAnim.timeline.last_ms % scenarioAnim.timeline.duration_ms
      ∧ a'.timeline.last_ms ≤ 250
      ∧ 250 - a'.timeline.last_ms < scenarioAnim.timeline.duration_ms
      ∧ (250 - scenarioAnim.timeline.last_ms) / scenarioAnim.timeline.duration_ms
          * scenarioAnim.timeline.duration_ms < U32
      ∧ scenarioAnim.timeline.last_ms
          + (250 - scenarioAnim.timeline.last_ms) / scenarioAnim.timeline.duration_ms
            * scenarioAnim.timeline.duration_ms < U32 :=
  render_timeline_remainder scenarioAnim 250 (by decide) (by decide) (by decide) (by decide)
    (by decide) (by decide) (by decide)

/-- Claim C22, as stated, fails for a finished instance. After the calls
`render(0)`, `render(100)`, `render(200)` the non-looping instance
`oneFrameAnim` is active (pid 7, playing), has `frame.current = 2` above
`frame.total = 1`, `duration_ms = 100` and `last_ms = 200`; the call
`render(1000)` returns false and leaves `last_ms = 200`, not
`200 + floor(800 / 100) * 100 = 1000`, so `curTime - last_ms = 800` is not
below `duration_ms`. -/
theorem finished_instance_keeps_last_ms :
    (renders oneFrameAnim [0, 100, 200]).bind (fun a =>
        (a.render 1000).map (fun r =>
          (a.pid, a.play, a.loop, a.frame, a.timeline, r.1, r.2.timeline)))
      = some (7, true, false, { current := 2, total := 1 },
          { duration_ms := 100, last_ms := 200 }, false,
          { duration_ms := 100, last_ms := 200 }) := by
  rfl

/-! ### Division by zero in the tick (C23) -/

/-- A call of `load` that returns true with a custom rate between 1 and 1000
leaves a frame duration of at least 1 ms and a frame count of at least 1. -/
theorem load_duration_pos (E : Env) (a : LottieAnim) (path : Option String) (w h : Int)
    (l p : Bool) (n rate : Int) (pid : Nat) (r : LottieAnim)
    (hok : LottieAnim.load E a path w h l p n rate pid = some (true, r))
    (hr : 0 < rate) (hr2 : rate ≤ 1000) :
    1 ≤ r.timeline.duration_ms
      ∧ ∃ s an, path = some s ∧ E.animationLoad s = some an
          ∧ r.frame.total = an.totalFrame % U16 ∧ 1 ≤ r.frame.total := by
  cases path with
  | none => simp [LottieAnim.load] at hok
  | some s =>
    by_cases hs : s = ""
    · simp [LottieAnim.load, hs] at hok
    · cases han : E.animationLoad s with
      | none =>
        obtain ⟨a2, h2⟩ := load_failed E a (some s) w h l p n rate pid
          (Or.inr (Or.inr ⟨s, rfl, han⟩))
        rw [h2] at hok
        simp at hok
      | some an =>
        rw [load_loaded E a s w h l p n rate pid hs an han] at hok
        by_cases h0 : an.totalFrame % U16 = 0
        · rw [if_pos h0] at hok
          exact absurd hok (by simp)
        · rw [if_neg h0, if_pos hr, intOfFloat_rate rate hr] at hok
          simp only [Option.map_some', Option.some.injEq, Prod.mk.injEq, true_and] at hok
          subst hok
          refine ⟨?_, s, an, rfl, han, rfl, Nat.pos_of_ne_zero h0⟩
          have h1 : 1 ≤ 1000 / rate := Int.le_ediv_of_mul_le hr (by omega)
          have h2 : 1000 / rate ≤ 1000 := Int.ediv_le_self _ (by omega)
          show 1 ≤ toU32 (1000 / rate)
          have hu := toU32_of_nonneg (1000 / rate) (by omega) (by omega)
          omega

/-- Claim C23 fails on the code. The call of `load` for a source of ten frames
with the custom rate 2000 returns true and leaves `frame.total = 10` and
`timeline.duration_ms = 1000 / 2000 = 0`; the call `render(0)` on that
instance divides by `timeline.duration_ms`, which is undefined. -/
theorem load_leaves_zero_duration :
    LottieAnim.load sampleEnv {} (some "a.json") 64 64 false true 2 2000 7
        = some (true, fastRateAnim)
      ∧ fastRateAnim.frame.total = 10
      ∧ fastRateAnim.timeline.duration_ms = 0
      ∧ fastRateAnim.pid ≠ BAD_PICTUREID ∧ fastRateAnim.play = true
      ∧ fastRateAnim.render 0 = none :=
  ⟨fastRateAnim_loaded, by decide⟩

/-! ### Rectangle intersection (C24) -/

/-- Claim C24, as amended. For every rectangle `a` and every rectangle `b`
whose width and height are at least -1, an integer point lies in `a & b`
exactly when it lies in `a` and in `b`; `a & b` is empty when `a` or `b` is
empty; and for non-empty `a` and `b`, `a & b` is empty exactly when
`a.intersects(b)` is false. -/
theorem rect_and_is_intersection (a b : VRect) (hw : -1 ≤ b.width) (hh : -1 ≤ b.height) :
    (∀ x y, (a.and b).HasPoint x y ↔ a.HasPoint x y ∧ b.HasPoint x y)
      ∧ (a.empty = true ∨ b.empty = true → (a.and b).empty = true)
      ∧ (a.empty = false → b.empty = false →
          ((a.and b).empty = true ↔ a.intersects b = false)) := by
  unfold VRect.width at hw
  unfold VRect.height at hh
  have hbx : ¬ (b.x2 - b.x1 + 1 < 0) := by omega
  have hby : ¬ (b.y2 - b.y1 + 1 < 0) := by omega
  by_cases hae : a.empty = true
  · have hand : a.and b = {} := by unfold VRect.and; rw [if_pos hae]
    rw [hand]
    refine ⟨?_, ?_, ?_⟩
    · intro x y
      simp only [VRect.empty, decide_eq_true_eq] at hae
      simp only [VRect.HasPoint, VRect.left, VRect.right, VRect.top, VRect.bottom]
      constructor
      · intro h; omega
      · intro h; omega
    · intro _; decide
    · intro h; rw [hae] at h; exact absurd h (by simp)
  · have hae2 : a.x1 < a.x2 ∧ a.y1 < a.y2 := by
      simp only [VRect.empty, decide_eq_true_eq] at hae
      omega
    have hax : ¬ (a.x2 - a.x1 + 1 < 0) := by omega
    have hay : ¬ (a.y2 - a.y1 + 1 < 0) := by omega
    have hand : a.and b
        = if a.x1 > b.x2 ∨ b.x1 > a.x2 then {}
          else if a.y1 > b.y2 ∨ b.y1 > a.y2 then {}
          else { x1 := max a.x1 b.x1, x2 := min a.x2 b.x2, y1 := max a.y1 b.y1,
                 y2 := min a.y2 b.y2 } := by
      unfold VRect.and
      rw [if_neg hae]
      simp only [if_neg hax, if_neg hay, if_neg hbx, if_neg hby]
    rw [hand]
    refine ⟨?_, ?_, ?_⟩
    · intro x y
      simp only [VRect.HasPoint, VRect.left, VRect.right, VRect.top, VRect.bottom]
      split
      · simp only
        constructor
        · intro h; omega
        · intro h; omega
      · split
        · simp only
          constructor
          · intro h; omega
          · intro h; omega
        · simp only [le_max_iff, max_le_iff, lt_min_iff]
          constructor
          · intro h; omega
          · intro h; omega
    · intro h
      rcases h with h | h
      · exact absurd h hae
      · simp only [VRect.empty, decide_eq_true_eq] at h ⊢
        split
        · simp
        · split
          · simp
          · simp only [ge_iff_le, min_le_iff, le_max_iff, max_le_iff, le_min_iff]
            omega
    · intro _ hbe
      have hbe2 : b.x1 < b.x2 ∧ b.y1 < b.y2 := by
        simp only [VRect.empty, decide_eq_false_iff_not] at hbe
        omega
      simp only [VRect.intersects, VRect.left, VRect.right, VRect.top, VRect.bottom,
        decide_eq_false_iff_not, VRect.empty, decide_eq_true_eq]
      split
      · simp only
        constructor
        · intro _; omega
        · intro _; omega
      · split
        · simp only
          constructor
          · intro _; omega
          · intro _; omega
        · simp only [ge_iff_le, min_le_iff, le_max_iff, max_le_iff, le_min_iff]
          constructor
          · intro _; omega
          · intro _; omega

/-- Claim C24, witness: `VRect(0, 0, 10, 10) & VRect(5, 5, 10, 10)`. -/
theorem rect_and_is_intersection_witness :
    -1 ≤ shiftedRect.width ∧ -1 ≤ shiftedRect.height
      ∧ (∀ x y, (squareRect.and shiftedRect).HasPoint x y
          ↔ squareRect.HasPoint x y ∧ shiftedRect.HasPoint x y)
      ∧ (squareRect.empty = true ∨ shiftedRect.empty = true →
          (squareRect.and shiftedRect).empty = true)
      ∧ (squareRect.empty = false → shiftedRect.empty = false →
          ((squareRect.and shiftedRect).empty = true
            ↔ squareRect.intersects shiftedRect = false)) :=
  ⟨by decide, by decide,
    rect_and_is_intersection squareRect shiftedRect (by decide) (by decide)⟩

/-- Claim C24, as stated, fails for rectangles built with a negative width.
The rectangle `b = VRect(8, 0, -6, 10)` is empty, and for
`a = VRect(0, 0, 10, 10)` the rectangle `a & b` is not empty: it holds the
point (3, 0), which does not lie in `b`. In the other order `b & a` is empty
while `b.intersects(a)` is true. -/
theorem rect_and_reversed_operand :
    reversedRect.empty = true
      ∧ (squareRect.and reversedRect).empty = false
      ∧ (squareRect.and reversedRect).HasPoint 3 0
      ∧ ¬ reversedRect.HasPoint 3 0
      ∧ (reversedRect.and squareRect).empty = true
      ∧ reversedRect.intersects squareRect = true := by
  refine ⟨by decide, by decide, ?_, ?_, by decide, by decide⟩
  · unfold VRect.HasPoint; decide
  · unfold VRect.HasPoint; decide

/-! ### The two dashing entry points (C25) -/

/-- The comparison `vCompare(0, 0)` holds. -/
theorem vCompare_zero_zero : vCompare 0 0 = true := by
  simp [vCompare, EPSILON_FLOAT]

/-- The dasher of the dash array `{0, 0}` has neither a length nor a gap. -/
theorem zeroDasher_flags :
    (VDasher.new [0, 0] 2).mNoLength = true ∧ (VDasher.new [0, 0] 2).mNoGap = true := by
  simp [VDasher.new, VDasher.toDashes, vCompare_zero_zero]

/-- The dasher of an empty dash array has neither a length nor a gap. -/
theorem emptyDasher_flags :
    (VDasher.new [] 0).mNoLength = true ∧ (VDasher.new [] 0).mNoGap = true := by
  simp [VDasher.new, VDasher.toDashes]

/-- With neither a length nor a gap, `dashed(path)` returns the path and
`dashed(path, result)` leaves `result` reset. -/
theorem dashed_no_length_no_gap (P : PathEnv) (d : VDasher) (path result : VPath)
    (h1 : d.mNoLength = true) (h2 : d.mNoGap = true) :
    d.dashed P path = path ∧ d.dashedInto P path result = P.reset result := by
  unfold VDasher.dashed VDasher.dashedInto
  simp [h1, h2]

/-- With a length or a gap, the two entry points give the same path when
`reset` leaves the path that `VPath()` constructs. -/
theorem dashed_overloads_agree (P : PathEnv) (d : VDasher) (path result : VPath)
    (h : ¬(d.mNoLength = true ∧ d.mNoGap = true)) (hreset : P.reset result = {}) :
    d.dashed P path = d.dashedInto P path result := by
  unfold VDasher.dashed VDasher.dashedInto
  rw [hreset]
  have h2 : ¬((d.mNoLength && d.mNoGap) = true) := by simpa using h
  rw [if_neg h2, if_neg h2]

/-- Claim C25 fails on the code. For the dash array `{0, 0}` (and for the
empty dash array) the dasher has neither a length nor a gap; `dashed(path)`
then returns the path, while `dashed(path, result)` resets `result`. For the
path `moveTo(0, 0); lineTo(10, 0)` and a `reset` that empties the path, the
first gives the two elements of the path and the second none; and whatever
`reset` does, the result of the second does not depend on the path, so the two
differ for some path. -/
theorem dashed_overloads_disagree :
    ((VDasher.new [0, 0] 2).dashed samplePathEnv linePath).m_elements
        = [VPath.Element.MoveTo, VPath.Element.LineTo]
      ∧ ((VDasher.new [0, 0] 2).dashedInto samplePathEnv linePath {}).m_elements = []
      ∧ ((VDasher.new [] 0).dashed samplePathEnv linePath).m_elements
        = [VPath.Element.MoveTo, VPath.Element.LineTo]
      ∧ ((VDasher.new [] 0).dashedInto samplePathEnv linePath {}).m_elements = []
      ∧ ∀ (P : PathEnv) (result : VPath), ∃ path,
          ((VDasher.new [0, 0] 2).dashed P path).m_elements
            ≠ ((VDasher.new [0, 0] 2).dashedInto P path result).m_elements := by
  obtain ⟨z1, z2⟩ := zeroDasher_flags
  obtain ⟨e1, e2⟩ := emptyDasher_flags
  refine ⟨?_, ?_, ?_, ?_, ?_⟩
  · rw [(dashed_no_length_no_gap samplePathEnv _ linePath {} z1 z2).1]; rfl
  · rw [(dashed_no_length_no_gap samplePathEnv _ linePath {} z1 z2).2]; rfl
  · rw [(dashed_no_length_no_gap samplePathEnv _ linePath {} e1 e2).1]; rfl
  · rw [(dashed_no_length_no_gap samplePathEnv _ linePath {} e1 e2).2]; rfl
  · intro P result
    by_cases hr : (P.reset result).m_elements = []
    · refine ⟨linePath, ?_⟩
      rw [(dashed_no_length_no_gap P _ linePath result z1 z2).1,
        (dashed_no_length_no_gap P _ linePath result z1 z2).2, hr]
      simp [linePath]
    · refine ⟨{}, ?_⟩
      rw [(dashed_no_length_no_gap P _ {} result z1 z2).1,
        (dashed_no_length_no_gap P _ {} result z1 z2).2]
      exact fun h => hr h.symm

/-! ### Dash offset (C26) -/

/-- The remainder `fmod(16, 3)` is 1. -/
theorem fmod_16_3 : fmod 16 3 = some 1 := by
  have hf : Int.floor ((16 : ℚ) / 3) = 5 := by
    rw [Int.floor_eq_iff]; norm_num
  unfold fmod
  rw [if_neg (by norm_num), if_pos (by norm_num), hf]
  norm_num

/-- The remainder `fmod(16, 18)` is 16. -/
theorem fmod_16_18 : fmod 16 18 = some 16 := by
  have hf : Int.floor ((16 : ℚ) / 18) = 0 := by
    rw [Int.floor_eq_iff]; norm_num
  unfold fmod
  rw [if_neg (by norm_num), if_pos (by norm_num), hf]
  norm_num

/-- The members of `offsetDasher`. -/
theorem offsetDasher_eq :
    offsetDasher
      = { mDashArray := [{ length := 10, gap := 5 }, { length := 2, gap := 1 }],
          mArraySize := 2, mDashOffset := 16, mNoLength := false, mNoGap := false } := by
  simp [offsetDasher, VDasher.new, VDasher.toDashes, vCompare, EPSILON_FLOAT]
  norm_num

/-- Claim C26 fails on the code. For the dash array of the pairs (10, 5) and
(2, 1) with the offset 16, the total pattern length is 18 and the phase 16
lies in the second dash, 1 before its end (`mIndex = 1`, `mDiscard = false`,
`mCurrentLength = 1`), which is what the documented normalisation gives. The
first loop of `moveTo` assigns instead of adding, so `totalLength` is 3, the
sum of the last pair alone; the offset is reduced to 1 and `moveTo` leaves
`mIndex = 0`, `mDiscard = false`, `mCurrentLength = 9`. -/
theorem moveTo_offset_not_normalised :
    VDasher.patternTotal (offsetDasher.mDashArray.take offsetDasher.mArraySize) = 18
      ∧ VDasher.lastTotal (offsetDasher.mDashArray.take offsetDasher.mArraySize) = 3
      ∧ (∃ d, VDasher.moveTo 1 offsetDasher {} = Outcome.result d
          ∧ d.mIndex = 0 ∧ d.mDiscard = false ∧ d.mCurrentLength = 9)
      ∧ (∃ d, VDasher.moveToDocumented 1 offsetDasher {} = Outcome.result d
          ∧ d.mIndex = 1 ∧ d.mDiscard = false ∧ d.mCurrentLength = 1) := by
  have hv : vCompare 16 0 = false := by
    simp [vCompare, EPSILON_FLOAT]; norm_num
  have hz9 : vIsZero 9 = false := by
    simp [vIsZero_eq]; norm_num
  have hz1 : vIsZero 1 = false := by
    simp [vIsZero_eq]; norm_num
  have ht : VDasher.patternTotal (offsetDasher.mDashArray.take offsetDasher.mArraySize) = 18 := by
    rw [offsetDasher_eq]
    simp [VDasher.patternTotal]
    norm_num
  have hl : VDasher.lastTotal (offsetDasher.mDashArray.take offsetDasher.mArraySize) = 3 := by
    rw [offsetDasher_eq]
    simp [VDasher.lastTotal]
    norm_num
  have hs1 : VDasher.phaseScan (offsetDasher.mDashArray.take offsetDasher.mArraySize) 0 1
      = some (0, 9, false) := by
    rw [offsetDasher_eq]
    simp [VDasher.phaseScan]
    norm_num
  have hs2 : VDasher.phaseScan (offsetDasher.mDashArray.take offsetDasher.mArraySize) 0 16
      = some (1, 1, false) := by
    rw [offsetDasher_eq]
    simp [VDasher.phaseScan]
    norm_num
  have ho : offsetDasher.mDashOffset = 16 := by rw [offsetDasher_eq]
  refine ⟨ht, hl, ?_, ?_⟩
  · unfold VDasher.moveTo VDasher.moveToWith
    simp only [hl, ho, hv, if_true, fmod_16_3]
    rw [if_neg (by norm_num), hs1]
    simp only [hz9]
    exact ⟨_, rfl, rfl, rfl, rfl⟩
  · unfold VDasher.moveToDocumented VDasher.moveToWith
    simp only [ht, ho, hv, if_true, fmod_16_18]
    rw [if_neg (by norm_num), hs2]
    simp only [hz1]
    exact ⟨_, rfl, rfl, rfl, rfl⟩

/-- With a single pair, the first loop of `moveTo` leaves the total pattern
length, and `moveTo` does what its comment states. -/
theorem moveTo_single_pair (fuel : Nat) (d : VDasher) (p : VPointF) (e : VDasher.Dash)
    (h : d.mDashArray.take d.mArraySize = [e]) :
    VDasher.moveTo fuel d p = VDasher.moveToDocumented fuel d p := by
  unfold VDasher.moveTo VDasher.moveToDocumented
  rw [h]
  simp [VDasher.lastTotal, VDasher.patternTotal]

/-! ### Termination of the dashing (C27) -/

/-- The tolerance is zero under `vIsZero` and not equal to zero under
`vCompare`. -/
theorem epsilon_boundary :
    vIsZero EPSILON_FLOAT = true ∧ vCompare EPSILON_FLOAT 0 = false := by
  constructor
  · simp [vIsZero, EPSILON_FLOAT]
    rw [abs_of_pos (by norm_num)]
  · simp [vCompare, EPSILON_FLOAT]
    rw [abs_of_pos (by norm_num)]

/-- The members of `tinyDasher`: one pair, and both flags cleared. -/
theorem tinyDasher_eq :
    tinyDasher
      = { mDashArray := [{ length := EPSILON_FLOAT, gap := EPSILON_FLOAT }],
          mArraySize := 1, mNoLength := false, mNoGap := false } := by
  simp [tinyDasher, VDasher.new, VDasher.toDashes, epsilon_boundary.2]

/-- On a dasher whose dash array is the one pair of `tinyDasher`, the body of
`updateActiveSegment` is defined and leaves such a dasher, with a current
length that is zero under `vIsZero`. -/
theorem nextSegment_tiny (d : VDasher)
    (h1 : d.mDashArray = [{ length := EPSILON_FLOAT, gap := EPSILON_FLOAT }])
    (h2 : d.mArraySize = 1) (h3 : d.mIndex = 0) :
    ∃ d2, VDasher.nextSegment d = some d2
      ∧ d2.mDashArray = [{ length := EPSILON_FLOAT, gap := EPSILON_FLOAT }]
      ∧ d2.mArraySize = 1 ∧ d2.mIndex = 0 ∧ d2.mCurrentLength = EPSILON_FLOAT := by
  unfold VDasher.nextSegment
  by_cases hd : d.mDiscard = true
  · rw [if_pos hd, if_neg (by omega), h1, h2, h3]
    refine ⟨_, rfl, ?_, ?_, ?_, ?_⟩ <;> rfl
  · rw [if_neg hd, h1, h3]
    refine ⟨_, rfl, ?_, ?_, ?_, ?_⟩ <;> first | rfl | assumption

/-- On such a dasher `updateActiveSegment` is not finished within any bound on
the depth of its recursion. -/
theorem updateActiveSegment_tiny (fuel : Nat) :
    ∀ d : VDasher,
      d.mDashArray = [{ length := EPSILON_FLOAT, gap := EPSILON_FLOAT }] →
      d.mArraySize = 1 → d.mIndex = 0 →
      VDasher.updateActiveSegment fuel d = Outcome.unfinished := by
  induction fuel with
  | zero => intro d _ _ _; rfl
  | succ n ih =>
    intro d h1 h2 h3
    obtain ⟨d2, hn, q1, q2, q3, q4⟩ := nextSegment_tiny d h1 h2 h3
    unfold VDasher.updateActiveSegment
    rw [hn]
    simp only
    rw [q4, if_pos epsilon_boundary.1]
    exact ih d2 q1 q2 q3

/-- Claim C27 fails on the code. The dash array `{0.000001, 0.000001}` has
non-negative entries, and its length and gap are not zero under `vCompare`
(which tests `< 0.000001`), so `dashed` of a path that is not empty reaches
`dashHelper`. Both are zero under `vIsZero` (which tests `<= 0.000001`): the
first `moveTo` calls `updateActiveSegment`, every step of which is defined
and finds a zero length again, so the recursion is not finished within any
bound. -/
theorem dashing_not_terminating :
    0 ≤ EPSILON_FLOAT
      ∧ tinyDasher.mNoLength = false ∧ tinyDasher.mNoGap = false
      ∧ (∀ P : PathEnv, tinyDasher.dashed P linePath = P.dashHelper tinyDasher linePath {})
      ∧ (∀ (fuel : Nat) (p : VPointF), VDasher.moveTo fuel tinyDasher p = Outcome.unfinished)
      ∧ (∀ k : Nat, ∃ d,
          (fun s => s.bind VDasher.nextSegment)^[k] (some tinyDasher) = some d
            ∧ (k ≠ 0 → vIsZero d.mCurrentLength = true)) := by
  have hflags : tinyDasher.mNoLength = false ∧ tinyDasher.mNoGap = false := by
    rw [tinyDasher_eq]; exact ⟨rfl, rfl⟩
  have hA : tinyDasher.mDashArray = [{ length := EPSILON_FLOAT, gap := EPSILON_FLOAT }] := by
    rw [tinyDasher_eq]
  have hS : tinyDasher.mArraySize = 1 := by rw [tinyDasher_eq]
  have hO : tinyDasher.mDashOffset = 0 := by rw [tinyDasher_eq]
  refine ⟨by unfold EPSILON_FLOAT; norm_num, hflags.1, hflags.2, ?_, ?_, ?_⟩
  · intro P
    unfold VDasher.dashed
    rw [hflags.1, hflags.2]
    simp [linePath, VPath.empty]
  · intro fuel p
    unfold VDasher.moveTo VDasher.moveToWith
    simp only [hO, vCompare_zero_zero, hA]
    simp only [Bool.true_eq_false, if_false, List.get?_cons_zero, Option.map_some',
      epsilon_boundary.1, if_true]
    exact updateActiveSegment_tiny fuel _ hA hS rfl
  · intro k
    have key : ∀ k : Nat, ∃ d,
        (fun s => s.bind VDasher.nextSegment)^[k] (some tinyDasher) = some d
          ∧ d.mDashArray = [{ length := EPSILON_FLOAT, gap := EPSILON_FLOAT }]
          ∧ d.mArraySize = 1 ∧ d.mIndex = 0
          ∧ (k ≠ 0 → d.mCurrentLength = EPSILON_FLOAT) := by
      intro k
      induction k with
      | zero => exact ⟨tinyDasher, rfl, hA, hS, by rw [tinyDasher_eq], fun h => absurd rfl h⟩
      | succ n ih =>
        obtain ⟨d, hd, q1, q2, q3, -⟩ := ih
        obtain ⟨d2, hn, r1, r2, r3, r4⟩ := nextSegment_tiny d q1 q2 q3
        refine ⟨d2, ?_, r1, r2, r3, fun _ => r4⟩
        rw [Function.iterate_succ_apply', hd]
        exact hn
    obtain ⟨d, hd, -, -, -, h5⟩ := key k
    refine ⟨d, hd, fun hk => ?_⟩
    rw [h5 hk]
    exact epsilon_boundary.1

/-! ### Trim segment (C28) -/

/-- The remainder `fmod(x, y)` for a positive `y` is defined and lies strictly
between `-y` and `y`. -/
theorem fmod_bounds (x y : ℚ) (hy : 0 < y) : ∃ f, fmod x y = some f ∧ -y < f ∧ f < y := by
  unfold fmod
  rw [if_neg (ne_of_gt hy)]
  refine ⟨_, rfl, ?_, ?_⟩
  · have hx : x = x / y * y := by field_simp
    by_cases hq : 0 ≤ x / y
    · rw [if_pos hq]
      have h1 := Int.floor_le (x / y)
      have : 0 ≤ (x / y - (Int.floor (x / y) : ℚ)) * y :=
        mul_nonneg (by linarith) (le_of_lt hy)
      nlinarith
    · rw [if_neg hq]
      have h1 := Int.ceil_lt_add_one (x / y)
      have : (x / y - (Int.ceil (x / y) : ℚ) + 1) * y > 0 := mul_pos (by linarith) hy
      nlinarith
  · have hx : x = x / y * y := by field_simp
    by_cases hq : 0 ≤ x / y
    · rw [if_pos hq]
      have h1 := Int.lt_floor_add_one (x / y)
      have : ((Int.floor (x / y) : ℚ) + 1 - x / y) * y > 0 := mul_pos (by linarith) hy
      nlinarith
    · rw [if_neg hq]
      have h1 := Int.le_ceil (x / y)
      have : 0 ≤ ((Int.ceil (x / y) : ℚ) - x / y) * y :=
        mul_nonneg (by linarith) (le_of_lt hy)
      nlinarith

/-- A result of `noloop` has values that are not negative, `start <= end`,
and both values at most the larger argument. -/
theorem noloop_spec (s e : ℚ) (r : LOTTrimData.Segment) (h : LOTTrimData.noloop s e = some r) :
    0 ≤ r.start ∧ r.start ≤ r.end_ ∧ r.end_ ≤ max s e := by
  unfold LOTTrimData.noloop at h
  split at h
  · rename_i hc
    simp only [Option.some.injEq] at h
    subst h
    exact ⟨le_min hc.1 hc.2, min_le_max, le_refl _⟩
  · exact absurd h (by simp)

/-- A result of `loop` has values that are not negative, `start >= end`, and
both values at most the larger argument. -/
theorem loop_spec (s e : ℚ) (r : LOTTrimData.Segment) (h : LOTTrimData.loop s e = some r) :
    0 ≤ r.end_ ∧ r.end_ ≤ r.start ∧ r.start ≤ max s e := by
  unfold LOTTrimData.loop at h
  split at h
  · rename_i hc
    simp only [Option.some.injEq] at h
    subst h
    exact ⟨le_min hc.1 hc.2, min_le_max, le_refl _⟩
  · exact absurd h (by simp)

/-- The function `noloop` on arguments in [0, 1]: no assertion fails and the
result lies in [0, 1]. -/
theorem noloop_some (s e : ℚ) (hs : 0 ≤ s) (he : 0 ≤ e) (hs1 : s ≤ 1) (he1 : e ≤ 1) :
    ∃ r, LOTTrimData.noloop s e = some r ∧ 0 ≤ r.start ∧ r.start ≤ 1 ∧ 0 ≤ r.end_
      ∧ r.end_ ≤ 1 := by
  unfold LOTTrimData.noloop
  rw [if_pos ⟨hs, he⟩]
  exact ⟨_, rfl, le_min hs he, le_trans (min_le_left _ _) hs1, le_trans hs (le_max_left _ _),
    max_le hs1 he1⟩

/-- The function `loop` on arguments in [0, 1]: no assertion fails and the
result lies in [0, 1]. -/
theorem loop_some (s e : ℚ) (hs : 0 ≤ s) (he : 0 ≤ e) (hs1 : s ≤ 1) (he1 : e ≤ 1) :
    ∃ r, LOTTrimData.loop s e = some r ∧ 0 ≤ r.start ∧ r.start ≤ 1 ∧ 0 ≤ r.end_
      ∧ r.end_ ≤ 1 := by
  unfold LOTTrimData.loop
  rw [if_pos ⟨hs, he⟩]
  exact ⟨_, rfl, le_trans hs (le_max_left _ _), max_le hs1 he1, le_min hs he,
    le_trans (min_le_left _ _) hs1⟩

/-- Claim C28. For start and end values in [0, 100] and every offset value,
`segment` fails no assertion of `noloop` and `loop` and returns a segment with
`0 <= start <= 1` and `0 <= end <= 1`; it returns (0, 0) when
`|start - end|` is zero under `vCompare` and otherwise (0, 1) when it is one
under `vCompare`; a result of `noloop` has `start <= end` and a result of
`loop` has `start >= end`. -/
theorem segment_in_range (sv ev ov : ℚ) (hs0 : 0 ≤ sv) (hs1 : sv ≤ 100) (he0 : 0 ≤ ev)
    (he1 : ev ≤ 100) :
    ∃ r, LOTTrimData.segment sv ev ov = some r
      ∧ 0 ≤ r.start ∧ r.start ≤ 1 ∧ 0 ≤ r.end_ ∧ r.end_ ≤ 1
      ∧ (vCompare |sv / 100 - ev / 100| 0 = true → r = { start := 0, end_ := 0 })
      ∧ (vCompare |sv / 100 - ev / 100| 0 = false → vCompare |sv / 100 - ev / 100| 1 = true →
          r = { start := 0, end_ := 1 })
      ∧ (∀ x y q, LOTTrimData.noloop x y = some q → q.start ≤ q.end_)
      ∧ (∀ x y q, LOTTrimData.loop x y = some q → q.end_ ≤ q.start) := by
  obtain ⟨f, hf, hf1, hf2⟩ := fmod_bounds ov 360 (by norm_num)
  have ho1 : -1 < f / 360 := by
    rw [lt_div_iff₀ (by norm_num)]; linarith
  have ho2 : f / 360 < 1 := by
    rw [div_lt_iff₀ (by norm_num)]; linarith
  have hs : 0 ≤ sv / 100 ∧ sv / 100 ≤ 1 := by
    constructor
    · exact div_nonneg hs0 (by norm_num)
    · rw [div_le_iff₀ (by norm_num)]; linarith
  have he : 0 ≤ ev / 100 ∧ ev / 100 ≤ 1 := by
    constructor
    · exact div_nonneg he0 (by norm_num)
    · rw [div_le_iff₀ (by norm_num)]; linarith
  have hno : ∀ x y q, LOTTrimData.noloop x y = some q → q.start ≤ q.end_ :=
    fun x y q h => (noloop_spec x y q h).2.1
  have hlo : ∀ x y q, LOTTrimData.loop x y = some q → q.end_ ≤ q.start :=
    fun x y q h => (loop_spec x y q h).2.1
  unfold LOTTrimData.segment
  rw [hf]
  simp only
  generalize sv / 100 = s at hs ⊢
  generalize ev / 100 = e at he ⊢
  generalize f / 360 = o at ho1 ho2 ⊢
  by_cases h0 : vCompare |s - e| 0 = true
  · rw [if_pos h0]
    refine ⟨_, rfl, by norm_num, by norm_num, by norm_num, by norm_num, fun _ => rfl, ?_, hno, hlo⟩
    intro h; rw [h0] at h; exact absurd h (by simp)
  · rw [if_neg h0]
    by_cases h1 : vCompare |s - e| 1 = true
    · rw [if_pos h1]
      refine ⟨_, rfl, by norm_num, by norm_num, by norm_num, by norm_num, ?_, fun _ _ => rfl,
        hno, hlo⟩
      intro h; exact absurd h h0
    · rw [if_neg h1]
      have fin : ∀ x : Option LOTTrimData.Segment,
          (∃ r, x = some r ∧ 0 ≤ r.start ∧ r.start ≤ 1 ∧ 0 ≤ r.end_ ∧ r.end_ ≤ 1) →
          ∃ r, x = some r ∧ 0 ≤ r.start ∧ r.start ≤ 1 ∧ 0 ≤ r.end_ ∧ r.end_ ≤ 1
            ∧ (vCompare |s - e| 0 = true → r = { start := 0, end_ := 0 })
            ∧ (vCompare |s - e| 0 = false → vCompare |s - e| 1 = true →
                r = { start := 0, end_ := 1 })
            ∧ (∀ x y q, LOTTrimData.noloop x y = some q → q.start ≤ q.end_)
            ∧ (∀ x y q, LOTTrimData.loop x y = some q → q.end_ ≤ q.start) := by
        rintro x ⟨r, hr, q1, q2, q3, q4⟩
        exact ⟨r, hr, q1, q2, q3, q4, fun h => absurd h h0, fun _ h => absurd h h1, hno, hlo⟩
      apply fin
      by_cases hop : o > 0
      · rw [if_pos hop]
        by_cases c1 : s + o ≤ 1 ∧ e + o ≤ 1
        · rw [if_pos c1]
          exact noloop_some _ _ (by linarith [hs.1]) (by linarith [he.1]) c1.1 c1.2
        · rw [if_neg c1]
          by_cases c2 : s + o > 1 ∧ e + o > 1
          · rw [if_pos c2]
            exact noloop_some _ _ (by linarith [c2.1]) (by linarith [c2.2])
              (by linarith [hs.2]) (by linarith [he.2])
          · rw [if_neg c2]
            by_cases c3 : s + o > 1
            · rw [if_pos c3]
              have : e + o ≤ 1 := by
                by_contra hh
                exact c2 ⟨c3, by linarith⟩
              exact loop_some _ _ (by linarith) (by linarith [he.1]) (by linarith [hs.2]) this
            · rw [if_neg c3]
              have hse : s + o ≤ 1 := by linarith
              have : e + o > 1 := by
                by_contra hh
                exact c1 ⟨hse, by linarith⟩
              exact loop_some _ _ (by linarith [hs.1]) (by linarith) hse (by linarith [he.2])
      · rw [if_neg hop]
        have hop2 : o ≤ 0 := by linarith
        by_cases c1 : s + o ≥ 0 ∧ e + o ≥ 0
        · rw [if_pos c1]
          exact noloop_some _ _ c1.1 c1.2 (by linarith [hs.2]) (by linarith [he.2])
        · rw [if_neg c1]
          by_cases c2 : s + o < 0 ∧ e + o < 0
          · rw [if_pos c2]
            exact noloop_some _ _ (by linarith [hs.1]) (by linarith [he.1])
              (by linarith [c2.1]) (by linarith [c2.2])
          · rw [if_neg c2]
            by_cases c3 : s + o < 0
            · rw [if_pos c3]
              have : e + o ≥ 0 := by
                by_contra hh
                exact c2 ⟨c3, by linarith⟩
              exact loop_some _ _ (by linarith [hs.1]) this (by linarith) (by linarith [he.2])
            · rw [if_neg c3]
              have hse : s + o ≥ 0 := by linarith
              have : e + o < 0 := by
                by_contra hh
                exact c1 ⟨hse, by linarith⟩
              exact loop_some _ _ hse (by linarith [he.1]) (by linarith [hs.2]) (by linarith)

/-- Claim C28, witness: start 25, end 75 and an offset of 270 degrees. -/
theorem segment_in_range_witness :
    ∃ r, LOTTrimData.segment 25 75 270 = some r
      ∧ 0 ≤ r.start ∧ r.start ≤ 1 ∧ 0 ≤ r.end_ ∧ r.end_ ≤ 1 := by
  obtain ⟨r, h, q1, q2, q3, q4, -⟩ :=
    segment_in_range 25 75 270 (by norm_num) (by norm_num) (by norm_num) (by norm_num)
  exact ⟨r, h, q1, q2, q3, q4⟩

/-! ### Change detection (C29) -/

/-- The larger of two non-negative numbers plus 0.375 times the smaller is
within 7% of the root of the sum of their squares. -/
theorem alpha_max_beta_min (M m : ℝ) (hm : 0 ≤ m) (hle : m ≤ M) :
    |M + 3 / 8 * m - Real.sqrt (M ^ 2 + m ^ 2)| ≤ 7 / 100 * Real.sqrt (M ^ 2 + m ^ 2)
      ∧ (0 < M → |M + 3 / 8 * m - Real.sqrt (M ^ 2 + m ^ 2)|
            < 7 / 100 * Real.sqrt (M ^ 2 + m ^ 2))
      ∧ (m = 0 → M + 3 / 8 * m = Real.sqrt (M ^ 2 + m ^ 2)) := by
  have hM : 0 ≤ M := le_trans hm hle
  have hE0 : 0 ≤ Real.sqrt (M ^ 2 + m ^ 2) := Real.sqrt_nonneg _
  have hE2 : Real.sqrt (M ^ 2 + m ^ 2) ^ 2 = M ^ 2 + m ^ 2 :=
    Real.sq_sqrt (by positivity)
  have hstrict : 0 < M → |M + 3 / 8 * m - Real.sqrt (M ^ 2 + m ^ 2)|
      < 7 / 100 * Real.sqrt (M ^ 2 + m ^ 2) := by
    intro hpos
    have hEpos : 0 < Real.sqrt (M ^ 2 + m ^ 2) := Real.sqrt_pos.mpr (by positivity)
    rw [abs_lt]
    constructor
    · by_contra hcon
      push_neg at hcon
      have h1 : M + 3 / 8 * m ≤ 93 / 100 * Real.sqrt (M ^ 2 + m ^ 2) := by linarith
      have h2 : (M + 3 / 8 * m) ^ 2 ≤ (93 / 100 * Real.sqrt (M ^ 2 + m ^ 2)) ^ 2 :=
        pow_le_pow_left₀ (by positivity) h1 2
      rw [mul_pow, hE2] at h2
      nlinarith [mul_nonneg hm hM, mul_nonneg hm (sub_nonneg.mpr hle), sq_nonneg m, sq_pos_of_pos hpos]
    · by_contra hcon
      push_neg at hcon
      have h1 : 107 / 100 * Real.sqrt (M ^ 2 + m ^ 2) ≤ M + 3 / 8 * m := by linarith
      have h2 : (107 / 100 * Real.sqrt (M ^ 2 + m ^ 2)) ^ 2 ≤ (M + 3 / 8 * m) ^ 2 :=
        pow_le_pow_left₀ (by positivity) h1 2
      rw [mul_pow, hE2] at h2
      nlinarith [sq_nonneg (M - 2 * m), sq_nonneg (M - 3 * m), sq_nonneg (3 * M - 8 * m),
        sq_pos_of_pos hpos, sq_nonneg m, mul_nonneg hm hM]
  refine ⟨?_, hstrict, ?_⟩
  · rcases eq_or_lt_of_le hM with h0 | hpos
    · have hm0 : m = 0 := by linarith
      rw [← h0, hm0]
      simp
    · exact le_of_lt (hstrict hpos)
  · intro hm0
    rw [hm0]
    simp only [mul_zero, add_zero, ne_eq, OfNat.ofNat_ne_zero, not_false_eq_true, zero_pow]
    rw [Real.sqrt_sq hM]

/-- Claim C30. For all real `x1`, `y1`, `x2`, `y2` the value of
`VLine::length`, `max(|dx|, |dy|) + 0.375 * min(|dx|, |dy|)`, differs from the
Euclidean length `sqrt(dx^2 + dy^2)` by less than 7% of that length when the
end points differ (and by nothing when they are equal), and it is the
Euclidean length for axis-aligned segments. -/
theorem length_error_bound (x1 y1 x2 y2 : ℝ) :
    |VLine.length x1 y1 x2 y2 - Real.sqrt ((x2 - x1) ^ 2 + (y2 - y1) ^ 2)|
        ≤ 7 / 100 * Real.sqrt ((x2 - x1) ^ 2 + (y2 - y1) ^ 2)
      ∧ (x1 ≠ x2 ∨ y1 ≠ y2 →
          |VLine.length x1 y1 x2 y2 - Real.sqrt ((x2 - x1) ^ 2 + (y2 - y1) ^ 2)|
            < 7 / 100 * Real.sqrt ((x2 - x1) ^ 2 + (y2 - y1) ^ 2))
      ∧ (x1 = x2 ∨ y1 = y2 →
          VLine.length x1 y1 x2 y2 = Real.sqrt ((x2 - x1) ^ 2 + (y2 - y1) ^ 2)) := by
  have habs : ∀ x : ℝ, (if x < 0 then -x else x) = |x| := by
    intro x
    split
    · rename_i h; rw [abs_of_neg h]
    · rename_i h; rw [abs_of_nonneg (not_lt.mp h)]
  have hlen : VLine.length x1 y1 x2 y2
      = if |x2 - x1| > |y2 - y1| then |x2 - x1| + 3 / 8 * |y2 - y1|
        else |y2 - y1| + 3 / 8 * |x2 - x1| := by
    unfold VLine.length
    simp only [habs]
  have hsq : (x2 - x1) ^ 2 + (y2 - y1) ^ 2 = |x2 - x1| ^ 2 + |y2 - y1| ^ 2 := by
    rw [sq_abs, sq_abs]
  rw [hlen, hsq]
  have ha : 0 ≤ |x2 - x1| := abs_nonneg _
  have hb : 0 ≤ |y2 - y1| := abs_nonneg _
  by_cases hgt : |x2 - x1| > |y2 - y1|
  · rw [if_pos hgt]
    obtain ⟨k1, k2, k3⟩ := alpha_max_beta_min |x2 - x1| |y2 - y1| hb (le_of_lt hgt)
    refine ⟨k1, fun _ => k2 (lt_of_le_of_lt hb hgt), ?_⟩
    rintro (h | h)
    · exfalso
      rw [h, sub_self, abs_zero] at hgt
      linarith
    · apply k3
      rw [h, sub_self, abs_zero]
  · rw [if_neg hgt]
    have hle : |x2 - x1| ≤ |y2 - y1| := not_lt.mp hgt
    obtain ⟨k1, k2, k3⟩ := alpha_max_beta_min |y2 - y1| |x2 - x1| ha hle
    rw [add_comm (|x2 - x1| ^ 2)]
    refine ⟨k1, ?_, ?_⟩
    · intro hne
      apply k2
      rcases hne with h | h
      · have : 0 < |x2 - x1| := abs_pos.mpr (sub_ne_zero.mpr (Ne.symm h))
        linarith
      · exact abs_pos.mpr (sub_ne_zero.mpr (Ne.symm h))
    · rintro (h | h)
      · apply k3
        rw [h, sub_self, abs_zero]
      · have hy : |y2 - y1| = 0 := by rw [h, sub_self, abs_zero]
        have hx : |x2 - x1| = 0 := by linarith
        rw [hy, hx]
        simp

/-- Claim C30, witness: the segment from (0, 0) to (3, 4), of length 5, for
which the rational model of `VLine::length` gives 41/8. -/
theorem length_error_bound_witness :
    VLine.length (0 : ℚ) 0 3 4 = 41 / 8
      ∧ |VLine.length (0 : ℝ) 0 3 4 - Real.sqrt ((3 - 0) ^ 2 + (4 - 0) ^ 2)|
          < 7 / 100 * Real.sqrt ((3 - 0) ^ 2 + (4 - 0) ^ 2) :=
  ⟨by simp [VLine.length]; norm_num,
    (length_error_bound 0 0 3 4).2.1 (Or.inl (by norm_num))⟩

/-! ### Termination of `updateActiveSegment` away from the tolerance -/

/-- The body of `updateActiveSegment` on a dasher whose index is inside its
dash array: it is defined, moves the dasher to the next place of the pattern
(cyclically) and sets `mCurrentLength` to the length at that place. -/
theorem nextSegment_position (d : VDasher) (hlen : d.mDashArray.length = d.mArraySize)
    (hi : d.mIndex < d.mArraySize) :
    ∃ d2, VDasher.nextSegment d = some d2
      ∧ d2.mDashArray = d.mDashArray ∧ d2.mArraySize = d.mArraySize
      ∧ d2.mIndex < d2.mArraySize
      ∧ d2.position = (d.position + 1) % (2 * d.mArraySize)
      ∧ d.segmentAt d2.position = some d2.mCurrentLength := by
  have hn : 0 < d.mArraySize := by omega
  unfold VDasher.nextSegment
  by_cases hd : d.mDiscard = true
  · rw [if_pos hd, if_neg (by omega)]
    have hlt : (d.mIndex + 1) % d.mArraySize < d.mDashArray.length := by
      rw [hlen]; exact Nat.mod_lt _ hn
    rw [List.get?_eq_get hlt]
    refine ⟨_, rfl, rfl, rfl, ?_, ?_, ?_⟩
    · exact Nat.mod_lt _ hn
    · simp only [VDasher.position, hd, if_true]
      simp only [Bool.false_eq_true, if_false, add_zero]
      have h1 : 2 * d.mIndex + 1 + 1 = 2 * (d.mIndex + 1) := by ring
      rw [h1, Nat.mul_mod_mul_left]
    · simp only [VDasher.segmentAt, VDasher.position, Bool.false_eq_true, if_false, add_zero]
      rw [Nat.mul_div_cancel_left _ (by omega : 0 < 2), List.get?_eq_get hlt]
      simp
  · have hlt : d.mIndex < d.mDashArray.length := by rw [hlen]; exact hi
    rw [if_neg hd, List.get?_eq_get hlt]
    refine ⟨_, rfl, rfl, rfl, hi, ?_, ?_⟩
    · simp only [VDasher.position, hd, if_true, if_false]
      simp only [Bool.false_eq_true, if_false, add_zero]
      rw [Nat.mod_eq_of_lt (by omega)]
    · simp only [VDasher.segmentAt, VDasher.position, if_true]
      have h1 : (2 * d.mIndex + 1) / 2 = d.mIndex := by omega
      have h2 : (2 * d.mIndex + 1) % 2 ≠ 0 := by omega
      rw [h1, List.get?_eq_get hlt]
      simp [h2]

/-- When the place `k + 1` steps ahead (cyclically) holds a length that is not
zero under `vIsZero`, `updateActiveSegment` returns within `k + 1` nested
calls, at a length that is not zero. -/
theorem updateActiveSegment_reaches (k : Nat) :
    ∀ d : VDasher, d.mDashArray.length = d.mArraySize → d.mIndex < d.mArraySize →
      (∃ x, d.segmentAt ((d.position + 1 + k) % (2 * d.mArraySize)) = some x
          ∧ vIsZero x = false) →
      ∃ fuel d2, fuel ≤ k + 1 ∧ VDasher.updateActiveSegment fuel d = Outcome.result d2
        ∧ vIsZero d2.mCurrentLength = false := by
  induction k with
  | zero =>
    intro d hlen hi ⟨x, hx, hz⟩
    obtain ⟨d2, hn, q1, q2, q3, q4, q5⟩ := nextSegment_position d hlen hi
    rw [add_zero, ← q4, q5] at hx
    have hcur : d2.mCurrentLength = x := Option.some.inj hx
    refine ⟨1, d2, le_refl _, ?_, by rw [hcur]; exact hz⟩
    unfold VDasher.updateActiveSegment
    rw [hn]
    simp only
    rw [if_neg (by rw [hcur, hz]; simp)]
  | succ k ih =>
    intro d hlen hi ⟨x, hx, hz⟩
    obtain ⟨d2, hn, q1, q2, q3, q4, q5⟩ := nextSegment_position d hlen hi
    by_cases hc : vIsZero d2.mCurrentLength = true
    · have hseg : ∀ p, d2.segmentAt p = d.segmentAt p := by
        intro p; unfold VDasher.segmentAt; rw [q1]
      have hpos : (d2.position + 1 + k) % (2 * d2.mArraySize)
          = (d.position + 1 + (k + 1)) % (2 * d.mArraySize) := by
        rw [q2, q4]
        have : d.position + 1 + (k + 1) = (d.position + 1) + (1 + k) := by ring
        rw [this, add_assoc ((d.position + 1) % (2 * d.mArraySize)) 1 k, Nat.mod_add_mod]
      obtain ⟨fuel, d3, hf, hr, hz3⟩ :=
        ih d2 (by rw [q1, q2]; exact hlen) q3 ⟨x, by rw [hpos, hseg]; exact hx, hz⟩
      refine ⟨fuel + 1, d3, by omega, ?_, hz3⟩
      rw [VDasher.updateActiveSegment, hn]
      simp only
      rw [if_pos hc]
      exact hr
    · refine ⟨1, d2, by omega, ?_, by simpa using hc⟩
      unfold VDasher.updateActiveSegment
      rw [hn]
      simp only
      rw [if_neg hc]

/-- When some dash or gap of the pattern has a length that is not zero under
`vIsZero`, `updateActiveSegment` returns within `2 * mArraySize` nested calls,
at a length that is not zero. -/
theorem updateActiveSegment_terminates (d : VDasher)
    (hlen : d.mDashArray.length = d.mArraySize) (hi : d.mIndex < d.mArraySize)
    (p : Nat) (hp : p < 2 * d.mArraySize)
    (hseg : ∃ x, d.segmentAt p = some x ∧ vIsZero x = false) :
    ∃ fuel d2, fuel ≤ 2 * d.mArraySize
      ∧ VDasher.updateActiveSegment fuel d = Outcome.result d2
      ∧ vIsZero d2.mCurrentLength = false := by
  have hpos : d.position < 2 * d.mArraySize := by
    unfold VDasher.position
    split <;> omega
  -- the number of steps from the place after the current one to the place `p`
  have hk : ∃ k, k < 2 * d.mArraySize ∧ (d.position + 1 + k) % (2 * d.mArraySize) = p := by
    by_cases hlt : d.position < p
    · refine ⟨p - d.position - 1, by omega, ?_⟩
      have : d.position + 1 + (p - d.position - 1) = p := by omega
      rw [this, Nat.mod_eq_of_lt hp]
    · refine ⟨2 * d.mArraySize + p - d.position - 1, by omega, ?_⟩
      have : d.position + 1 + (2 * d.mArraySize + p - d.position - 1)
          = p + 2 * d.mArraySize := by omega
      rw [this, Nat.add_mod_right, Nat.mod_eq_of_lt hp]
  obtain ⟨k, hk1, hk2⟩ := hk
  obtain ⟨fuel, d2, hf, hr, hz⟩ :=
    updateActiveSegment_reaches k d hlen hi (by rw [hk2]; exact hseg)
  exact ⟨fuel, d2, by omega, hr, hz⟩

end ImLottie
